import Mathlib

/-!
# Organized point cloud compression: frame codec and geometry analysis

A shallow embedding of `organized_pointcloud_compression.hpp`
(`pcl::io::OrganizedPointCloudCompression`): the two encode entry points, the
decoder with its resynchronization loop, the colour sanitizing loop and
`analyzeOrganizedCloud`.

Conventions of the embedding.

* A byte is a natural number (below 256 on a real stream); a stream is the list
  of bytes still to be read, an output sink is the list of bytes written.
* `uint32_t` values are natural numbers, reduced modulo `2^32` where the source
  computes or casts in 32 bits.  `size_t` is 64 bits wide.
* A scalar is written in its native object representation, taken little-endian.
* A `float` is a `CFloat`: a rational number, a signed zero, an infinity or
  NaN.  Arithmetic on finite values is exact (it neither rounds nor
  overflows); division by zero, the infinities, NaN and the sign of a zero
  follow IEC 60559, as the arithmetic of the source does.  The 32-bit object
  representation is given by a `FloatLayout`.  A `float` that is read back from
  a stream is kept as its 32-bit pattern.
* The coordinates of a point that passes `pcl::isFinite` are finite: they are
  rational numbers, a zero coordinate being the positive zero.
* `assert` is enabled: a failed assertion aborts the call (`none`).
* The image codec, the cloud/image conversion, the point traits and the frame
  marker live in other files of the library and are parameters (`Collaborators`).
-/

namespace OrganizedCompression

/-! ## Bytes and scalars -/

/-- One byte of a stream. -/
abbrev Byte := Nat

/-- The four bytes of a 32-bit scalar, least significant first
(`write (reinterpret_cast<const char*> (&v), sizeof (v))`). -/
def le32 (v : Nat) : List Byte :=
  [v % 256, v / 256 % 256, v / 65536 % 256, v / 16777216 % 256]

/-- The 32-bit scalar stored in four bytes, least significant first. -/
def ofLe32 (bs : List Byte) : Nat :=
  bs.getD 0 0 + 256 * bs.getD 1 0 + 65536 * bs.getD 2 0 + 16777216 * bs.getD 3 0

/-- The cast `static_cast<uint32_t> (n)`. -/
def toUInt32 (n : Nat) : Nat := n % 2 ^ 32

/-! ## Values of `float` -/

/-- A value of `float`: a rational number, the negative zero, an infinity or
NaN. -/
inductive CFloat where
  /-- A finite value; `finite 0` is the positive zero. -/
  | finite (q : ℚ)
  /-- The zero whose sign bit is set. -/
  | negZero
  /-- Positive infinity. -/
  | posInf
  /-- Negative infinity. -/
  | negInf
  /-- Not a number. -/
  | nan
deriving DecidableEq, Repr

/-- The value is NaN. -/
def CFloat.isNaN : CFloat → Bool
  | CFloat.nan => true
  | _ => false

/-- The value is an infinity. -/
def CFloat.isInf : CFloat → Bool
  | CFloat.posInf => true
  | CFloat.negInf => true
  | _ => false

/-- The value is a zero, of either sign. -/
def CFloat.isZero : CFloat → Bool
  | CFloat.finite q => decide (q = 0)
  | CFloat.negZero => true
  | _ => false

/-- The sign bit of a value (that of NaN is not used). -/
def CFloat.signBit : CFloat → Bool
  | CFloat.finite q => decide (q < 0)
  | CFloat.negZero => true
  | CFloat.negInf => true
  | _ => false

/-- The rational number a finite value stands for; both zeros stand for 0. -/
def CFloat.toRat : CFloat → ℚ
  | CFloat.finite q => q
  | _ => 0

/-- The zero with the given sign bit. -/
def CFloat.zero (negative : Bool) : CFloat :=
  if negative then CFloat.negZero else CFloat.finite 0

/-- The infinity with the given sign bit. -/
def CFloat.infinity (negative : Bool) : CFloat :=
  if negative then CFloat.negInf else CFloat.posInf

/-- The finite value `q`; when `q` is 0, the zero with the given sign bit. -/
def CFloat.ofRat (negative : Bool) (q : ℚ) : CFloat :=
  if q = 0 then CFloat.zero negative else CFloat.finite q

/-- The conversion `static_cast<float> (i)` of an `int`. -/
def CFloat.ofInt (i : Int) : CFloat := CFloat.finite (i : ℚ)

/-- The product `a * b`: NaN for a NaN operand and for an infinity times a
zero; otherwise the sign bit is the exclusive or of the operands' sign bits. -/
def CFloat.mul (a b : CFloat) : CFloat :=
  if a.isNaN || b.isNaN then CFloat.nan
  else if (a.isInf && b.isZero) || (a.isZero && b.isInf) then CFloat.nan
  else if a.isInf || b.isInf then CFloat.infinity (a.signBit != b.signBit)
  else CFloat.ofRat (a.signBit != b.signBit) (a.toRat * b.toRat)

/-- The quotient `a / b`: NaN for a NaN operand, for an infinity by an infinity
and for a zero by a zero; an infinity for an infinity by a finite value and for
a non-zero value by a zero; a zero for a finite value by an infinity; otherwise
the sign bit is the exclusive or of the operands' sign bits. -/
def CFloat.div (a b : CFloat) : CFloat :=
  if a.isNaN || b.isNaN then CFloat.nan
  else if (a.isInf && b.isInf) || (a.isZero && b.isZero) then CFloat.nan
  else if a.isInf || b.isZero then CFloat.infinity (a.signBit != b.signBit)
  else if b.isInf then CFloat.zero (a.signBit != b.signBit)
  else CFloat.ofRat (a.signBit != b.signBit) (a.toRat / b.toRat)

/-- The sum `a + b`: NaN for a NaN operand and for two infinities of opposite
sign; an infinite operand otherwise wins; two zeros give the negative zero only
if both are negative; an exact sum that is 0 is the positive zero. -/
def CFloat.add (a b : CFloat) : CFloat :=
  if a.isNaN || b.isNaN then CFloat.nan
  else if a.isInf && b.isInf then (if a.signBit = b.signBit then a else CFloat.nan)
  else if a.isInf then a
  else if b.isInf then b
  else if a.isZero && b.isZero then CFloat.zero (a.signBit && b.signBit)
  else CFloat.finite (a.toRat + b.toRat)

/-- The negation `-a`: the sign bit is flipped. -/
def CFloat.neg : CFloat → CFloat
  | CFloat.finite q => if q = 0 then CFloat.negZero else CFloat.finite (-q)
  | CFloat.negZero => CFloat.finite 0
  | CFloat.posInf => CFloat.negInf
  | CFloat.negInf => CFloat.posInf
  | CFloat.nan => CFloat.nan

instance : Coe ℚ CFloat := ⟨CFloat.finite⟩

instance (n : Nat) : OfNat CFloat n := ⟨CFloat.finite (n : ℚ)⟩

instance : Neg CFloat := ⟨CFloat.neg⟩

instance : Mul CFloat := ⟨CFloat.mul⟩

instance : Div CFloat := ⟨CFloat.div⟩

instance : Add CFloat := ⟨CFloat.add⟩

/-- Object representation of `float`: the 32-bit pattern of a value. -/
structure FloatLayout where
  /-- The 32-bit pattern of a value. -/
  bits : CFloat → Nat
  /-- A pattern has 32 bits. -/
  bits_lt : ∀ v, bits v < 2 ^ 32

/-- The call `compressedDataOut_arg.write (p, n)`: the bytes are appended to the sink. -/
def write (out : List Byte) (bytes : List Byte) : List Byte := out ++ bytes

/-! ## Input stream -/

/-- An input stream: the bytes not yet extracted, and whether `good ()` holds. -/
structure IStream where
  /-- Bytes not yet extracted. -/
  rest : List Byte
  /-- No error or end-of-file flag is set. -/
  good : Bool
deriving DecidableEq, Repr

/-- The call `compressedDataIn_arg.read (p, n)`: when the stream is good it
extracts `n` bytes, or all remaining bytes if fewer are left, in which case the
failure flags are set; a stream that is not good extracts nothing.  Returns the
extracted bytes (`gcount ()` is their number). -/
def IStream.read (s : IStream) (n : Nat) : List Byte × IStream :=
  if s.good then
    if n ≤ s.rest.length then (s.rest.take n, { rest := s.rest.drop n, good := true })
    else (s.rest, { rest := [], good := false })
  else ([], s)

/-- Reading a 4-byte scalar into an uninitialized variable: the variable holds
a value only if all four bytes were extracted. -/
def IStream.readScalar (s : IStream) : Option Nat × IStream :=
  let r := s.read 4
  (if r.1.length = 4 then some (ofLe32 r.1) else none, r.2)

/-- The statements `v.resize (size); read (&v[0], size)`: the vector has the
declared length, the extracted bytes in front and zeros behind.  The size is
indeterminate only after a read that failed, when the stream extracts nothing
more; the vector is indeterminate then. -/
def IStream.readPayload (s : IStream) (size : Option Nat) : Option (List Byte) × IStream :=
  match size with
  | none => (none, s)
  | some n =>
    let r := s.read n
    (some (r.1 ++ List.replicate (n - r.1.length) 0), r.2)

/-! ## Resynchronization -/

/-- State of the loop that syncs to the frame header. -/
structure SyncState where
  /-- The flag `valid_stream`. -/
  valid_stream : Bool
  /-- The counter `headerIdPos`. -/
  headerIdPos : Nat
  /-- The stream after the loop. -/
  stream : IStream
deriving DecidableEq, Repr

/-- The update of `headerIdPos` for one extracted byte:
`if (readChar != id[headerIdPos++]) headerIdPos = (id[0] == readChar) ? 1 : 0;`.
The identifier is a C string, so the byte at its length is the terminator 0. -/
def nextHeaderIdPos (marker : List Byte) (headerIdPos : Nat) (readChar : Byte) : Nat :=
  if readChar ≠ marker.getD headerIdPos 0 then
    (if marker.getD 0 0 = readChar then 1 else 0)
  else headerIdPos + 1

/-- The loop `while (valid_stream && (headerIdPos < strlen (id)))` on a good
stream.  At the end of the stream the read extracts nothing, `valid_stream`
becomes false and the loop is left; `readChar` is indeterminate then, and so is
the counter, which is not used after the loop: it is reported unchanged. -/
def syncLoop (marker : List Byte) : Nat → List Byte → SyncState
  | headerIdPos, [] =>
    if headerIdPos < marker.length then
      { valid_stream := false, headerIdPos := headerIdPos, stream := { rest := [], good := false } }
    else
      { valid_stream := true, headerIdPos := headerIdPos, stream := { rest := [], good := true } }
  | headerIdPos, readChar :: rest =>
    if headerIdPos < marker.length then
      syncLoop marker (nextHeaderIdPos marker headerIdPos readChar) rest
    else
      { valid_stream := true, headerIdPos := headerIdPos,
        stream := { rest := readChar :: rest, good := true } }

/-- The value of `headerIdPos` after the bytes `consumed` have been extracted,
starting from 0. -/
def headerIdPosAfter (marker : List Byte) (consumed : List Byte) : Nat :=
  consumed.foldl (nextHeaderIdPos marker) 0

/-! ## Decoder -/

/-- The operands of the `PCL_INFO` lines: `pointCount` and
`compressedDisparitySize+compressedRGBSize`, each absent when it is computed
from an indeterminate variable. -/
structure DecodeInfo where
  /-- The product `cloud_width * cloud_height`, in 32 bits. -/
  pointCount : Option Nat
  /-- The sum of the two compressed sizes, in 32 bits. -/
  compressedSize : Option Nat
deriving DecidableEq, Repr

/-- The local variables of `decodePointCloud` when it returns.  A variable that
was never (completely) read is `none`. -/
structure Decoded where
  /-- The returned flag. -/
  valid_stream : Bool
  /-- Header field. -/
  cloud_width : Option Nat
  /-- Header field. -/
  cloud_height : Option Nat
  /-- Header field, as a 32-bit pattern. -/
  maxDepth : Option Nat
  /-- Header field, as a 32-bit pattern. -/
  focalLength : Option Nat
  /-- Header field, as a 32-bit pattern. -/
  disparityScale : Option Nat
  /-- Header field, as a 32-bit pattern. -/
  disparityShift : Option Nat
  /-- Size field. -/
  compressedDisparitySize : Option Nat
  /-- Payload handed to the PNG decoder. -/
  compressedDisparity : Option (List Byte)
  /-- Size field. -/
  compressedRGBSize : Option Nat
  /-- Payload handed to the PNG decoder. -/
  compressedRGB : Option (List Byte)
  /-- The stream after the call. -/
  stream : IStream
  /-- What the statistics block prints, if it runs. -/
  info : Option DecodeInfo
deriving DecidableEq, Repr

/-- The body of `if (valid_stream)`: the ten reads of the frame, in order, and
the statistics block behind it. -/
def readFrame (s0 : IStream) (showStats : Bool) : Decoded :=
  let (cloud_width, s1) := s0.readScalar
  let (cloud_height, s2) := s1.readScalar
  let (maxDepth, s3) := s2.readScalar
  let (focalLength, s4) := s3.readScalar
  let (disparityScale, s5) := s4.readScalar
  let (disparityShift, s6) := s5.readScalar
  let (compressedDisparitySize, s7) := s6.readScalar
  let (compressedDisparity, s8) := s7.readPayload compressedDisparitySize
  let (compressedRGBSize, s9) := s8.readScalar
  let (compressedRGB, s10) := s9.readPayload compressedRGBSize
  { valid_stream := true
    cloud_width := cloud_width
    cloud_height := cloud_height
    maxDepth := maxDepth
    focalLength := focalLength
    disparityScale := disparityScale
    disparityShift := disparityShift
    compressedDisparitySize := compressedDisparitySize
    compressedDisparity := compressedDisparity
    compressedRGBSize := compressedRGBSize
    compressedRGB := compressedRGB
    stream := s10
    info :=
      if showStats then
        some { pointCount := do
                 let w ← cloud_width
                 let h ← cloud_height
                 pure (toUInt32 (w * h))
               compressedSize := do
                 let d ← compressedDisparitySize
                 let c ← compressedRGBSize
                 pure (toUInt32 (d + c)) }
      else none }

/-- The function `decodePointCloud` on a good stream holding the bytes
`compressedDataIn_arg`, up to the calls of the PNG decoder and of the
conversion to a cloud, which are given the variables reported here.  The
returned flag is `valid_stream`. -/
def decodePointCloud (marker : List Byte) (compressedDataIn_arg : List Byte)
    (bShowStatistics_arg : Bool) : Decoded :=
  let sync := syncLoop marker 0 compressedDataIn_arg
  if sync.valid_stream then
    readFrame sync.stream bShowStatistics_arg
  else
    { valid_stream := false
      cloud_width := none
      cloud_height := none
      maxDepth := none
      focalLength := none
      disparityScale := none
      disparityShift := none
      compressedDisparitySize := none
      compressedDisparity := some []
      compressedRGBSize := none
      compressedRGB := some []
      stream := sync.stream
      info := if bShowStatistics_arg then some { pointCount := none, compressedSize := none }
              else none }

/-! ## Collaborators -/

/-- A point of `PointT`: its coordinates, and the outcome of `pcl::isFinite`.
The coordinates are read only of a point that passes `pcl::isFinite`, where
they are finite. -/
structure Point where
  /-- Coordinate. -/
  x : ℚ
  /-- Coordinate. -/
  y : ℚ
  /-- Coordinate, the depth. -/
  z : ℚ
  /-- The point passes `pcl::isFinite`. -/
  isFinite : Bool
deriving DecidableEq, Repr

/-- A point cloud: `width` and `height` are `uint32_t`. -/
structure PointCloud where
  /-- Grid width. -/
  width : Nat
  /-- Grid height. -/
  height : Nat
  /-- The points, row after row. -/
  points : List Point
deriving DecidableEq, Repr

/-- What the codec takes from the rest of the library. -/
structure Collaborators where
  /-- The C string `frameHeaderIdentifier_`, without its terminator. -/
  frameHeaderIdentifier_ : List Byte
  /-- The trait `CompressionPointTraits<PointT>::hasColor`. -/
  hasColor : Bool
  /-- Object representation of `float`. -/
  float : FloatLayout
  /-- The conversion `OrganizedConversion<PointT>::convert` of a cloud with
  focal length, disparity shift and disparity scale to `(disparityData, rgbData)`. -/
  convert : PointCloud → CFloat → CFloat → CFloat → List Nat × List Nat
  /-- The compressor `encodeMonoImageToPNG (image, width, height, pngData, level)`. -/
  encodeMonoImageToPNG : List Nat → Nat → Nat → Int → List Byte
  /-- The compressor `encodeRGBImageToPNG (image, width, height, pngData, level)`. -/
  encodeRGBImageToPNG : List Nat → Nat → Nat → Int → List Byte

/-- A call into a collaborator, with its arguments. -/
inductive Call where
  /-- The conversion of the cloud, with focal length, shift and scale. -/
  | convert (focalLength disparityShift disparityScale : CFloat)
  /-- The depth compressor, with image, width, height and level. -/
  | encodeMono (image : List Nat) (width height : Nat) (level : Int)
  /-- The colour compressor, with image, width, height and level. -/
  | encodeRGB (image : List Nat) (width height : Nat) (level : Int)
deriving DecidableEq, Repr

/-- The operands of the `PCL_INFO` lines of an encoder. -/
structure EncodeInfo where
  /-- The product of width and height, in 32 bits. -/
  pointCount : Nat
  /-- The sum of the two compressed sizes, in 32 bits. -/
  compressedSize : Nat
deriving DecidableEq, Repr

/-! ## Geometry analysis -/

/-- The variables `maxDepth`, `focalLength` and `it` of `analyzeOrganizedCloud`. -/
structure AnalyzeState where
  /-- Largest depth so far: 0 or the depth of a finite point, a finite value. -/
  maxDepth : ℚ
  /-- Focal length computed at the largest depth so far. -/
  focalLength : CFloat
  /-- Index of the next point. -/
  it : Nat
deriving DecidableEq, Repr

/-- The values `lo, lo+1, ..., hi-1` of a loop `for (v = lo; v < hi; ++v)`. -/
def intRange (lo hi : Int) : List Int :=
  (List.range (hi - lo).toNat).map (fun i : Nat => lo + (i : Int))

/-- The body of the inner loop at pixel `(x, y)`: takes `points[it++]` (an
index outside the vector is undefined behaviour, `none`).  In the centre column
`x = 0` and in the centre row `y = 0` the product with `point.z` is a zero, and
the quotient by it an infinity or NaN. -/
def analyzePoint (points : List Point) (y x : Int) (st : AnalyzeState) : Option AnalyzeState :=
  match points[st.it]? with
  | none => none
  | some point =>
    if point.isFinite = true ∧ st.maxDepth < point.z then
      some { maxDepth := point.z
             focalLength :=
               2 / (CFloat.finite point.x / (CFloat.ofInt x * CFloat.finite point.z)
                 + CFloat.finite point.y / (CFloat.ofInt y * CFloat.finite point.z))
             it := st.it + 1 }
    else
      some { st with it := st.it + 1 }

/-- The inner loop `for (x = -centerX; x < +centerX; ++x)` of row `y`. -/
def analyzeRow (points : List Point) (centerX : Int) (st : AnalyzeState) (y : Int) :
    Option AnalyzeState :=
  (intRange (-centerX) centerX).foldlM (fun st x => analyzePoint points y x st) st

/-- The function `analyzeOrganizedCloud`: returns `(maxDepth_arg, focalLength_arg)`,
or `none` when an assertion fails. -/
def analyzeOrganizedCloud (cloud_arg : PointCloud) : Option (ℚ × CFloat) :=
  let width := cloud_arg.width
  let height := cloud_arg.height
  let centerX : Int := ((width / 2 : Nat) : Int)
  let centerY : Int := ((height / 2 : Nat) : Int)
  if ¬ (width > 1 ∧ height > 1) then none
  else if width * height ≠ cloud_arg.points.length then none
  else
    match (intRange (-centerY) centerY).foldlM (analyzeRow cloud_arg.points centerX)
        { maxDepth := 0, focalLength := 0, it := 0 } with
    | none => none
    | some st => some (st.maxDepth, st.focalLength)

/-! ## Colour sanitizing -/

/-- The two buffers `disparityMap_arg` and `colorImage_arg`. -/
structure Buffers where
  /-- The 16-bit depth samples. -/
  disparityMap : List Nat
  /-- The 8-bit colour samples, three per pixel. -/
  colorImage : List Nat
deriving DecidableEq, Repr

/-- The call `memset (color_ptr, 0, 3)` with `color_ptr = &colorImage[0] + p`:
a write outside the buffer is undefined behaviour (`none`). -/
def memset3 (colorImage : List Nat) (p : Nat) : Option (List Nat) :=
  if p + 3 ≤ colorImage.length then
    some (((colorImage.set p 0).set (p + 1) 0).set (p + 2) 0)
  else none

/-- The remaining `n` rounds of the loop
`for (i = 0; i < cloud_size; ++i, ++depth_ptr, color_ptr += 3)`, from round `i`. -/
def sanitizeFrom : Nat → Nat → Buffers → Option Buffers
  | 0, _, b => some b
  | n + 1, i, b =>
    match b.disparityMap[i]? with
    | none => none
    | some depth =>
      if depth = 0 ∨ depth = 0x7FF then
        match memset3 b.colorImage (3 * i) with
        | none => none
        | some colorImage => sanitizeFrom n (i + 1) { b with colorImage := colorImage }
      else sanitizeFrom n (i + 1) b

/-- The loop that removes the colour of invalid points. -/
def sanitizeLoop (cloud_size : Nat) (b : Buffers) : Option Buffers :=
  sanitizeFrom cloud_size 0 b

/-! ## Encoders -/

/-- Effect of an encode call: the bytes written, the buffers of the caller
after the call, the calls into the collaborators and the statistics printed. -/
structure Encoded where
  /-- The bytes written to `compressedDataOut_arg`. -/
  out : List Byte
  /-- The compressed depth image. -/
  compressedDisparity : List Byte
  /-- The compressed colour image. -/
  compressedRGB : List Byte
  /-- Calls into the collaborators, in order. -/
  calls : List Call
  /-- What the statistics block prints, if it runs. -/
  info : Option EncodeInfo
deriving DecidableEq, Repr

/-- The writes of the marker and of the six header scalars. -/
def writeHeader (env : Collaborators) (out : List Byte) (width height : Nat)
    (maxDepth focalLength disparityScale disparityShift : CFloat) : List Byte :=
  let out := write out env.frameHeaderIdentifier_
  let out := write out (le32 width)
  let out := write out (le32 height)
  let out := write out (le32 (env.float.bits maxDepth))
  let out := write out (le32 (env.float.bits focalLength))
  let out := write out (le32 (env.float.bits disparityScale))
  write out (le32 (env.float.bits disparityShift))

/-- The function `encodePointCloud`. -/
def encodePointCloud (env : Collaborators) (cloud_arg : PointCloud)
    (doColorEncoding bShowStatistics_arg : Bool) (pngLevel_arg : Int) : Option Encoded :=
  let cloud_width := cloud_arg.width
  let cloud_height := cloud_arg.height
  let disparityScale : CFloat := 1
  let disparityShift : CFloat := 0
  match analyzeOrganizedCloud cloud_arg with
  | none => none
  | some (maxDepth, focalLength) =>
    let out := writeHeader env [] cloud_width cloud_height (CFloat.finite maxDepth)
      focalLength disparityScale disparityShift
    let (disparityData, rgbData) :=
      env.convert cloud_arg focalLength disparityShift disparityScale
    let calls := [Call.convert focalLength disparityShift disparityScale]
    let compressedDisparity :=
      env.encodeMonoImageToPNG disparityData cloud_width cloud_height pngLevel_arg
    let calls := calls ++ [Call.encodeMono disparityData cloud_width cloud_height pngLevel_arg]
    let compressedDisparitySize := toUInt32 compressedDisparity.length
    let out := write out (le32 compressedDisparitySize)
    let out := write out compressedDisparity
    let doColor := env.hasColor && doColorEncoding
    let compressedRGB :=
      if doColor then env.encodeRGBImageToPNG rgbData cloud_width cloud_height 1 else []
    let calls :=
      if doColor then calls ++ [Call.encodeRGB rgbData cloud_width cloud_height 1] else calls
    let compressedRGBSize := toUInt32 compressedRGB.length
    let out := write out (le32 compressedRGBSize)
    let out := write out compressedRGB
    some { out := out
           compressedDisparity := compressedDisparity
           compressedRGB := compressedRGB
           calls := calls
           info :=
             if bShowStatistics_arg then
               some { pointCount := toUInt32 (cloud_width * cloud_height)
                      compressedSize := toUInt32 (compressedDisparitySize + compressedRGBSize) }
             else none }

/-- Effect of `encodeRawDisparityMapWithColorImage`: as for `encodePointCloud`,
and the two buffers of the caller after the call. -/
structure RawEncoded extends Encoded where
  /-- The buffers `disparityMap_arg` and `colorImage_arg` after the call. -/
  buffers : Buffers
deriving DecidableEq, Repr

/-- The function `encodeRawDisparityMapWithColorImage`; `none` when an assertion
fails or the sanitizing loop leaves a buffer. -/
def encodeRawDisparityMapWithColorImage (env : Collaborators)
    (disparityMap_arg colorImage_arg : List Nat) (width_arg height_arg : Nat)
    (doColorEncoding bShowStatistics_arg : Bool) (pngLevel_arg : Int)
    (focalLength_arg disparityShift_arg disparityScale_arg : CFloat) : Option RawEncoded :=
  let maxDepth : CFloat := -1
  let cloud_size := toUInt32 (width_arg * height_arg)
  if disparityMap_arg.length ≠ cloud_size then none
  else if colorImage_arg.length ≠ 0 ∧ colorImage_arg.length ≠ cloud_size * 3 then none
  else
    let out := writeHeader env [] width_arg height_arg maxDepth focalLength_arg
      disparityScale_arg disparityShift_arg
    match sanitizeLoop cloud_size
        { disparityMap := disparityMap_arg, colorImage := colorImage_arg } with
    | none => none
    | some buffers =>
      let compressedDisparity :=
        env.encodeMonoImageToPNG buffers.disparityMap width_arg height_arg pngLevel_arg
      let calls := [Call.encodeMono buffers.disparityMap width_arg height_arg pngLevel_arg]
      let compressedDisparitySize := toUInt32 compressedDisparity.length
      let out := write out (le32 compressedDisparitySize)
      let out := write out compressedDisparity
      let doColor := decide (buffers.colorImage.length ≠ 0) && doColorEncoding
      let compressedRGB :=
        if doColor then env.encodeRGBImageToPNG buffers.colorImage width_arg height_arg 1
        else []
      let calls :=
        if doColor then calls ++ [Call.encodeRGB buffers.colorImage width_arg height_arg 1]
        else calls
      let compressedRGBSize := toUInt32 compressedRGB.length
      let out := write out (le32 compressedRGBSize)
      let out := write out compressedRGB
      some { out := out
             compressedDisparity := compressedDisparity
             compressedRGB := compressedRGB
             calls := calls
             info :=
               if bShowStatistics_arg then
                 some { pointCount := toUInt32 (width_arg * height_arg)
                        compressedSize :=
                          toUInt32 (compressedDisparitySize + compressedRGBSize) }
               else none
             buffers := buffers }

/-! ## The frame of the data model -/

/-- The frame as the data model lays it out: the marker, the six header
scalars, then each payload behind a 4-byte field holding its size. -/
def frameLayout (marker : List Byte)
    (width height maxDepth focalLength disparityScale disparityShift : Nat)
    (compressedDepthSize : Nat) (compressedDepthPayload : List Byte)
    (compressedColorSize : Nat) (compressedColorPayload : List Byte) : List Byte :=
  marker ++ (le32 width ++ (le32 height ++ (le32 maxDepth ++ (le32 focalLength ++
    (le32 disparityScale ++ (le32 disparityShift ++
      (le32 compressedDepthSize ++ (compressedDepthPayload ++
        (le32 compressedColorSize ++ compressedColorPayload)))))))))

/-- The first byte of the marker occurs at no later position of the marker. -/
def FirstByteOnce (marker : List Byte) : Prop := marker.getD 0 0 ∉ marker.tail

instance (marker : List Byte) : Decidable (FirstByteOnce marker) :=
  inferInstanceAs (Decidable (marker.getD 0 0 ∉ marker.tail))

/-- Decoding `noise ++ frame` finds the marker of `frame`: the frame starts with
the marker, the resynchronization loop stops right behind it, having consumed
the noise and the marker, the decoder reports success and its variables are
those it has on the frame alone. -/
def ResyncsAt (marker noise frame : List Byte) : Prop :=
  ∃ body, frame = marker ++ body ∧
    syncLoop marker 0 (noise ++ frame)
      = { valid_stream := true, headerIdPos := marker.length,
          stream := { rest := body, good := true } } ∧
    (noise ++ frame).length - body.length = noise.length + marker.length ∧
    ∀ stats : Bool,
      (decodePointCloud marker (noise ++ frame) stats).valid_stream = true ∧
      decodePointCloud marker (noise ++ frame) stats = decodePointCloud marker frame stats

/-- The frame body behind the marker ends before the six header scalars, the
two size fields and the declared payload bytes. -/
def TruncatedBody (body : List Byte) : Prop :=
  body.length < 28 ∨
  body.length < 28 + ofLe32 ((body.drop 24).take 4) + 4 ∨
  body.length < 28 + ofLe32 ((body.drop 24).take 4) + 4
    + ofLe32 ((body.drop (28 + ofLe32 ((body.drop 24).take 4))).take 4)

instance (body : List Byte) : Decidable (TruncatedBody body) := by
  unfold TruncatedBody
  infer_instance

/-- The depth sample of pixel `j / 3` is invalid: 0 or `0x7FF`. -/
def invalidDepthAt (disparityMap : List Nat) (j : Nat) : Prop :=
  disparityMap.getD (j / 3) 0 = 0 ∨ disparityMap.getD (j / 3) 0 = 0x7FF

instance (disparityMap : List Nat) (j : Nat) : Decidable (invalidDepthAt disparityMap j) :=
  inferInstanceAs (Decidable (_ ∨ _))

/-- The decoder reports success and its variables hold the given header
fields and payloads. -/
def Decoded.Recovers (r : Decoded)
    (width height maxDepth focalLength disparityScale disparityShift : Nat)
    (compressedDisparity compressedRGB : List Byte) : Prop :=
  r.valid_stream = true ∧
  r.cloud_width = some width ∧
  r.cloud_height = some height ∧
  r.maxDepth = some maxDepth ∧
  r.focalLength = some focalLength ∧
  r.disparityScale = some disparityScale ∧
  r.disparityShift = some disparityShift ∧
  r.compressedDisparitySize = some compressedDisparity.length ∧
  r.compressedDisparity = some compressedDisparity ∧
  r.compressedRGBSize = some compressedRGB.length ∧
  r.compressedRGB = some compressedRGB

/-- The call is not a call of the colour compressor. -/
def Call.notRGB : Call → Prop
  | Call.encodeRGB _ _ _ _ => False
  | _ => True

/-- The decoder's result without what the statistics block prints. -/
def Decoded.withoutInfo (r : Decoded) : Decoded := { r with info := none }

/-- The colour indices written by the sanitizing loop, in order: the three
bytes of every `memset (color_ptr, 0, 3)`, at `color_ptr = &colorImage[0] + 3*i`. -/
def sanitizeWrites (cloud_size : Nat) (disparityMap : List Nat) : List Nat :=
  (List.range cloud_size).flatMap (fun i =>
    if disparityMap.getD i 0 = 0 ∨ disparityMap.getD i 0 = 0x7FF then
      [3 * i, 3 * i + 1, 3 * i + 2]
    else [])

/-- The decoder's result with the stream replaced. -/
def Decoded.withStream (r : Decoded) (s : IStream) : Decoded := { r with stream := s }

/-- Decoding takes the frame and nothing else: on `frame ++ rest` the decoder
reports success, its variables are those it has on the frame alone, and the
stream is left good at the first byte of `rest`. -/
def TakesOneFrame (marker frame : List Byte) : Prop :=
  ∀ (rest : List Byte) (stats : Bool),
    (decodePointCloud marker (frame ++ rest) stats).valid_stream = true ∧
    (decodePointCloud marker (frame ++ rest) stats).stream = { rest := rest, good := true } ∧
    decodePointCloud marker (frame ++ rest) stats
      = (decodePointCloud marker frame stats).withStream { rest := rest, good := true }

/-- The stream splits as `pre ++ marker ++ post` at the first occurrence of the
marker: no other split has a shorter part in front of the marker. -/
def FirstOccurrence (marker stream pre post : List Byte) : Prop :=
  stream = pre ++ (marker ++ post) ∧
  ∀ pre' post' : List Byte, stream = pre' ++ (marker ++ post') → pre.length ≤ pre'.length

/-- The bytes the resynchronization loop has extracted from the stream when it
stops: the stream without what the loop leaves in it. -/
def syncConsumed (marker stream : List Byte) : List Byte :=
  stream.take (stream.length - (syncLoop marker 0 stream).stream.rest.length)

/-! ## Sample collaborators and inputs -/

/-- A sample layout of `float`: for a finite value a sign bit above the
numerator, cut to 31 bits; for the other values their usual patterns. -/
def sampleFloat : FloatLayout where
  bits := fun v =>
    match v with
    | CFloat.finite q => (if q < 0 then 2 ^ 31 else 0) + q.num.natAbs % 2 ^ 31
    | CFloat.negZero => 0x80000000
    | CFloat.posInf => 0x7F800000
    | CFloat.negInf => 0xFF800000
    | CFloat.nan => 0x7FC00000
  bits_lt := by
    intro v
    cases v with
    | finite q =>
      have h : q.num.natAbs % 2 ^ 31 < 2 ^ 31 := Nat.mod_lt _ (by norm_num)
      by_cases hq : q < 0 <;> simp only [hq, if_true, if_false] <;> omega
    | negZero => norm_num
    | posInf => norm_num
    | negInf => norm_num
    | nan => norm_num

/-- Sample collaborators: marker `<P>`, a conversion that takes the numerators
of the `x` coordinates and gives every point the colour `(1, 2, 3)`, and
compressors that append the level to the image. -/
def sampleEnv : Collaborators where
  frameHeaderIdentifier_ := [60, 80, 62]
  hasColor := true
  float := sampleFloat
  convert := fun cloud _ _ _ =>
    (cloud.points.map (fun p => p.x.num.natAbs), cloud.points.flatMap (fun _ => [1, 2, 3]))
  encodeMonoImageToPNG := fun image _ _ level => image ++ [level.toNat]
  encodeRGBImageToPNG := fun image _ _ level => image ++ [level.toNat]

/-- A 2 x 2 cloud whose third point is not finite; the deepest finite point is
the first, which the scan takes for the pixel `(x, y) = (-1, -1)`. -/
def sampleCloud : PointCloud where
  width := 2
  height := 2
  points :=
    [ { x := 1, y := 1, z := 3, isFinite := true },
      { x := 3, y := 2, z := 1, isFinite := true },
      { x := 9, y := 0, z := 9, isFinite := false },
      { x := 2, y := 1, z := 2, isFinite := true } ]

/-- A 2 x 2 cloud whose deepest finite point is the second, which the scan takes
for the pixel `(x, y) = (0, -1)` of the centre column. -/
def centreCloud : PointCloud where
  width := 2
  height := 2
  points :=
    [ { x := 1, y := 1, z := 1, isFinite := true },
      { x := 1, y := 2, z := 3, isFinite := true },
      { x := 0, y := 0, z := 9, isFinite := false },
      { x := 1, y := 1, z := 2, isFinite := true } ]

/-- The focal length the specification derives, over exact arithmetic, from
the point `p` at row `r` and column `c` of a `width` x `height` grid.  The
formula has a value where it divides by no zero: off the centre column and
the centre row, for a depth and a sum of the two quotients other than 0. -/
def focalLengthAt (width height r c : Nat) (p : Point) : ℚ :=
  2 / (p.x / ((((c : Int) - ((width / 2 : Nat) : Int) : Int) : ℚ) * p.z)
    + p.y / ((((r : Int) - ((height / 2 : Nat) : Int) : Int) : ℚ) * p.z))

/-- The focal length computed at point `k` of the scan, for the pixel the loops
give it: column `k % (2*centerX) - centerX`, row `k / (2*centerX) - centerY`. -/
def scanFocal (centerX centerY k : Nat) (p : Point) : CFloat :=
  2 / (CFloat.finite p.x
        / (CFloat.ofInt (-(centerX : Int) + ((k % (2 * centerX) : Nat) : Int))
            * CFloat.finite p.z)
    + CFloat.finite p.y
        / (CFloat.ofInt (-(centerY : Int) + ((k / (2 * centerX) : Nat) : Int))
            * CFloat.finite p.z))

/-- What the scan has established after the points before `st.it`: `maxDepth`
bounds their finite depths, and either nothing was recorded or `maxDepth` and
`focalLength` come from one of them. -/
def ScanInv (points : List Point) (centerX centerY : Nat) (st : AnalyzeState) : Prop :=
  (∀ k, k < st.it → ∀ p, points[k]? = some p → p.isFinite = true → p.z ≤ st.maxDepth) ∧
  ((st.maxDepth = 0 ∧ st.focalLength = 0) ∨
    ∃ k p, k < st.it ∧ points[k]? = some p ∧ p.isFinite = true ∧ p.z = st.maxDepth ∧
      0 < st.maxDepth ∧ st.focalLength = scanFocal centerX centerY k p)

/-- A 3 x 2 cloud of finite points, the deepest one last. -/
def oddDepthCloud : PointCloud where
  width := 3
  height := 2
  points :=
    [ { x := 1, y := 1, z := 1, isFinite := true },
      { x := 1, y := 1, z := 1, isFinite := true },
      { x := 1, y := 1, z := 1, isFinite := true },
      { x := 1, y := 1, z := 1, isFinite := true },
      { x := 1, y := 1, z := 1, isFinite := true },
      { x := 1, y := 1, z := 5, isFinite := true } ]

/-- A 3 x 4 cloud of finite points, the deepest one at row 0 and column 2. -/
def oddFocalCloud : PointCloud where
  width := 3
  height := 4
  points :=
    [ { x := 1, y := 1, z := 1, isFinite := true },
      { x := 1, y := 1, z := 1, isFinite := true },
      { x := 1, y := 1, z := 2, isFinite := true },
      { x := 1, y := 1, z := 1, isFinite := true },
      { x := 1, y := 1, z := 1, isFinite := true },
      { x := 1, y := 1, z := 1, isFinite := true },
      { x := 1, y := 1, z := 1, isFinite := true },
      { x := 1, y := 1, z := 1, isFinite := true },
      { x := 1, y := 1, z := 1, isFinite := true },
      { x := 1, y := 1, z := 1, isFinite := true },
      { x := 1, y := 1, z := 1, isFinite := true },
      { x := 1, y := 1, z := 1, isFinite := true } ]

/-- A 3 x 2 cloud without a finite point. -/
def blindCloud : PointCloud where
  width := 3
  height := 2
  points :=
    [ { x := 1, y := 1, z := 1, isFinite := false },
      { x := 0, y := 0, z := 0, isFinite := false },
      { x := 1, y := 2, z := 3, isFinite := false },
      { x := 0, y := 0, z := 7, isFinite := false },
      { x := 0, y := 0, z := 0, isFinite := false },
      { x := 4, y := 1, z := 1, isFinite := false } ]

/-- A payload of `2^32` bytes. -/
def hugePayload : List Byte := List.replicate (2 ^ 32) 0

/-- Collaborators with the marker `aab`, whose first byte occurs twice. -/
def overlapEnv : Collaborators where
  frameHeaderIdentifier_ := [97, 97, 98]
  hasColor := false
  float := sampleFloat
  convert := fun _ _ _ _ => ([], [])
  encodeMonoImageToPNG := fun image _ _ _ => image
  encodeRGBImageToPNG := fun image _ _ _ => image

/-- Collaborators whose depth compressor returns `2^32` bytes. -/
def hugeEnv : Collaborators where
  frameHeaderIdentifier_ := [60, 80, 62]
  hasColor := false
  float := sampleFloat
  convert := fun _ _ _ _ => ([], [])
  encodeMonoImageToPNG := fun _ _ _ _ => hugePayload
  encodeRGBImageToPNG := fun _ _ _ _ => []

/-! ## Values of `float` -/

theorem CFloat.div_def (a b : CFloat) : a / b = CFloat.div a b := rfl

theorem CFloat.mul_def (a b : CFloat) : a * b = CFloat.mul a b := rfl

theorem CFloat.add_def (a b : CFloat) : a + b = CFloat.add a b := rfl

theorem CFloat.zero_eq : (0 : CFloat) = CFloat.finite 0 := by
  show CFloat.finite ((0 : ℕ) : ℚ) = _
  rw [Nat.cast_zero]

theorem CFloat.one_eq : (1 : CFloat) = CFloat.finite 1 := by
  show CFloat.finite ((1 : ℕ) : ℚ) = _
  rw [Nat.cast_one]

theorem CFloat.ofNat_eq (n : ℕ) [n.AtLeastTwo] :
    (no_index (OfNat.ofNat n) : CFloat) = CFloat.finite (OfNat.ofNat n) := by
  show CFloat.finite (n : ℚ) = _
  rfl

theorem CFloat.neg_one_eq : (-1 : CFloat) = CFloat.finite (-1) := rfl

theorem CFloat.neg_ofNat_eq (n : ℕ) [n.AtLeastTwo] :
    (-(no_index (OfNat.ofNat n)) : CFloat) = CFloat.finite (-(OfNat.ofNat n)) := by
  have h : ((n : ℕ) : ℚ) ≠ 0 :=
    Nat.cast_ne_zero.mpr (by have := Nat.AtLeastTwo.prop (n := n); omega)
  show CFloat.neg (CFloat.finite (n : ℚ)) = _
  simp only [CFloat.neg, h, if_false]
  rfl

theorem CFloat.finite_mul_finite (p q : ℚ) (h : p * q ≠ 0) :
    CFloat.finite p * CFloat.finite q = CFloat.finite (p * q) := by
  have hp : p ≠ 0 := left_ne_zero_of_mul h
  have hq : q ≠ 0 := right_ne_zero_of_mul h
  simp [CFloat.mul_def, CFloat.mul, CFloat.isNaN, CFloat.isInf, CFloat.isZero, CFloat.toRat,
    CFloat.ofRat, hp, hq]

theorem CFloat.finite_div_finite (p q : ℚ) (hq : q ≠ 0) :
    CFloat.finite p / CFloat.finite q
      = CFloat.ofRat (decide (p < 0) != decide (q < 0)) (p / q) := by
  simp [CFloat.div_def, CFloat.div, CFloat.isNaN, CFloat.isInf, CFloat.isZero, CFloat.toRat,
    CFloat.signBit, hq]

theorem CFloat.ofRat_add_ofRat (s t : Bool) (a b : ℚ) (h : a + b ≠ 0) :
    CFloat.ofRat s a + CFloat.ofRat t b = CFloat.finite (a + b) := by
  by_cases ha : a = 0 <;> by_cases hb : b = 0 <;> cases s <;> cases t <;>
    simp_all [CFloat.add_def, CFloat.add, CFloat.isNaN, CFloat.isInf, CFloat.isZero,
      CFloat.toRat, CFloat.ofRat, CFloat.zero]

/-- Off the centre column and the centre row, for a depth and a sum of the two
quotients other than 0, the expression of line 380 divides by no zero and has
the value of the exact formula. -/
theorem focal_off_centre (px py z : ℚ) (x y : Int) (hx : x ≠ 0) (hy : y ≠ 0) (hz : z ≠ 0)
    (hs : px / ((x : ℚ) * z) + py / ((y : ℚ) * z) ≠ 0) :
    (2 : CFloat) / (CFloat.finite px / (CFloat.ofInt x * CFloat.finite z)
        + CFloat.finite py / (CFloat.ofInt y * CFloat.finite z))
      = CFloat.finite (2 / (px / ((x : ℚ) * z) + py / ((y : ℚ) * z))) := by
  have hxz : (x : ℚ) * z ≠ 0 := mul_ne_zero (Int.cast_ne_zero.mpr hx) hz
  have hyz : (y : ℚ) * z ≠ 0 := mul_ne_zero (Int.cast_ne_zero.mpr hy) hz
  have h2 : (2 : ℚ) / (px / ((x : ℚ) * z) + py / ((y : ℚ) * z)) ≠ 0 :=
    div_ne_zero (by norm_num) hs
  simp only [CFloat.ofInt]
  rw [CFloat.finite_mul_finite _ _ hxz,
    CFloat.finite_mul_finite _ _ hyz, CFloat.finite_div_finite _ _ hxz,
    CFloat.finite_div_finite _ _ hyz, CFloat.ofRat_add_ofRat _ _ _ _ hs, CFloat.ofNat_eq,
    CFloat.finite_div_finite _ _ hs, CFloat.ofRat, if_neg h2]

/-- In the centre column, for a point with `x` other than 0 and a positive
depth, the quotient `point.x / (0 * point.z)` is an infinity and the expression
of line 380 is a zero, whose sign bit is that of `point.x`. -/
theorem focal_centre_column (px py z : ℚ) (y : Int) (hpx : px ≠ 0) (hy : y ≠ 0)
    (hz : 0 < z) :
    (2 : CFloat) / (CFloat.finite px / (CFloat.ofInt 0 * CFloat.finite z)
        + CFloat.finite py / (CFloat.ofInt y * CFloat.finite z))
      = CFloat.zero (decide (px < 0)) := by
  have hz0 : z ≠ 0 := ne_of_gt hz
  have hnz : ¬ z < 0 := not_lt.mpr (le_of_lt hz)
  have hyz : (y : ℚ) * z ≠ 0 := mul_ne_zero (Int.cast_ne_zero.mpr hy) hz0
  simp only [CFloat.ofInt, Int.cast_zero]
  rw [CFloat.finite_mul_finite _ _ hyz, CFloat.finite_div_finite _ _ hyz]
  by_cases hneg : px < 0 <;> by_cases hq : py / ((y : ℚ) * z) = 0 <;>
    cases hb : (decide (py < 0) != decide ((y : ℚ) * z < 0)) <;>
    simp [CFloat.ofInt, CFloat.ofNat_eq, CFloat.div_def, CFloat.mul_def, CFloat.add_def,
      CFloat.div, CFloat.mul, CFloat.add, CFloat.isNaN, CFloat.isInf, CFloat.isZero,
      CFloat.signBit, CFloat.toRat, CFloat.ofRat, CFloat.zero, CFloat.infinity, hpx, hnz,
      hneg, hq, hb]

theorem sampleFloat_bits_finite (q : ℚ) :
    sampleFloat.bits (CFloat.finite q)
      = (if q < 0 then 2 ^ 31 else 0) + q.num.natAbs % 2 ^ 31 := rfl

/-! ## Scalars and reads -/

theorem le32_length (v : Nat) : (le32 v).length = 4 := rfl

theorem ofLe32_le32 (v : Nat) (h : v < 2 ^ 32) : ofLe32 (le32 v) = v := by
  simp only [le32, ofLe32, List.getD_cons_zero, List.getD_cons_succ]
  omega

theorem toUInt32_of_lt {n : Nat} (h : n < 2 ^ 32) : toUInt32 n = n :=
  Nat.mod_eq_of_lt h

theorem toUInt32_lt (n : Nat) : toUInt32 n < 2 ^ 32 :=
  Nat.mod_lt _ (by norm_num)

theorem read_append (bs r : List Byte) :
    IStream.read { rest := bs ++ r, good := true } bs.length
      = (bs, { rest := r, good := true }) := by
  simp [IStream.read]

theorem readScalar_le32 (v : Nat) (h : v < 2 ^ 32) (r : List Byte) :
    IStream.readScalar { rest := le32 v ++ r, good := true }
      = (some v, { rest := r, good := true }) := by
  have hr := read_append (le32 v) r
  rw [le32_length] at hr
  simp only [IStream.readScalar, hr, le32_length, if_true, ofLe32_le32 v h]

theorem readPayload_append (bs r : List Byte) :
    IStream.readPayload { rest := bs ++ r, good := true } (some bs.length)
      = (some bs, { rest := r, good := true }) := by
  simp only [IStream.readPayload, read_append, Nat.sub_self, List.replicate_zero,
    List.append_nil]

/-! ## The resynchronization loop on the marker itself -/

theorem nextHeaderIdPos_match (marker : List Byte) (pos : Nat) :
    nextHeaderIdPos marker pos (marker.getD pos 0) = pos + 1 := by
  simp [nextHeaderIdPos]

theorem syncLoop_done (marker : List Byte) (pos : Nat) (h : marker.length ≤ pos)
    (r : List Byte) :
    syncLoop marker pos r
      = { valid_stream := true, headerIdPos := pos, stream := { rest := r, good := true } } := by
  cases r <;> simp [syncLoop, Nat.not_lt.mpr h]

theorem syncLoop_marker_from (marker r : List Byte) :
    ∀ (k pos : Nat), pos + k = marker.length →
      syncLoop marker pos (marker.drop pos ++ r)
        = { valid_stream := true, headerIdPos := marker.length,
            stream := { rest := r, good := true } } := by
  intro k
  induction k with
  | zero =>
    intro pos hpos
    have hp : pos = marker.length := by omega
    subst hp
    simp [syncLoop_done]
  | succ k ih =>
    intro pos hpos
    have hlt : pos < marker.length := by omega
    have hd : marker.drop pos = marker.getD pos 0 :: marker.drop (pos + 1) := by
      rw [List.drop_eq_getElem_cons hlt]
      simp [List.getD_eq_getElem?_getD, List.getElem?_eq_getElem hlt]
    rw [hd, List.cons_append, syncLoop, if_pos hlt, nextHeaderIdPos_match]
    exact ih (pos + 1) (by omega)

theorem syncLoop_marker (marker r : List Byte) :
    syncLoop marker 0 (marker ++ r)
      = { valid_stream := true, headerIdPos := marker.length,
          stream := { rest := r, good := true } } := by
  simpa using syncLoop_marker_from marker r marker.length 0 (by simp)

/-! ## Decoding a frame -/

theorem readFrame_frame (width height maxDepth focalLength disparityScale disparityShift : Nat)
    (d c rest : List Byte) (stats : Bool)
    (hw : width < 2 ^ 32) (hh : height < 2 ^ 32) (hmd : maxDepth < 2 ^ 32)
    (hfl : focalLength < 2 ^ 32) (hsc : disparityScale < 2 ^ 32)
    (hsh : disparityShift < 2 ^ 32) (hd : d.length < 2 ^ 32) (hc : c.length < 2 ^ 32) :
    readFrame
        { rest := le32 width ++ (le32 height ++ (le32 maxDepth ++ (le32 focalLength ++
            (le32 disparityScale ++ (le32 disparityShift ++
              (le32 d.length ++ (d ++ (le32 c.length ++ (c ++ rest))))))))),
          good := true } stats
      = { valid_stream := true
          cloud_width := some width
          cloud_height := some height
          maxDepth := some maxDepth
          focalLength := some focalLength
          disparityScale := some disparityScale
          disparityShift := some disparityShift
          compressedDisparitySize := some d.length
          compressedDisparity := some d
          compressedRGBSize := some c.length
          compressedRGB := some c
          stream := { rest := rest, good := true }
          info :=
            if stats then
              some { pointCount := some (toUInt32 (width * height))
                     compressedSize := some (toUInt32 (d.length + c.length)) }
            else none } := by
  simp only [readFrame, readScalar_le32 _ hw, readScalar_le32 _ hh, readScalar_le32 _ hmd,
    readScalar_le32 _ hfl, readScalar_le32 _ hsc, readScalar_le32 _ hsh,
    readScalar_le32 _ hd, readScalar_le32 _ hc, readPayload_append]
  cases stats <;> rfl

theorem decode_frameLayout (marker : List Byte)
    (width height maxDepth focalLength disparityScale disparityShift : Nat)
    (d c rest : List Byte) (stats : Bool)
    (hw : width < 2 ^ 32) (hh : height < 2 ^ 32) (hmd : maxDepth < 2 ^ 32)
    (hfl : focalLength < 2 ^ 32) (hsc : disparityScale < 2 ^ 32)
    (hsh : disparityShift < 2 ^ 32) (hd : d.length < 2 ^ 32) (hc : c.length < 2 ^ 32) :
    decodePointCloud marker
        (frameLayout marker width height maxDepth focalLength disparityScale disparityShift
          (toUInt32 d.length) d (toUInt32 c.length) c ++ rest) stats
      = { valid_stream := true
          cloud_width := some width
          cloud_height := some height
          maxDepth := some maxDepth
          focalLength := some focalLength
          disparityScale := some disparityScale
          disparityShift := some disparityShift
          compressedDisparitySize := some d.length
          compressedDisparity := some d
          compressedRGBSize := some c.length
          compressedRGB := some c
          stream := { rest := rest, good := true }
          info :=
            if stats then
              some { pointCount := some (toUInt32 (width * height))
                     compressedSize := some (toUInt32 (d.length + c.length)) }
            else none } := by
  simp only [decodePointCloud, frameLayout, List.append_assoc, syncLoop_marker, if_true,
    toUInt32_of_lt hd, toUInt32_of_lt hc]
  exact readFrame_frame width height maxDepth focalLength disparityScale disparityShift
    d c rest stats hw hh hmd hfl hsc hsh hd hc

/-! ## What the encoders write -/

theorem writeHeader_nil (env : Collaborators) (width height : Nat)
    (maxDepth focalLength disparityScale disparityShift : CFloat) (tail : List Byte) :
    writeHeader env [] width height maxDepth focalLength disparityScale disparityShift ++ tail
      = env.frameHeaderIdentifier_ ++ (le32 width ++ (le32 height ++
          (le32 (env.float.bits maxDepth) ++ (le32 (env.float.bits focalLength) ++
            (le32 (env.float.bits disparityScale) ++
              (le32 (env.float.bits disparityShift) ++ tail)))))) := by
  simp [writeHeader, write]

theorem encodePointCloud_some (env : Collaborators) (cloud_arg : PointCloud)
    (doColorEncoding stats : Bool) (pngLevel_arg : Int) (e : Encoded)
    (h : encodePointCloud env cloud_arg doColorEncoding stats pngLevel_arg = some e) :
    ∃ maxDepth focalLength,
      analyzeOrganizedCloud cloud_arg = some (maxDepth, focalLength) ∧
      e.compressedDisparity
        = env.encodeMonoImageToPNG (env.convert cloud_arg focalLength 0 1).1
            cloud_arg.width cloud_arg.height pngLevel_arg ∧
      e.compressedRGB
        = (if (env.hasColor && doColorEncoding) = true then
            env.encodeRGBImageToPNG (env.convert cloud_arg focalLength 0 1).2
              cloud_arg.width cloud_arg.height 1
          else []) ∧
      e.out
        = frameLayout env.frameHeaderIdentifier_ cloud_arg.width cloud_arg.height
            (env.float.bits maxDepth) (env.float.bits focalLength)
            (env.float.bits 1) (env.float.bits 0)
            (toUInt32 e.compressedDisparity.length) e.compressedDisparity
            (toUInt32 e.compressedRGB.length) e.compressedRGB := by
  unfold encodePointCloud at h
  cases ha : analyzeOrganizedCloud cloud_arg with
  | none => simp [ha] at h
  | some p =>
    obtain ⟨maxDepth, focalLength⟩ := p
    simp only [ha, Option.some.injEq] at h
    subst h
    refine ⟨maxDepth, focalLength, rfl, rfl, rfl, ?_⟩
    simp only [write, frameLayout, List.append_assoc, writeHeader_nil]

theorem encodeRaw_some (env : Collaborators)
    (disparityMap_arg colorImage_arg : List Nat) (width_arg height_arg : Nat)
    (doColorEncoding stats : Bool) (pngLevel_arg : Int)
    (focalLength_arg disparityShift_arg disparityScale_arg : CFloat) (e : RawEncoded)
    (h : encodeRawDisparityMapWithColorImage env disparityMap_arg colorImage_arg
          width_arg height_arg doColorEncoding stats pngLevel_arg
          focalLength_arg disparityShift_arg disparityScale_arg = some e) :
    disparityMap_arg.length = toUInt32 (width_arg * height_arg) ∧
    (colorImage_arg.length = 0 ∨
      colorImage_arg.length = toUInt32 (width_arg * height_arg) * 3) ∧
    sanitizeLoop (toUInt32 (width_arg * height_arg))
        { disparityMap := disparityMap_arg, colorImage := colorImage_arg }
      = some e.buffers ∧
    e.compressedDisparity
      = env.encodeMonoImageToPNG e.buffers.disparityMap width_arg height_arg pngLevel_arg ∧
    e.compressedRGB
      = (if (decide (e.buffers.colorImage.length ≠ 0) && doColorEncoding) = true then
          env.encodeRGBImageToPNG e.buffers.colorImage width_arg height_arg 1
        else []) ∧
    e.out
      = frameLayout env.frameHeaderIdentifier_ width_arg height_arg
          (env.float.bits (-1)) (env.float.bits focalLength_arg)
          (env.float.bits disparityScale_arg) (env.float.bits disparityShift_arg)
          (toUInt32 e.compressedDisparity.length) e.compressedDisparity
          (toUInt32 e.compressedRGB.length) e.compressedRGB := by
  unfold encodeRawDisparityMapWithColorImage at h
  simp only at h
  split at h
  · exact absurd h (by simp)
  · rename_i h1
    split at h
    · exact absurd h (by simp)
    · rename_i h2
      cases hs : sanitizeLoop (toUInt32 (width_arg * height_arg))
          { disparityMap := disparityMap_arg, colorImage := colorImage_arg } with
      | none => simp [hs] at h
      | some buffers =>
        simp only [hs, Option.some.injEq] at h
        subst h
        refine ⟨by simpa using h1, by omega, rfl, rfl, rfl, ?_⟩
        simp only [write, frameLayout, List.append_assoc, writeHeader_nil]

theorem recovers_frameLayout (marker : List Byte)
    (width height maxDepth focalLength disparityScale disparityShift : Nat)
    (d c rest : List Byte) (stats : Bool)
    (hw : width < 2 ^ 32) (hh : height < 2 ^ 32) (hmd : maxDepth < 2 ^ 32)
    (hfl : focalLength < 2 ^ 32) (hsc : disparityScale < 2 ^ 32)
    (hsh : disparityShift < 2 ^ 32) (hd : d.length < 2 ^ 32) (hc : c.length < 2 ^ 32) :
    (decodePointCloud marker
        (frameLayout marker width height maxDepth focalLength disparityScale disparityShift
          (toUInt32 d.length) d (toUInt32 c.length) c ++ rest) stats).Recovers
      width height maxDepth focalLength disparityScale disparityShift d c := by
  rw [decode_frameLayout marker width height maxDepth focalLength disparityScale
    disparityShift d c rest stats hw hh hmd hfl hsc hsh hd hc]
  simp [Decoded.Recovers]

/-! ## The sanitizing loop -/

theorem getD_set (l : List Nat) (i j a : Nat) (hi : i < l.length) :
    (l.set i a).getD j 0 = if i = j then a else l.getD j 0 := by
  simp only [List.getD_eq_getElem?_getD, List.getElem?_set, hi, if_true]
  split <;> rfl

theorem memset3_spec (color : List Nat) (p : Nat) (hp : p + 3 ≤ color.length) :
    ∃ c, memset3 color p = some c ∧ c.length = color.length ∧
      ∀ j, c.getD j 0 = if p ≤ j ∧ j < p + 3 then 0 else color.getD j 0 := by
  refine ⟨((color.set p 0).set (p + 1) 0).set (p + 2) 0, by simp only [memset3, if_pos hp],
    by simp, ?_⟩
  intro j
  rw [getD_set _ _ _ _ (by simp; omega), getD_set _ _ _ _ (by simp; omega),
    getD_set _ _ _ _ (by omega)]
  by_cases hr : p ≤ j ∧ j < p + 3
  · rw [if_pos hr]
    by_cases h2 : p + 2 = j
    · rw [if_pos h2]
    · rw [if_neg h2]
      by_cases h1 : p + 1 = j
      · rw [if_pos h1]
      · rw [if_neg h1, if_pos (by omega)]
  · rw [if_neg hr, if_neg (by omega), if_neg (by omega), if_neg (by omega)]

theorem sanitizeFrom_spec (depth : List Nat) :
    ∀ (n i : Nat) (color : List Nat), i + n = depth.length →
      color.length = 3 * depth.length →
      ∃ c, sanitizeFrom n i { disparityMap := depth, colorImage := color }
            = some { disparityMap := depth, colorImage := c } ∧
        c.length = color.length ∧
        ∀ j, j < color.length →
          c.getD j 0 = if i ≤ j / 3 ∧ invalidDepthAt depth j then 0 else color.getD j 0 := by
  intro n
  induction n with
  | zero =>
    intro i color hi _
    refine ⟨color, rfl, rfl, ?_⟩
    intro j hj
    have : ¬ (i ≤ j / 3) := by omega
    simp [this]
  | succ n ih =>
    intro i color hi hc
    have hlt : i < depth.length := by omega
    have hget : depth[i]? = some (depth.getD i 0) := by
      simp [List.getElem?_eq_getElem hlt]
    unfold sanitizeFrom
    simp only [hget]
    by_cases hinv : depth.getD i 0 = 0 ∨ depth.getD i 0 = 0x7FF
    · obtain ⟨c1, hm, hl1, hg1⟩ := memset3_spec color (3 * i) (by omega)
      obtain ⟨c, hs, hl, hg⟩ := ih (i + 1) c1 (by omega) (by omega)
      rw [if_pos hinv, hm]
      refine ⟨c, hs, by omega, ?_⟩
      intro j hj
      rw [hg j (by omega), hg1 j]
      by_cases hji : j / 3 = i
      · have h1 : 3 * i ≤ j ∧ j < 3 * i + 3 := by omega
        have h2 : invalidDepthAt depth j := by
          unfold invalidDepthAt; rw [hji]; exact hinv
        have h3 : ¬ (i + 1 ≤ j / 3 ∧ invalidDepthAt depth j) := by omega
        simp [h1, h2, h3, hji]
      · have h1 : ¬ (3 * i ≤ j ∧ j < 3 * i + 3) := by omega
        have h2 : (i + 1 ≤ j / 3) ↔ (i ≤ j / 3) := by omega
        simp only [h1, if_false, h2]
    · obtain ⟨c, hs, hl, hg⟩ := ih (i + 1) color (by omega) hc
      rw [if_neg hinv]
      refine ⟨c, hs, hl, ?_⟩
      intro j hj
      rw [hg j hj]
      by_cases hji : j / 3 = i
      · have h2 : ¬ invalidDepthAt depth j := by
          unfold invalidDepthAt; rw [hji]; exact hinv
        simp [h2]
      · have h2 : (i + 1 ≤ j / 3) ↔ (i ≤ j / 3) := by omega
        simp only [h2]

theorem sanitizeLoop_spec (depth color : List Nat) (hc : color.length = 3 * depth.length) :
    ∃ c, sanitizeLoop depth.length { disparityMap := depth, colorImage := color }
          = some { disparityMap := depth, colorImage := c } ∧
      c.length = color.length ∧
      ∀ j, j < color.length →
        c.getD j 0 = if invalidDepthAt depth j then 0 else color.getD j 0 := by
  obtain ⟨c, hs, hl, hg⟩ := sanitizeFrom_spec depth depth.length 0 color (by simp) hc
  refine ⟨c, hs, hl, ?_⟩
  intro j hj
  rw [hg j hj]
  simp

theorem sanitizeLoop_idem (depth color c : List Nat) (hc : color.length = 3 * depth.length)
    (h : sanitizeLoop depth.length { disparityMap := depth, colorImage := color }
          = some { disparityMap := depth, colorImage := c }) :
    sanitizeLoop depth.length { disparityMap := depth, colorImage := c }
      = some { disparityMap := depth, colorImage := c } := by
  obtain ⟨c1, hs1, hl1, hg1⟩ := sanitizeLoop_spec depth color hc
  rw [h] at hs1
  have hcc : c = c1 := by simpa using hs1
  subst hcc
  obtain ⟨c2, hs2, hl2, hg2⟩ := sanitizeLoop_spec depth c (by omega)
  rw [hs2]
  have : c2 = c := by
    apply List.ext_getElem (by omega)
    intro j h1 h2
    have e2 := hg2 j h2
    have e1 := hg1 j (by omega)
    rw [List.getD_eq_getElem _ _ h1] at e2
    rw [List.getD_eq_getElem _ _ h2] at e1 e2
    rw [e2]
    by_cases hinv : invalidDepthAt depth j
    · simp [hinv, e1]
    · simp [hinv]
  rw [this]

theorem encodeRaw_complete (env : Collaborators)
    (disparityMap_arg colorImage_arg : List Nat) (width_arg height_arg : Nat)
    (doColorEncoding stats : Bool) (pngLevel_arg : Int)
    (focalLength_arg disparityShift_arg disparityScale_arg : CFloat)
    (hd : disparityMap_arg.length = toUInt32 (width_arg * height_arg))
    (hc : colorImage_arg.length = 3 * disparityMap_arg.length) :
    ∃ e, encodeRawDisparityMapWithColorImage env disparityMap_arg colorImage_arg
          width_arg height_arg doColorEncoding stats pngLevel_arg
          focalLength_arg disparityShift_arg disparityScale_arg = some e := by
  obtain ⟨c, hs, -, -⟩ := sanitizeLoop_spec disparityMap_arg colorImage_arg hc
  rw [hd] at hs
  have h2 : ¬ (colorImage_arg.length ≠ 0 ∧
      colorImage_arg.length ≠ toUInt32 (width_arg * height_arg) * 3) := by
    omega
  unfold encodeRawDisparityMapWithColorImage
  simp only [hs, ne_eq, hd, not_true_eq_false, if_false, h2]
  exact ⟨_, rfl⟩

/-! ## Sample evaluations -/

theorem analyze_sampleCloud : analyzeOrganizedCloud sampleCloud = some (3, -3) := by
  simp only [CFloat.neg_ofNat_eq]
  norm_num [analyzeOrganizedCloud, sampleCloud, intRange, analyzeRow, analyzePoint,
    List.range, List.range.loop]
  simp only [CFloat.ofNat_eq, CFloat.ofInt, CFloat.div_def, CFloat.mul_def, CFloat.add_def,
    CFloat.div, CFloat.mul, CFloat.add, CFloat.isNaN, CFloat.isInf, CFloat.isZero,
    CFloat.signBit, CFloat.toRat, CFloat.ofRat, CFloat.zero, CFloat.infinity]
  norm_num

/-- At a pixel of the centre column the quotient by `x * z` is an infinity: the
focal length computed there is a zero. -/
theorem analyze_centreCloud : analyzeOrganizedCloud centreCloud = some (3, 0) := by
  simp only [CFloat.zero_eq]
  norm_num [analyzeOrganizedCloud, centreCloud, intRange, analyzeRow, analyzePoint,
    List.range, List.range.loop]
  simp only [CFloat.ofNat_eq, CFloat.ofInt, CFloat.div_def, CFloat.mul_def, CFloat.add_def,
    CFloat.div, CFloat.mul, CFloat.add, CFloat.isNaN, CFloat.isInf, CFloat.isZero,
    CFloat.signBit, CFloat.toRat, CFloat.ofRat, CFloat.zero, CFloat.infinity]
  norm_num

theorem encode_sampleCloud :
    encodePointCloud sampleEnv sampleCloud true false 6
      = some { out := [60, 80, 62, 2, 0, 0, 0, 2, 0, 0, 0, 3, 0, 0, 0, 3, 0, 0, 128,
                       1, 0, 0, 0, 0, 0, 0, 0, 5, 0, 0, 0, 1, 3, 9, 2, 6, 13, 0, 0, 0,
                       1, 2, 3, 1, 2, 3, 1, 2, 3, 1, 2, 3, 1]
               compressedDisparity := [1, 3, 9, 2, 6]
               compressedRGB := [1, 2, 3, 1, 2, 3, 1, 2, 3, 1, 2, 3, 1]
               calls := [Call.convert (-3) 0 1, Call.encodeMono [1, 3, 9, 2] 2 2 6,
                         Call.encodeRGB [1, 2, 3, 1, 2, 3, 1, 2, 3, 1, 2, 3] 2 2 1]
               info := none } := by
  simp only [encodePointCloud, analyze_sampleCloud, CFloat.neg_ofNat_eq]
  simp only [CFloat.zero_eq, CFloat.one_eq]
  norm_num [sampleEnv, sampleCloud, sampleFloat_bits_finite, writeHeader, write, le32, toUInt32]
  rfl

theorem encodeRaw_sample :
    encodeRawDisparityMapWithColorImage sampleEnv [0, 5, 2047, 7]
        [1, 2, 3, 4, 5, 6, 7, 8, 9, 10, 11, 12] 2 2 true false 6 100 2 3
      = some { out := [60, 80, 62, 2, 0, 0, 0, 2, 0, 0, 0, 1, 0, 0, 128, 100, 0, 0, 0,
                       3, 0, 0, 0, 2, 0, 0, 0, 5, 0, 0, 0, 0, 5, 2047, 7, 6, 13, 0, 0, 0,
                       0, 0, 0, 4, 5, 6, 0, 0, 0, 10, 11, 12, 1]
               compressedDisparity := [0, 5, 2047, 7, 6]
               compressedRGB := [0, 0, 0, 4, 5, 6, 0, 0, 0, 10, 11, 12, 1]
               calls := [Call.encodeMono [0, 5, 2047, 7] 2 2 6,
                         Call.encodeRGB [0, 0, 0, 4, 5, 6, 0, 0, 0, 10, 11, 12] 2 2 1]
               info := none
               buffers := { disparityMap := [0, 5, 2047, 7]
                            colorImage := [0, 0, 0, 4, 5, 6, 0, 0, 0, 10, 11, 12] } } := by
  simp only [CFloat.ofNat_eq, encodeRawDisparityMapWithColorImage, CFloat.neg_one_eq]
  norm_num [sanitizeLoop, sanitizeFrom, memset3,
    sampleEnv, sampleFloat_bits_finite, writeHeader, write, le32, toUInt32]
  rfl

theorem encode_sampleCloud_plain :
    encodePointCloud sampleEnv sampleCloud false true 6
      = some { out := [60, 80, 62, 2, 0, 0, 0, 2, 0, 0, 0, 3, 0, 0, 0, 3, 0, 0, 128,
                       1, 0, 0, 0, 0, 0, 0, 0, 5, 0, 0, 0, 1, 3, 9, 2, 6, 0, 0, 0, 0]
               compressedDisparity := [1, 3, 9, 2, 6]
               compressedRGB := []
               calls := [Call.convert (-3) 0 1, Call.encodeMono [1, 3, 9, 2] 2 2 6]
               info := some { pointCount := 4, compressedSize := 5 } } := by
  simp only [encodePointCloud, analyze_sampleCloud, CFloat.neg_ofNat_eq]
  simp only [CFloat.zero_eq, CFloat.one_eq]
  norm_num [sampleEnv, sampleCloud, sampleFloat_bits_finite, writeHeader, write, le32, toUInt32]
  rfl

theorem encode_sampleCloud_level9 :
    encodePointCloud sampleEnv sampleCloud true false 9
      = some { out := [60, 80, 62, 2, 0, 0, 0, 2, 0, 0, 0, 3, 0, 0, 0, 3, 0, 0, 128,
                       1, 0, 0, 0, 0, 0, 0, 0, 5, 0, 0, 0, 1, 3, 9, 2, 9, 13, 0, 0, 0,
                       1, 2, 3, 1, 2, 3, 1, 2, 3, 1, 2, 3, 1]
               compressedDisparity := [1, 3, 9, 2, 9]
               compressedRGB := [1, 2, 3, 1, 2, 3, 1, 2, 3, 1, 2, 3, 1]
               calls := [Call.convert (-3) 0 1, Call.encodeMono [1, 3, 9, 2] 2 2 9,
                         Call.encodeRGB [1, 2, 3, 1, 2, 3, 1, 2, 3, 1, 2, 3] 2 2 1]
               info := none } := by
  simp only [encodePointCloud, analyze_sampleCloud, CFloat.neg_ofNat_eq]
  simp only [CFloat.zero_eq, CFloat.one_eq]
  norm_num [sampleEnv, sampleCloud, sampleFloat_bits_finite, writeHeader, write, le32, toUInt32]
  rfl

theorem encodeRaw_sample_plain :
    encodeRawDisparityMapWithColorImage sampleEnv [1, 5, 20, 7] [] 2 2 true false 6 100 2 3
      = some { out := [60, 80, 62, 2, 0, 0, 0, 2, 0, 0, 0, 1, 0, 0, 128, 100, 0, 0, 0,
                       3, 0, 0, 0, 2, 0, 0, 0, 5, 0, 0, 0, 1, 5, 20, 7, 6, 0, 0, 0, 0]
               compressedDisparity := [1, 5, 20, 7, 6]
               compressedRGB := []
               calls := [Call.encodeMono [1, 5, 20, 7] 2 2 6]
               info := none
               buffers := { disparityMap := [1, 5, 20, 7], colorImage := [] } } := by
  simp only [CFloat.ofNat_eq, encodeRawDisparityMapWithColorImage, CFloat.neg_one_eq]
  norm_num [sanitizeLoop, sanitizeFrom, memset3,
    sampleEnv, sampleFloat_bits_finite, writeHeader, write, le32, toUInt32]
  rfl

theorem encodeRaw_sample_level9 :
    encodeRawDisparityMapWithColorImage sampleEnv [0, 5, 2047, 7]
        [1, 2, 3, 4, 5, 6, 7, 8, 9, 10, 11, 12] 2 2 true false 9 100 2 3
      = some { out := [60, 80, 62, 2, 0, 0, 0, 2, 0, 0, 0, 1, 0, 0, 128, 100, 0, 0, 0,
                       3, 0, 0, 0, 2, 0, 0, 0, 5, 0, 0, 0, 0, 5, 2047, 7, 9, 13, 0, 0, 0,
                       0, 0, 0, 4, 5, 6, 0, 0, 0, 10, 11, 12, 1]
               compressedDisparity := [0, 5, 2047, 7, 9]
               compressedRGB := [0, 0, 0, 4, 5, 6, 0, 0, 0, 10, 11, 12, 1]
               calls := [Call.encodeMono [0, 5, 2047, 7] 2 2 9,
                         Call.encodeRGB [0, 0, 0, 4, 5, 6, 0, 0, 0, 10, 11, 12] 2 2 1]
               info := none
               buffers := { disparityMap := [0, 5, 2047, 7]
                            colorImage := [0, 0, 0, 4, 5, 6, 0, 0, 0, 10, 11, 12] } } := by
  simp only [CFloat.ofNat_eq, encodeRawDisparityMapWithColorImage, CFloat.neg_one_eq]
  norm_num [sanitizeLoop, sanitizeFrom, memset3,
    sampleEnv, sampleFloat_bits_finite, writeHeader, write, le32, toUInt32]
  rfl

/-! ## Frame round trip and wire layout -/

/-- C1, frame round trip: for either encode entry point, with 32-bit width and
height and compressed payloads shorter than `2^32` bytes, the decoder run on
exactly the bytes written reports success and recovers the width, height,
maxDepth, focalLength, disparityScale, disparityShift and both compressed
payloads that the encoder wrote; scale and shift are not swapped. -/
theorem frame_round_trip (env : Collaborators) :
    (∀ (cloud_arg : PointCloud) (doColorEncoding encStats decStats : Bool)
        (pngLevel_arg : Int) (e : Encoded),
      encodePointCloud env cloud_arg doColorEncoding encStats pngLevel_arg = some e →
      cloud_arg.width < 2 ^ 32 → cloud_arg.height < 2 ^ 32 →
      e.compressedDisparity.length < 2 ^ 32 → e.compressedRGB.length < 2 ^ 32 →
      ∃ maxDepth focalLength,
        analyzeOrganizedCloud cloud_arg = some (maxDepth, focalLength) ∧
        e.compressedDisparity
          = env.encodeMonoImageToPNG (env.convert cloud_arg focalLength 0 1).1
              cloud_arg.width cloud_arg.height pngLevel_arg ∧
        e.compressedRGB
          = (if (env.hasColor && doColorEncoding) = true then
              env.encodeRGBImageToPNG (env.convert cloud_arg focalLength 0 1).2
                cloud_arg.width cloud_arg.height 1
            else []) ∧
        (decodePointCloud env.frameHeaderIdentifier_ e.out decStats).Recovers
          cloud_arg.width cloud_arg.height (env.float.bits maxDepth)
          (env.float.bits focalLength) (env.float.bits 1) (env.float.bits 0)
          e.compressedDisparity e.compressedRGB) ∧
    (∀ (disparityMap_arg colorImage_arg : List Nat) (width_arg height_arg : Nat)
        (doColorEncoding encStats decStats : Bool) (pngLevel_arg : Int)
        (focalLength_arg disparityShift_arg disparityScale_arg : CFloat) (e : RawEncoded),
      encodeRawDisparityMapWithColorImage env disparityMap_arg colorImage_arg
          width_arg height_arg doColorEncoding encStats pngLevel_arg
          focalLength_arg disparityShift_arg disparityScale_arg = some e →
      width_arg < 2 ^ 32 → height_arg < 2 ^ 32 →
      e.compressedDisparity.length < 2 ^ 32 → e.compressedRGB.length < 2 ^ 32 →
      e.compressedDisparity
        = env.encodeMonoImageToPNG e.buffers.disparityMap width_arg height_arg
            pngLevel_arg ∧
      e.compressedRGB
        = (if (decide (e.buffers.colorImage.length ≠ 0) && doColorEncoding) = true then
            env.encodeRGBImageToPNG e.buffers.colorImage width_arg height_arg 1
          else []) ∧
      (decodePointCloud env.frameHeaderIdentifier_ e.out decStats).Recovers
        width_arg height_arg (env.float.bits (-1)) (env.float.bits focalLength_arg)
        (env.float.bits disparityScale_arg) (env.float.bits disparityShift_arg)
        e.compressedDisparity e.compressedRGB) := by
  constructor
  · intro cloud_arg doColorEncoding encStats decStats pngLevel_arg e he hw hh hd hc
    obtain ⟨maxDepth, focalLength, ha, hpd, hpc, hout⟩ :=
      encodePointCloud_some env cloud_arg doColorEncoding encStats pngLevel_arg e he
    refine ⟨maxDepth, focalLength, ha, hpd, hpc, ?_⟩
    have h := recovers_frameLayout env.frameHeaderIdentifier_ cloud_arg.width
      cloud_arg.height (env.float.bits maxDepth) (env.float.bits focalLength)
      (env.float.bits 1) (env.float.bits 0) e.compressedDisparity e.compressedRGB []
      decStats hw hh (env.float.bits_lt _) (env.float.bits_lt _) (env.float.bits_lt _)
      (env.float.bits_lt _) hd hc
    rwa [List.append_nil, ← hout] at h
  · intro disparityMap_arg colorImage_arg width_arg height_arg doColorEncoding encStats
      decStats pngLevel_arg focalLength_arg disparityShift_arg disparityScale_arg e he
      hw hh hd hc
    obtain ⟨-, -, -, hpd, hpc, hout⟩ :=
      encodeRaw_some env disparityMap_arg colorImage_arg width_arg height_arg
        doColorEncoding encStats pngLevel_arg focalLength_arg disparityShift_arg
        disparityScale_arg e he
    refine ⟨hpd, hpc, ?_⟩
    have h := recovers_frameLayout env.frameHeaderIdentifier_ width_arg height_arg
      (env.float.bits (-1)) (env.float.bits focalLength_arg)
      (env.float.bits disparityScale_arg) (env.float.bits disparityShift_arg)
      e.compressedDisparity e.compressedRGB [] decStats hw hh (env.float.bits_lt _)
      (env.float.bits_lt _) (env.float.bits_lt _) (env.float.bits_lt _) hd hc
    rwa [List.append_nil, ← hout] at h

theorem frame_round_trip_witness :
    (∃ maxDepth focalLength,
      analyzeOrganizedCloud sampleCloud = some (maxDepth, focalLength) ∧
      [1, 3, 9, 2, 6]
        = sampleEnv.encodeMonoImageToPNG (sampleEnv.convert sampleCloud focalLength 0 1).1
            2 2 6 ∧
      [1, 2, 3, 1, 2, 3, 1, 2, 3, 1, 2, 3, 1]
        = (if (sampleEnv.hasColor && true) = true then
            sampleEnv.encodeRGBImageToPNG (sampleEnv.convert sampleCloud focalLength 0 1).2
              2 2 1
          else []) ∧
      (decodePointCloud [60, 80, 62]
          [60, 80, 62, 2, 0, 0, 0, 2, 0, 0, 0, 3, 0, 0, 0, 3, 0, 0, 128,
           1, 0, 0, 0, 0, 0, 0, 0, 5, 0, 0, 0, 1, 3, 9, 2, 6, 13, 0, 0, 0,
           1, 2, 3, 1, 2, 3, 1, 2, 3, 1, 2, 3, 1] false).Recovers
        2 2 (sampleFloat.bits maxDepth) (sampleFloat.bits focalLength)
        (sampleFloat.bits 1) (sampleFloat.bits 0)
        [1, 3, 9, 2, 6] [1, 2, 3, 1, 2, 3, 1, 2, 3, 1, 2, 3, 1]) ∧
    [0, 5, 2047, 7, 6] = sampleEnv.encodeMonoImageToPNG [0, 5, 2047, 7] 2 2 6 ∧
    [0, 0, 0, 4, 5, 6, 0, 0, 0, 10, 11, 12, 1]
      = (if (decide (12 ≠ 0) && true) = true then
          sampleEnv.encodeRGBImageToPNG [0, 0, 0, 4, 5, 6, 0, 0, 0, 10, 11, 12] 2 2 1
        else []) ∧
    (decodePointCloud [60, 80, 62]
        [60, 80, 62, 2, 0, 0, 0, 2, 0, 0, 0, 1, 0, 0, 128, 100, 0, 0, 0,
         3, 0, 0, 0, 2, 0, 0, 0, 5, 0, 0, 0, 0, 5, 2047, 7, 6, 13, 0, 0, 0,
         0, 0, 0, 4, 5, 6, 0, 0, 0, 10, 11, 12, 1] true).Recovers
      2 2 (sampleFloat.bits (-1)) (sampleFloat.bits 100) (sampleFloat.bits 3)
      (sampleFloat.bits 2) [0, 5, 2047, 7, 6] [0, 0, 0, 4, 5, 6, 0, 0, 0, 10, 11, 12, 1] :=
  ⟨(frame_round_trip sampleEnv).1 sampleCloud true false false 6 _ encode_sampleCloud
      (by decide) (by decide) (by decide) (by decide),
    (frame_round_trip sampleEnv).2 [0, 5, 2047, 7] [1, 2, 3, 4, 5, 6, 7, 8, 9, 10, 11, 12]
      2 2 true false true 6 100 2 3 _ encodeRaw_sample
      (by decide) (by decide) (by decide) (by decide)⟩

theorem hugePayload_length : hugePayload.length = 2 ^ 32 :=
  List.length_replicate _ _

/-- C2, wire layout, as the code has it: whenever an encode call completes,
the bytes written are the marker, width, height, maxDepth, focalLength,
disparityScale, disparityShift (4 bytes each), the 4-byte depth size, the
compressed depth payload, the 4-byte colour size and the compressed colour
payload, in this order; each size field holds the length of its payload
modulo `2^32`, which is the length when the payload is shorter than `2^32`
bytes. -/
theorem wire_layout (env : Collaborators) :
    (∀ (cloud_arg : PointCloud) (doColorEncoding stats : Bool) (pngLevel_arg : Int)
        (e : Encoded),
      encodePointCloud env cloud_arg doColorEncoding stats pngLevel_arg = some e →
      ∃ maxDepth focalLength,
        analyzeOrganizedCloud cloud_arg = some (maxDepth, focalLength) ∧
        e.compressedDisparity
          = env.encodeMonoImageToPNG (env.convert cloud_arg focalLength 0 1).1
              cloud_arg.width cloud_arg.height pngLevel_arg ∧
        e.compressedRGB
          = (if (env.hasColor && doColorEncoding) = true then
              env.encodeRGBImageToPNG (env.convert cloud_arg focalLength 0 1).2
                cloud_arg.width cloud_arg.height 1
            else []) ∧
        e.out
          = frameLayout env.frameHeaderIdentifier_ cloud_arg.width cloud_arg.height
              (env.float.bits maxDepth) (env.float.bits focalLength)
              (env.float.bits 1) (env.float.bits 0)
              (e.compressedDisparity.length % 2 ^ 32) e.compressedDisparity
              (e.compressedRGB.length % 2 ^ 32) e.compressedRGB ∧
        (e.compressedDisparity.length < 2 ^ 32 →
          e.compressedDisparity.length % 2 ^ 32 = e.compressedDisparity.length) ∧
        (e.compressedRGB.length < 2 ^ 32 →
          e.compressedRGB.length % 2 ^ 32 = e.compressedRGB.length)) ∧
    (∀ (disparityMap_arg colorImage_arg : List Nat) (width_arg height_arg : Nat)
        (doColorEncoding stats : Bool) (pngLevel_arg : Int)
        (focalLength_arg disparityShift_arg disparityScale_arg : CFloat) (e : RawEncoded),
      encodeRawDisparityMapWithColorImage env disparityMap_arg colorImage_arg
          width_arg height_arg doColorEncoding stats pngLevel_arg
          focalLength_arg disparityShift_arg disparityScale_arg = some e →
      e.compressedDisparity
        = env.encodeMonoImageToPNG e.buffers.disparityMap width_arg height_arg
            pngLevel_arg ∧
      e.compressedRGB
        = (if (decide (e.buffers.colorImage.length ≠ 0) && doColorEncoding) = true then
            env.encodeRGBImageToPNG e.buffers.colorImage width_arg height_arg 1
          else []) ∧
      e.out
        = frameLayout env.frameHeaderIdentifier_ width_arg height_arg
            (env.float.bits (-1)) (env.float.bits focalLength_arg)
            (env.float.bits disparityScale_arg) (env.float.bits disparityShift_arg)
            (e.compressedDisparity.length % 2 ^ 32) e.compressedDisparity
            (e.compressedRGB.length % 2 ^ 32) e.compressedRGB ∧
      (e.compressedDisparity.length < 2 ^ 32 →
        e.compressedDisparity.length % 2 ^ 32 = e.compressedDisparity.length) ∧
      (e.compressedRGB.length < 2 ^ 32 →
        e.compressedRGB.length % 2 ^ 32 = e.compressedRGB.length)) := by
  constructor
  · intro cloud_arg doColorEncoding stats pngLevel_arg e he
    obtain ⟨maxDepth, focalLength, ha, hd, hc, hout⟩ :=
      encodePointCloud_some env cloud_arg doColorEncoding stats pngLevel_arg e he
    exact ⟨maxDepth, focalLength, ha, hd, hc, hout, Nat.mod_eq_of_lt, Nat.mod_eq_of_lt⟩
  · intro disparityMap_arg colorImage_arg width_arg height_arg doColorEncoding stats
      pngLevel_arg focalLength_arg disparityShift_arg disparityScale_arg e he
    obtain ⟨-, -, -, hd, hc, hout⟩ :=
      encodeRaw_some env disparityMap_arg colorImage_arg width_arg height_arg
        doColorEncoding stats pngLevel_arg focalLength_arg disparityShift_arg
        disparityScale_arg e he
    exact ⟨hd, hc, hout, Nat.mod_eq_of_lt, Nat.mod_eq_of_lt⟩

theorem wire_layout_witness :
    (∃ maxDepth focalLength,
      analyzeOrganizedCloud sampleCloud = some (maxDepth, focalLength) ∧
      [1, 3, 9, 2, 6]
        = sampleEnv.encodeMonoImageToPNG (sampleEnv.convert sampleCloud focalLength 0 1).1
            2 2 6 ∧
      [1, 2, 3, 1, 2, 3, 1, 2, 3, 1, 2, 3, 1]
        = (if (sampleEnv.hasColor && true) = true then
            sampleEnv.encodeRGBImageToPNG (sampleEnv.convert sampleCloud focalLength 0 1).2
              2 2 1
          else []) ∧
      [60, 80, 62, 2, 0, 0, 0, 2, 0, 0, 0, 3, 0, 0, 0, 3, 0, 0, 128,
       1, 0, 0, 0, 0, 0, 0, 0, 5, 0, 0, 0, 1, 3, 9, 2, 6, 13, 0, 0, 0,
       1, 2, 3, 1, 2, 3, 1, 2, 3, 1, 2, 3, 1]
        = frameLayout [60, 80, 62] 2 2 (sampleFloat.bits maxDepth)
            (sampleFloat.bits focalLength) (sampleFloat.bits 1) (sampleFloat.bits 0)
            (5 % 2 ^ 32) [1, 3, 9, 2, 6]
            (13 % 2 ^ 32) [1, 2, 3, 1, 2, 3, 1, 2, 3, 1, 2, 3, 1] ∧
      (5 < 2 ^ 32 → 5 % 2 ^ 32 = 5) ∧ (13 < 2 ^ 32 → 13 % 2 ^ 32 = 13)) ∧
    ([0, 5, 2047, 7, 6] = sampleEnv.encodeMonoImageToPNG [0, 5, 2047, 7] 2 2 6 ∧
      [0, 0, 0, 4, 5, 6, 0, 0, 0, 10, 11, 12, 1]
        = (if (decide (12 ≠ 0) && true) = true then
            sampleEnv.encodeRGBImageToPNG [0, 0, 0, 4, 5, 6, 0, 0, 0, 10, 11, 12] 2 2 1
          else []) ∧
      [60, 80, 62, 2, 0, 0, 0, 2, 0, 0, 0, 1, 0, 0, 128, 100, 0, 0, 0,
       3, 0, 0, 0, 2, 0, 0, 0, 5, 0, 0, 0, 0, 5, 2047, 7, 6, 13, 0, 0, 0,
       0, 0, 0, 4, 5, 6, 0, 0, 0, 10, 11, 12, 1]
        = frameLayout [60, 80, 62] 2 2 (sampleFloat.bits (-1)) (sampleFloat.bits 100)
            (sampleFloat.bits 3) (sampleFloat.bits 2)
            (5 % 2 ^ 32) [0, 5, 2047, 7, 6]
            (13 % 2 ^ 32) [0, 0, 0, 4, 5, 6, 0, 0, 0, 10, 11, 12, 1] ∧
      (5 < 2 ^ 32 → 5 % 2 ^ 32 = 5) ∧ (13 < 2 ^ 32 → 13 % 2 ^ 32 = 13)) :=
  ⟨(wire_layout sampleEnv).1 sampleCloud true false 6 _ encode_sampleCloud,
    (wire_layout sampleEnv).2 [0, 5, 2047, 7] [1, 2, 3, 4, 5, 6, 7, 8, 9, 10, 11, 12]
      2 2 true false 6 100 2 3 _ encodeRaw_sample⟩

/-- C2 as stated fails: with a depth compressor that returns `2^32` bytes, the
raw entry point writes the size field 0 in front of a payload of `2^32` bytes. -/
theorem wire_layout_size_counterexample :
    ∃ e : RawEncoded,
      encodeRawDisparityMapWithColorImage hugeEnv [1] [7, 8, 9] 1 1 false false 0 0 0 0
        = some e ∧
      e.out
        = frameLayout [60, 80, 62] 1 1 (sampleFloat.bits (-1)) (sampleFloat.bits 0)
            (sampleFloat.bits 0) (sampleFloat.bits 0)
            0 e.compressedDisparity 0 e.compressedRGB ∧
      e.compressedDisparity.length = 4294967296 := by
  obtain ⟨e, he⟩ :=
    encodeRaw_complete hugeEnv [1] [7, 8, 9] 1 1 false false 0 0 0 0 (by decide) (by decide)
  obtain ⟨-, -, -, hd, hc, hout⟩ :=
    encodeRaw_some hugeEnv [1] [7, 8, 9] 1 1 false false 0 0 0 0 e he
  have hd2 : e.compressedDisparity = hugePayload := hd
  have hc2 : e.compressedRGB = [] := by
    rw [hc, Bool.and_false]
    rfl
  refine ⟨e, he, ?_, ?_⟩
  · rw [hout, hd2, hc2, hugePayload_length]
    rfl
  · rw [hd2, hugePayload_length]
    norm_num

/-! ## Resynchronization behind noise -/

theorem getD_mem_tail (marker : List Byte) (pos : Nat) (h0 : 0 < pos)
    (h : pos < marker.length) : marker.getD pos 0 ∈ marker.tail := by
  cases marker with
  | nil => simp at h
  | cons a t =>
    obtain ⟨k, rfl⟩ : ∃ k, pos = k + 1 := ⟨pos - 1, by omega⟩
    have hk : k < t.length := by simpa using h
    simp only [List.getD_cons_succ, List.tail_cons]
    rw [List.getD_eq_getElem _ _ hk]
    exact List.getElem_mem hk

theorem take_succ_getD (marker : List Byte) (pos : Nat) (h : pos < marker.length) :
    marker.take (pos + 1) = marker.take pos ++ [marker.getD pos 0] := by
  rw [List.take_succ, List.getD_eq_getElem _ _ h, List.getElem?_eq_getElem h]
  rfl

theorem nextHeaderIdPos_restart (marker : List Byte) (pos : Nat) (c : Byte)
    (hc : c ≠ marker.getD pos 0) (h0 : marker.getD 0 0 = c) :
    nextHeaderIdPos marker pos c = 1 := by
  unfold nextHeaderIdPos
  rw [if_pos hc, if_pos h0]

theorem nextHeaderIdPos_reset (marker : List Byte) (pos : Nat) (c : Byte)
    (hc : c ≠ marker.getD pos 0) (h0 : marker.getD 0 0 ≠ c) :
    nextHeaderIdPos marker pos c = 0 := by
  unfold nextHeaderIdPos
  rw [if_pos hc, if_neg h0]

theorem syncLoop_noise (marker body : List Byte) (hm : FirstByteOnce marker) :
    ∀ (noise : List Byte) (pos : Nat), pos < marker.length →
      ¬ marker <:+: marker.take pos ++ noise →
      syncLoop marker pos (noise ++ (marker ++ body))
        = { valid_stream := true, headerIdPos := marker.length,
            stream := { rest := body, good := true } } := by
  intro noise
  induction noise with
  | nil =>
    intro pos hpos _
    cases hmk : marker with
    | nil => simp [hmk] at hpos
    | cons a t =>
      have hnext : nextHeaderIdPos marker pos a = 1 := by
        by_cases hp : pos = 0
        · subst hp
          simp [nextHeaderIdPos, hmk]
        · have hmem := getD_mem_tail marker pos (by omega) hpos
          have hne : a ≠ marker.getD pos 0 := by
            intro h
            apply hm
            rw [← h] at hmem
            simpa [hmk] using hmem
          exact nextHeaderIdPos_restart marker pos a hne (by simp [hmk])
      have h1 := syncLoop_marker_from marker body (marker.length - 1) 1 (by omega)
      rw [← hmk, List.nil_append]
      rw [hmk, List.cons_append, syncLoop, ← hmk, if_pos hpos, hnext]
      simpa [hmk] using h1
  | cons c n ih =>
    intro pos hpos hno
    rw [List.cons_append, syncLoop, if_pos hpos]
    by_cases hc : c = marker.getD pos 0
    · have hnext : nextHeaderIdPos marker pos c = pos + 1 := by
        rw [hc]; exact nextHeaderIdPos_match marker pos
      have htake : marker.take (pos + 1) ++ n = marker.take pos ++ c :: n := by
        rw [take_succ_getD marker pos hpos, hc]; simp
      rw [hnext]
      apply ih
      · by_contra hge
        have hlen : pos + 1 = marker.length := by omega
        apply hno
        rw [← htake, hlen, List.take_length]
        exact List.prefix_append _ _ |>.isInfix
      · rw [htake]; exact hno
    · by_cases h0 : marker.getD 0 0 = c
      · have hnext : nextHeaderIdPos marker pos c = 1 :=
          nextHeaderIdPos_restart marker pos c hc h0
        have hpos0 : pos ≠ 0 := by
          intro h; subst h; exact hc h0.symm
        rw [hnext]
        apply ih
        · omega
        · intro hin
          apply hno
          have h1 : marker.take 1 = [c] := by
            cases hmk : marker with
            | nil => simp [hmk] at hpos
            | cons a t => simp [hmk] at h0 ⊢; exact h0
          rw [h1] at hin
          exact hin.trans (List.suffix_append _ _).isInfix
      · have hnext : nextHeaderIdPos marker pos c = 0 :=
          nextHeaderIdPos_reset marker pos c hc h0
        rw [hnext]
        apply ih
        · omega
        · intro hin
          apply hno
          rw [List.take_zero, List.nil_append] at hin
          exact hin.trans ((List.suffix_cons c n).isInfix.trans (List.suffix_append _ _).isInfix)

theorem syncLoop_after_noise (marker noise body : List Byte) (hm : FirstByteOnce marker)
    (hn : ¬ marker <:+: noise) :
    syncLoop marker 0 (noise ++ (marker ++ body))
      = { valid_stream := true, headerIdPos := marker.length,
          stream := { rest := body, good := true } } := by
  apply syncLoop_noise marker body hm noise 0
  · cases marker with
    | nil => exact absurd List.nil_infix hn
    | cons a t => simp
  · simpa using hn

theorem resyncsAt_of_layout (marker noise body : List Byte) (hm : FirstByteOnce marker)
    (hn : ¬ marker <:+: noise) : ResyncsAt marker noise (marker ++ body) := by
  have hs := syncLoop_after_noise marker noise body hm hn
  refine ⟨body, rfl, hs, ?_, ?_⟩
  · simp only [List.length_append]
    omega
  · intro stats
    simp only [decodePointCloud, hs, syncLoop_marker, if_true, and_true]
    rfl

/-- C3, synchronization robustness, as the code has it: for every marker whose
first byte occurs at no later position of the marker, and every noise byte
sequence that does not contain the marker as a contiguous run, decoding
`noise ++ frame` for a frame written by either encode entry point reports
success, the resynchronization loop stops exactly behind the frame's own marker
(having consumed `length noise + length marker` bytes), and the variables read
are those of the frame. -/
theorem sync_after_noise (env : Collaborators) (noise : List Byte)
    (hm : FirstByteOnce env.frameHeaderIdentifier_)
    (hn : ¬ env.frameHeaderIdentifier_ <:+: noise) :
    (∀ (cloud_arg : PointCloud) (doColorEncoding stats : Bool) (pngLevel_arg : Int)
        (e : Encoded),
      encodePointCloud env cloud_arg doColorEncoding stats pngLevel_arg = some e →
      ResyncsAt env.frameHeaderIdentifier_ noise e.out) ∧
    (∀ (disparityMap_arg colorImage_arg : List Nat) (width_arg height_arg : Nat)
        (doColorEncoding stats : Bool) (pngLevel_arg : Int)
        (focalLength_arg disparityShift_arg disparityScale_arg : CFloat) (e : RawEncoded),
      encodeRawDisparityMapWithColorImage env disparityMap_arg colorImage_arg
          width_arg height_arg doColorEncoding stats pngLevel_arg
          focalLength_arg disparityShift_arg disparityScale_arg = some e →
      ResyncsAt env.frameHeaderIdentifier_ noise e.out) := by
  constructor
  · intro cloud_arg doColorEncoding stats pngLevel_arg e he
    obtain ⟨maxDepth, focalLength, -, -, -, hout⟩ :=
      encodePointCloud_some env cloud_arg doColorEncoding stats pngLevel_arg e he
    rw [hout, frameLayout]
    exact resyncsAt_of_layout _ noise _ hm hn
  · intro disparityMap_arg colorImage_arg width_arg height_arg doColorEncoding stats
      pngLevel_arg focalLength_arg disparityShift_arg disparityScale_arg e he
    obtain ⟨-, -, -, -, -, hout⟩ :=
      encodeRaw_some env disparityMap_arg colorImage_arg width_arg height_arg
        doColorEncoding stats pngLevel_arg focalLength_arg disparityShift_arg
        disparityScale_arg e he
    rw [hout, frameLayout]
    exact resyncsAt_of_layout _ noise _ hm hn

theorem sync_after_noise_witness :
    FirstByteOnce [60, 80, 62] ∧ ¬ [60, 80, 62] <:+: [60, 80, 1, 60] ∧
    ResyncsAt [60, 80, 62] [60, 80, 1, 60]
      [60, 80, 62, 2, 0, 0, 0, 2, 0, 0, 0, 3, 0, 0, 0, 3, 0, 0, 128,
       1, 0, 0, 0, 0, 0, 0, 0, 5, 0, 0, 0, 1, 3, 9, 2, 6, 13, 0, 0, 0,
       1, 2, 3, 1, 2, 3, 1, 2, 3, 1, 2, 3, 1] ∧
    ResyncsAt [60, 80, 62] [60, 80, 1, 60]
      [60, 80, 62, 2, 0, 0, 0, 2, 0, 0, 0, 1, 0, 0, 128, 100, 0, 0, 0,
       3, 0, 0, 0, 2, 0, 0, 0, 5, 0, 0, 0, 0, 5, 2047, 7, 6, 13, 0, 0, 0,
       0, 0, 0, 4, 5, 6, 0, 0, 0, 10, 11, 12, 1] :=
  ⟨by decide, by decide,
    (sync_after_noise sampleEnv [60, 80, 1, 60] (by decide) (by decide)).1
      sampleCloud true false 6 _ encode_sampleCloud,
    (sync_after_noise sampleEnv [60, 80, 1, 60] (by decide) (by decide)).2
      [0, 5, 2047, 7] [1, 2, 3, 4, 5, 6, 7, 8, 9, 10, 11, 12] 2 2 true false 6 100 2 3 _
      encodeRaw_sample⟩

/-- C3 as stated fails: with the marker `aab` and the noise `a`, which does not
contain the marker, the frame written by the raw entry point is not found: the
decoder reports failure on `noise ++ frame`. -/
theorem sync_after_noise_counterexample :
    ¬ [97, 97, 98] <:+: [97] ∧
    encodeRawDisparityMapWithColorImage overlapEnv [5] [] 1 1 false false 0 0 0 0
      = some { out := [97, 97, 98, 1, 0, 0, 0, 1, 0, 0, 0, 1, 0, 0, 128, 0, 0, 0, 0,
                       0, 0, 0, 0, 0, 0, 0, 0, 1, 0, 0, 0, 5, 0, 0, 0, 0]
               compressedDisparity := [5]
               compressedRGB := []
               calls := [Call.encodeMono [5] 1 1 0]
               info := none
               buffers := { disparityMap := [5], colorImage := [] } } ∧
    (decodePointCloud [97, 97, 98]
        ([97] ++ [97, 97, 98, 1, 0, 0, 0, 1, 0, 0, 0, 1, 0, 0, 128, 0, 0, 0, 0,
                  0, 0, 0, 0, 0, 0, 0, 0, 1, 0, 0, 0, 5, 0, 0, 0, 0]) false).valid_stream
      = false := by
  refine ⟨by decide, ?_, by decide⟩
  simp only [CFloat.zero_eq, encodeRawDisparityMapWithColorImage, CFloat.neg_one_eq]
  norm_num [sanitizeLoop, sanitizeFrom, memset3,
    overlapEnv, sampleFloat_bits_finite, writeHeader, write, le32, toUInt32]

/-! ## Truncated streams and the success flag -/

theorem read_good (s : IStream) (n : Nat) :
    (s.read n).2.good = true ↔ s.good = true ∧ n ≤ s.rest.length := by
  unfold IStream.read
  by_cases hg : s.good = true
  · by_cases hn : n ≤ s.rest.length <;> simp [hg, hn]
  · simp [hg]

theorem read_of_good (s : IStream) (n : Nat) (h : (s.read n).2.good = true) :
    s.read n = (s.rest.take n, { rest := s.rest.drop n, good := true }) := by
  obtain ⟨hg, hn⟩ := (read_good s n).mp h
  simp [IStream.read, hg, hn]

theorem readScalar_snd (s : IStream) : s.readScalar.2 = (s.read 4).2 := rfl

theorem readScalar_of_good (s : IStream) (h : s.readScalar.2.good = true) :
    s.good = true ∧ 4 ≤ s.rest.length ∧
    s.readScalar = (some (ofLe32 (s.rest.take 4)), { rest := s.rest.drop 4, good := true }) := by
  rw [readScalar_snd] at h
  obtain ⟨hg, hn⟩ := (read_good s 4).mp h
  refine ⟨hg, hn, ?_⟩
  simp [IStream.readScalar, read_of_good s 4 h, hn]

theorem readScalar_of_bad (s : IStream) (h : s.good = false) :
    s.readScalar = (none, s) := by
  simp [IStream.readScalar, IStream.read, h]

theorem readPayload_good (s : IStream) (size : Option Nat)
    (h : (s.readPayload size).2.good = true) :
    s.good = true ∧ ∀ n, size = some n →
      n ≤ s.rest.length ∧ (s.readPayload size).2 = { rest := s.rest.drop n, good := true } := by
  cases size with
  | none => exact ⟨h, by simp⟩
  | some n =>
    have h2 : (s.read n).2.good = true := h
    obtain ⟨hg, hn⟩ := (read_good s n).mp h2
    refine ⟨hg, ?_⟩
    intro m hm
    cases hm
    refine ⟨hn, ?_⟩
    simp [IStream.readPayload, read_of_good s n h2]

theorem readFrame_stream (s0 : IStream) (stats : Bool) :
    (readFrame s0 stats).stream
      = ((((s0.readScalar.2.readScalar.2.readScalar.2.readScalar.2.readScalar.2.readScalar.2.readScalar.2.readPayload
            s0.readScalar.2.readScalar.2.readScalar.2.readScalar.2.readScalar.2.readScalar.2.readScalar.1).2.readScalar.2).readPayload
          ((s0.readScalar.2.readScalar.2.readScalar.2.readScalar.2.readScalar.2.readScalar.2.readScalar.2.readPayload
            s0.readScalar.2.readScalar.2.readScalar.2.readScalar.2.readScalar.2.readScalar.2.readScalar.1).2.readScalar.1)).2) := rfl

theorem readFrame_good_complete (body : List Byte) (stats : Bool)
    (h : (readFrame { rest := body, good := true } stats).stream.good = true) :
    ¬ TruncatedBody body := by
  rw [readFrame_stream] at h
  obtain ⟨h9, hp2⟩ := readPayload_good _ _ h
  obtain ⟨h8, hl8, e8⟩ := readScalar_of_good _ h9
  obtain ⟨h7, hp1⟩ := readPayload_good _ _ h8
  obtain ⟨h6, hl6, e6⟩ := readScalar_of_good _ h7
  obtain ⟨h5, hl5, e5⟩ := readScalar_of_good _ h6
  obtain ⟨h4, hl4, e4⟩ := readScalar_of_good _ h5
  obtain ⟨h3, hl3, e3⟩ := readScalar_of_good _ h4
  obtain ⟨h2, hl2, e2⟩ := readScalar_of_good _ h3
  obtain ⟨h1, hl1, e1⟩ := readScalar_of_good _ h2
  obtain ⟨-, hl0, e0⟩ := readScalar_of_good _ h1
  clear h h9 h8 h7 h6 h5 h4 h3 h2 h1
  simp only [e0, List.length_drop, List.drop_drop] at e1 hl1
  simp only [e0, e1, List.length_drop, List.drop_drop] at e2 hl2
  simp only [e0, e1, e2, List.length_drop, List.drop_drop] at e3 hl3
  simp only [e0, e1, e2, e3, List.length_drop, List.drop_drop] at e4 hl4
  simp only [e0, e1, e2, e3, e4, List.length_drop, List.drop_drop] at e5 hl5
  simp only [e0, e1, e2, e3, e4, e5, List.length_drop, List.drop_drop] at e6 hl6
  simp only [e0, e1, e2, e3, e4, e5, e6, List.length_drop, List.drop_drop] at hp1 e8 hl8 hp2
  obtain ⟨hd, ed⟩ := hp1 _ rfl
  simp only [ed, List.length_drop, List.drop_drop] at e8 hl8 hp2
  simp only [e8] at hp2
  obtain ⟨hc, -⟩ := hp2 _ rfl
  simp only [List.length_drop, List.drop_drop] at hc hd
  unfold TruncatedBody
  norm_num at *
  omega

theorem readScalar_ok (r : List Byte) (h : 4 ≤ r.length) :
    IStream.readScalar { rest := r, good := true }
      = (some (ofLe32 (r.take 4)), { rest := r.drop 4, good := true }) := by
  simp [IStream.readScalar, IStream.read, h]

theorem readPayload_ok (r : List Byte) (n : Nat) (h : n ≤ r.length) :
    (IStream.readPayload { rest := r, good := true } (some n)).2
      = { rest := r.drop n, good := true } := by
  simp [IStream.readPayload, IStream.read, h]

theorem readFrame_complete_good (body : List Byte) (stats : Bool)
    (h : ¬ TruncatedBody body) :
    (readFrame { rest := body, good := true } stats).stream.good = true := by
  unfold TruncatedBody at h
  simp only [not_or, not_lt] at h
  obtain ⟨h28, hd, hc⟩ := h
  have l0 : 4 ≤ body.length := by omega
  have l1 : 4 ≤ (body.drop 4).length := by simp only [List.length_drop]; omega
  have l2 : 4 ≤ (body.drop 8).length := by simp only [List.length_drop]; omega
  have l3 : 4 ≤ (body.drop 12).length := by simp only [List.length_drop]; omega
  have l4 : 4 ≤ (body.drop 16).length := by simp only [List.length_drop]; omega
  have l5 : 4 ≤ (body.drop 20).length := by simp only [List.length_drop]; omega
  have l6 : 4 ≤ (body.drop 24).length := by simp only [List.length_drop]; omega
  have l7 : ofLe32 ((body.drop 24).take 4) ≤ (body.drop 28).length := by
    simp only [List.length_drop]; omega
  have l8 : 4 ≤ (body.drop (28 + ofLe32 ((body.drop 24).take 4))).length := by
    simp only [List.length_drop]; omega
  have l9 : ofLe32 ((body.drop (28 + ofLe32 ((body.drop 24).take 4))).take 4)
      ≤ (body.drop (28 + ofLe32 ((body.drop 24).take 4) + 4)).length := by
    simp only [List.length_drop]; omega
  rw [readFrame_stream]
  simp only [readScalar_ok _ l0, readScalar_ok _ l1, readScalar_ok _ l2, readScalar_ok _ l3,
    readScalar_ok _ l4, readScalar_ok _ l5, readScalar_ok _ l6, List.drop_drop,
    Nat.reduceAdd, readPayload_ok _ _ l7, readScalar_ok _ l8, Nat.add_comm _ 28,
    readPayload_ok _ _ l9]

theorem decode_valid_eq_sync (marker stream : List Byte) (stats : Bool) :
    (decodePointCloud marker stream stats).valid_stream
      = (syncLoop marker 0 stream).valid_stream := by
  unfold decodePointCloud
  by_cases h : (syncLoop marker 0 stream).valid_stream = true
  · simp only [h, if_true]
    rfl
  · rw [Bool.not_eq_true] at h
    simp only [h, Bool.false_eq_true, if_false]

theorem decode_stream_of_valid (marker stream : List Byte) (stats : Bool)
    (h : (syncLoop marker 0 stream).valid_stream = true) :
    decodePointCloud marker stream stats = readFrame (syncLoop marker 0 stream).stream stats := by
  unfold decodePointCloud
  simp only [h, if_true]

theorem syncLoop_stream_good (marker : List Byte) :
    ∀ (stream : List Byte) (pos : Nat), (syncLoop marker pos stream).valid_stream = true →
      (syncLoop marker pos stream).stream.good = true := by
  intro stream
  induction stream with
  | nil =>
    intro pos h
    unfold syncLoop at h ⊢
    split <;> simp_all
  | cons c rest ih =>
    intro pos h
    unfold syncLoop at h ⊢
    split
    · rename_i hlt
      rw [if_pos hlt] at h
      exact ih _ h
    · rfl

theorem syncLoop_invalid_iff (marker : List Byte) :
    ∀ (stream : List Byte) (pos : Nat),
      (syncLoop marker pos stream).valid_stream = false ↔
        ∀ k, k ≤ stream.length →
          (stream.take k).foldl (nextHeaderIdPos marker) pos < marker.length := by
  intro stream
  induction stream with
  | nil =>
    intro pos
    unfold syncLoop
    by_cases hlt : pos < marker.length
    · simp [hlt]
    · simp only [if_neg hlt, List.length_nil, Nat.le_zero, List.take_nil, List.foldl_nil]
      constructor
      · intro h; cases h
      · intro h; exact absurd (h 0 rfl) hlt
  | cons c rest ih =>
    intro pos
    unfold syncLoop
    by_cases hlt : pos < marker.length
    · rw [if_pos hlt, ih]
      constructor
      · intro h k hk
        cases k with
        | zero => simpa using hlt
        | succ j =>
          have := h j (by simpa using hk)
          simpa using this
      · intro h k hk
        have := h (k + 1) (by simpa using hk)
        simpa using this
    · rw [if_neg hlt]
      constructor
      · intro h; cases h
      · intro h; exact absurd (by simpa using h 0 (Nat.zero_le _)) hlt

/-- C4, truncated stream, as the code has it: for every stream in which the
marker is found but which ends before all six header scalars, the two size
fields and the declared number of depth and colour payload bytes have been
read, `decodePointCloud` returns true; the short read only leaves the input
stream in its failed state. -/
theorem truncated_stream_accepted (marker stream : List Byte) (stats : Bool)
    (hsync : (syncLoop marker 0 stream).valid_stream = true)
    (htrunc : TruncatedBody (syncLoop marker 0 stream).stream.rest) :
    (decodePointCloud marker stream stats).valid_stream = true ∧
    (decodePointCloud marker stream stats).stream.good = false := by
  constructor
  · rw [decode_valid_eq_sync, hsync]
  · rw [decode_stream_of_valid marker stream stats hsync]
    have hg := syncLoop_stream_good marker stream 0 hsync
    have hs : (syncLoop marker 0 stream).stream
        = { rest := (syncLoop marker 0 stream).stream.rest, good := true } := by
      rw [← hg]
    rw [hs]
    cases hr : (readFrame { rest := (syncLoop marker 0 stream).stream.rest, good := true }
        stats).stream.good with
    | false => rfl
    | true => exact absurd htrunc (readFrame_good_complete _ stats hr)

theorem truncated_stream_accepted_witness :
    (syncLoop [60, 80, 62] 0 [60, 80, 62, 2, 0]).valid_stream = true ∧
    TruncatedBody (syncLoop [60, 80, 62] 0 [60, 80, 62, 2, 0]).stream.rest ∧
    (decodePointCloud [60, 80, 62] [60, 80, 62, 2, 0] false).valid_stream = true ∧
    (decodePointCloud [60, 80, 62] [60, 80, 62, 2, 0] false).stream.good = false :=
  ⟨by decide, by decide,
    truncated_stream_accepted [60, 80, 62] [60, 80, 62, 2, 0] false (by decide) (by decide)⟩

/-- C4 as stated fails: the frame of the sample cloud cut in the middle of its
colour payload (5 of the 13 declared bytes are left) is decoded with the flag
true, the missing colour bytes being zeros. -/
theorem truncated_stream_counterexample :
    (syncLoop [60, 80, 62] 0
        [60, 80, 62, 2, 0, 0, 0, 2, 0, 0, 0, 3, 0, 0, 0, 3, 0, 0, 128,
         1, 0, 0, 0, 0, 0, 0, 0, 5, 0, 0, 0, 1, 3, 9, 2, 6, 13, 0, 0, 0,
         1, 2, 3, 1, 2]).valid_stream = true ∧
    TruncatedBody
      [2, 0, 0, 0, 2, 0, 0, 0, 3, 0, 0, 0, 3, 0, 0, 128,
       1, 0, 0, 0, 0, 0, 0, 0, 5, 0, 0, 0, 1, 3, 9, 2, 6, 13, 0, 0, 0,
       1, 2, 3, 1, 2] ∧
    (decodePointCloud [60, 80, 62]
        [60, 80, 62, 2, 0, 0, 0, 2, 0, 0, 0, 3, 0, 0, 0, 3, 0, 0, 128,
         1, 0, 0, 0, 0, 0, 0, 0, 5, 0, 0, 0, 1, 3, 9, 2, 6, 13, 0, 0, 0,
         1, 2, 3, 1, 2] false).valid_stream = true ∧
    (decodePointCloud [60, 80, 62]
        [60, 80, 62, 2, 0, 0, 0, 2, 0, 0, 0, 3, 0, 0, 0, 3, 0, 0, 128,
         1, 0, 0, 0, 0, 0, 0, 0, 5, 0, 0, 0, 1, 3, 9, 2, 6, 13, 0, 0, 0,
         1, 2, 3, 1, 2] false).compressedRGB
      = some [1, 2, 3, 1, 2, 0, 0, 0, 0, 0, 0, 0, 0] := by
  refine ⟨by decide, by decide, by decide, by decide⟩

/-- C5, decode success flag: `decodePointCloud` returns false exactly when the
resynchronization loop exhausts the stream before its match counter reaches the
marker length, and true in every other case; the flag is the one the loop
leaves, whatever the later header and payload reads meet. -/
theorem decode_success_flag (marker stream : List Byte) (stats : Bool) :
    ((decodePointCloud marker stream stats).valid_stream = false ↔
      ∀ k ≤ stream.length, headerIdPosAfter marker (stream.take k) < marker.length) ∧
    ((decodePointCloud marker stream stats).valid_stream = true ↔
      ∃ k ≤ stream.length, marker.length ≤ headerIdPosAfter marker (stream.take k)) ∧
    (decodePointCloud marker stream stats).valid_stream
      = (syncLoop marker 0 stream).valid_stream := by
  have h1 : (decodePointCloud marker stream stats).valid_stream = false ↔
      ∀ k ≤ stream.length, headerIdPosAfter marker (stream.take k) < marker.length := by
    rw [decode_valid_eq_sync]
    exact syncLoop_invalid_iff marker stream 0
  refine ⟨h1, ?_, decode_valid_eq_sync marker stream stats⟩
  rw [← Bool.not_eq_false, h1]
  push_neg
  rfl

theorem decode_success_flag_witness :
    (decodePointCloud [60, 80, 62] [1, 60, 80] false).valid_stream = false ∧
    (decodePointCloud [60, 80, 62] [1, 60, 80, 62, 7] false).valid_stream = true :=
  ⟨(decode_success_flag [60, 80, 62] [1, 60, 80] false).1.mpr (by decide),
    (decode_success_flag [60, 80, 62] [1, 60, 80, 62, 7] false).2.1.mpr (by decide)⟩

/-! ## Colour sanitizing -/

/-- C6, colour sanitizing: for a depth buffer of length `width*height` and a
colour buffer of length `3*width*height`, after the sanitizing loop the colour
byte at index `j` is 0 when the depth sample at index `j/3` is 0 or `0x7FF` and
the original byte otherwise, and the depth buffer and both lengths are
unchanged; these are the buffers `encodeRawDisparityMapWithColorImage` leaves
whenever it completes, which it does when `width*height` fits 32 bits. -/
theorem color_sanitization (width height : Nat) (disparityMap colorImage : List Nat)
    (hd : disparityMap.length = width * height)
    (hc : colorImage.length = 3 * width * height) :
    ∃ sanitized : List Nat,
      sanitizeLoop (width * height)
          { disparityMap := disparityMap, colorImage := colorImage }
        = some { disparityMap := disparityMap, colorImage := sanitized } ∧
      sanitized.length = colorImage.length ∧
      (∀ j, j < colorImage.length →
        sanitized.getD j 0
          = if disparityMap.getD (j / 3) 0 = 0 ∨ disparityMap.getD (j / 3) 0 = 0x7FF then 0
            else colorImage.getD j 0) ∧
      (∀ (env : Collaborators) (doColorEncoding stats : Bool) (pngLevel_arg : Int)
          (focalLength_arg disparityShift_arg disparityScale_arg : CFloat) (e : RawEncoded),
        encodeRawDisparityMapWithColorImage env disparityMap colorImage width height
            doColorEncoding stats pngLevel_arg focalLength_arg disparityShift_arg
            disparityScale_arg = some e →
        e.buffers = { disparityMap := disparityMap, colorImage := sanitized }) ∧
      (width * height < 2 ^ 32 →
        ∀ (env : Collaborators) (doColorEncoding stats : Bool) (pngLevel_arg : Int)
          (focalLength_arg disparityShift_arg disparityScale_arg : CFloat),
        ∃ e, encodeRawDisparityMapWithColorImage env disparityMap colorImage width height
            doColorEncoding stats pngLevel_arg focalLength_arg disparityShift_arg
            disparityScale_arg = some e) := by
  have hc2 : colorImage.length = 3 * disparityMap.length := by
    rw [hc, hd, Nat.mul_assoc]
  obtain ⟨c, hs, hl, hg⟩ := sanitizeLoop_spec disparityMap colorImage hc2
  rw [hd] at hs
  refine ⟨c, hs, hl, hg, ?_, ?_⟩
  · intro env doColorEncoding stats pngLevel_arg focalLength_arg disparityShift_arg
      disparityScale_arg e he
    obtain ⟨h1, -, h3, -, -, -⟩ :=
      encodeRaw_some env disparityMap colorImage width height doColorEncoding stats
        pngLevel_arg focalLength_arg disparityShift_arg disparityScale_arg e he
    rw [← h1, hd, hs] at h3
    exact (Option.some.inj h3).symm
  · intro hlt env doColorEncoding stats pngLevel_arg focalLength_arg disparityShift_arg
      disparityScale_arg
    exact encodeRaw_complete env disparityMap colorImage width height doColorEncoding stats
      pngLevel_arg focalLength_arg disparityShift_arg disparityScale_arg
      (by rw [hd, toUInt32_of_lt hlt]) hc2

theorem color_sanitization_witness :
    [0, 5, 2047, 7].length = 2 * 2 ∧
    [1, 2, 3, 4, 5, 6, 7, 8, 9, 10, 11, 12].length = 3 * 2 * 2 ∧
    ∃ sanitized : List Nat,
      sanitizeLoop (2 * 2)
          { disparityMap := [0, 5, 2047, 7]
            colorImage := [1, 2, 3, 4, 5, 6, 7, 8, 9, 10, 11, 12] }
        = some { disparityMap := [0, 5, 2047, 7], colorImage := sanitized } ∧
      sanitized.length = [1, 2, 3, 4, 5, 6, 7, 8, 9, 10, 11, 12].length ∧
      (∀ j, j < [1, 2, 3, 4, 5, 6, 7, 8, 9, 10, 11, 12].length →
        sanitized.getD j 0
          = if [0, 5, 2047, 7].getD (j / 3) 0 = 0 ∨ [0, 5, 2047, 7].getD (j / 3) 0 = 0x7FF
            then 0
            else [1, 2, 3, 4, 5, 6, 7, 8, 9, 10, 11, 12].getD j 0) ∧
      (∀ (env : Collaborators) (doColorEncoding stats : Bool) (pngLevel_arg : Int)
          (focalLength_arg disparityShift_arg disparityScale_arg : CFloat) (e : RawEncoded),
        encodeRawDisparityMapWithColorImage env [0, 5, 2047, 7]
            [1, 2, 3, 4, 5, 6, 7, 8, 9, 10, 11, 12] 2 2
            doColorEncoding stats pngLevel_arg focalLength_arg disparityShift_arg
            disparityScale_arg = some e →
        e.buffers = { disparityMap := [0, 5, 2047, 7], colorImage := sanitized }) ∧
      (2 * 2 < 2 ^ 32 →
        ∀ (env : Collaborators) (doColorEncoding stats : Bool) (pngLevel_arg : Int)
          (focalLength_arg disparityShift_arg disparityScale_arg : CFloat),
        ∃ e, encodeRawDisparityMapWithColorImage env [0, 5, 2047, 7]
            [1, 2, 3, 4, 5, 6, 7, 8, 9, 10, 11, 12] 2 2
            doColorEncoding stats pngLevel_arg focalLength_arg disparityShift_arg
            disparityScale_arg = some e) :=
  ⟨by decide, by decide,
    color_sanitization 2 2 [0, 5, 2047, 7] [1, 2, 3, 4, 5, 6, 7, 8, 9, 10, 11, 12]
      (by decide) (by decide)⟩

/-- C7, idempotence of the colour sanitizing: for a depth buffer and a colour
buffer of three bytes per depth sample, the sanitizing loop run on its own
result gives the colour buffer it gave the first time. -/
theorem color_sanitization_idempotent (disparityMap colorImage : List Nat)
    (hc : colorImage.length = 3 * disparityMap.length) :
    ∃ sanitized : List Nat,
      sanitizeLoop disparityMap.length
          { disparityMap := disparityMap, colorImage := colorImage }
        = some { disparityMap := disparityMap, colorImage := sanitized } ∧
      sanitizeLoop disparityMap.length
          { disparityMap := disparityMap, colorImage := sanitized }
        = some { disparityMap := disparityMap, colorImage := sanitized } := by
  obtain ⟨c, hs, -, -⟩ := sanitizeLoop_spec disparityMap colorImage hc
  exact ⟨c, hs, sanitizeLoop_idem disparityMap colorImage c hc hs⟩

theorem color_sanitization_idempotent_witness :
    [1, 2, 3, 4, 5, 6, 7, 8, 9].length = 3 * [2047, 9, 0].length ∧
    ∃ sanitized : List Nat,
      sanitizeLoop [2047, 9, 0].length
          { disparityMap := [2047, 9, 0], colorImage := [1, 2, 3, 4, 5, 6, 7, 8, 9] }
        = some { disparityMap := [2047, 9, 0], colorImage := sanitized } ∧
      sanitizeLoop [2047, 9, 0].length
          { disparityMap := [2047, 9, 0], colorImage := sanitized }
        = some { disparityMap := [2047, 9, 0], colorImage := sanitized } :=
  ⟨by decide,
    color_sanitization_idempotent [2047, 9, 0] [1, 2, 3, 4, 5, 6, 7, 8, 9] (by decide)⟩

/-! ## Geometry analysis -/

theorem intRange_length (c : Nat) : (intRange (-(c : Int)) c).length = 2 * c := by
  simp only [intRange, List.length_map, List.length_range]
  omega

theorem analyzePoint_not_finite (points : List Point) (y x : Int) (st : AnalyzeState)
    (hit : st.it < points.length) (hnf : ∀ p ∈ points, p.isFinite = false) :
    analyzePoint points y x st = some { st with it := st.it + 1 } := by
  unfold analyzePoint
  rw [List.getElem?_eq_getElem hit]
  have h := hnf _ (List.getElem_mem hit)
  simp [h]

theorem foldlM_points_not_finite (points : List Point) (y : Int)
    (hnf : ∀ p ∈ points, p.isFinite = false) :
    ∀ (xs : List Int) (st : AnalyzeState), st.it + xs.length ≤ points.length →
      xs.foldlM (fun st x => analyzePoint points y x st) st
        = some { st with it := st.it + xs.length } := by
  intro xs
  induction xs with
  | nil => intro st _; rfl
  | cons x xs ih =>
    intro st h
    simp only [List.length_cons] at h
    rw [List.foldlM_cons, analyzePoint_not_finite points y x st (by omega) hnf]
    simp only [Option.bind_eq_bind, Option.some_bind]
    rw [ih _ (by simp only; omega)]
    simp only [List.length_cons, Nat.add_assoc, Nat.add_comm 1]

theorem foldlM_rows_not_finite (points : List Point) (centerX : Nat)
    (hnf : ∀ p ∈ points, p.isFinite = false) :
    ∀ (ys : List Int) (st : AnalyzeState),
      st.it + ys.length * (2 * centerX) ≤ points.length →
      ys.foldlM (analyzeRow points centerX) st
        = some { st with it := st.it + ys.length * (2 * centerX) } := by
  intro ys
  induction ys with
  | nil => intro st _; simp
  | cons y ys ih =>
    intro st h
    have e : (ys.length + 1) * (2 * centerX) = ys.length * (2 * centerX) + 2 * centerX :=
      Nat.succ_mul _ _
    simp only [List.length_cons, e] at h
    have hrow : analyzeRow points centerX st y
        = some { st with it := st.it + 2 * centerX } := by
      unfold analyzeRow
      rw [foldlM_points_not_finite points y hnf _ st (by rw [intRange_length]; omega),
        intRange_length]
    rw [List.foldlM_cons, hrow]
    simp only [Option.bind_eq_bind, Option.some_bind]
    rw [ih _ (by simp only; omega)]
    simp only [List.length_cons, e]
    congr 2
    omega

theorem half_mul_half_le (w h : Nat) : 2 * (h / 2) * (2 * (w / 2)) ≤ w * h := by
  have h1 : 2 * (h / 2) ≤ h := by omega
  have h2 : 2 * (w / 2) ≤ w := by omega
  calc 2 * (h / 2) * (2 * (w / 2)) ≤ h * w := Nat.mul_le_mul h1 h2
    _ = w * h := Nat.mul_comm _ _

theorem analyze_no_finite (cloud_arg : PointCloud)
    (hw : cloud_arg.width > 1) (hh : cloud_arg.height > 1)
    (hsize : cloud_arg.width * cloud_arg.height = cloud_arg.points.length)
    (hnf : ∀ p ∈ cloud_arg.points, p.isFinite = false) :
    analyzeOrganizedCloud cloud_arg = some (0, 0) := by
  unfold analyzeOrganizedCloud
  have hle := half_mul_half_le cloud_arg.width cloud_arg.height
  simp only [hw, hh, and_self, not_true_eq_false, if_false, hsize, ne_eq]
  rw [foldlM_rows_not_finite cloud_arg.points (cloud_arg.width / 2) hnf _ _
    (by rw [intRange_length]; simp only; omega)]

theorem range_loop_inv {σ : Type} (body : σ → Nat → Option σ) (P : Nat → σ → Prop) :
    ∀ (n : Nat) (st0 : σ), P 0 st0 →
      (∀ i, i < n → ∀ st, P i st → ∃ st', body st i = some st' ∧ P (i + 1) st') →
      ∃ st', (List.range n).foldlM body st0 = some st' ∧ P n st' := by
  intro n
  induction n with
  | zero => intro st0 h0 _; exact ⟨st0, rfl, h0⟩
  | succ n ih =>
    intro st0 h0 hstep
    obtain ⟨st1, h1, hp1⟩ := ih st0 h0 (fun i hi st hP => hstep i (by omega) st hP)
    obtain ⟨st2, h2, hp2⟩ := hstep n (by omega) st1 hp1
    refine ⟨st2, ?_, hp2⟩
    rw [List.range_succ, List.foldlM_append, h1]
    simp [h2]

theorem intRange_foldlM {σ : Type} (c : Nat) (body : σ → Int → Option σ) (st0 : σ) :
    (intRange (-(c : Int)) c).foldlM body st0
      = (List.range (2 * c)).foldlM (fun st (i : Nat) => body st (-(c : Int) + (i : Int)))
          st0 := by
  have h : ((c : Int) - -(c : Int)).toNat = 2 * c := by omega
  unfold intRange
  rw [List.foldlM_map, h]

theorem analyzePoint_inv (points : List Point) (centerX centerY : Nat) (hc : 0 < centerX)
    (j i : Nat) (hi : i < 2 * centerX) (st : AnalyzeState)
    (hit : st.it = j * (2 * centerX) + i) (hlt : st.it < points.length)
    (hinv : ScanInv points centerX centerY st) :
    ∃ st', analyzePoint points (-(centerY : Int) + (j : Int)) (-(centerX : Int) + (i : Int)) st
        = some st' ∧
      st'.it = j * (2 * centerX) + (i + 1) ∧ ScanInv points centerX centerY st' := by
  obtain ⟨hub, hrec⟩ := hinv
  have hmod : st.it % (2 * centerX) = i := by
    rw [hit, Nat.mul_comm j, Nat.mul_add_mod, Nat.mod_eq_of_lt hi]
  have hdiv : st.it / (2 * centerX) = j := by
    rw [hit, Nat.mul_comm j, Nat.mul_add_div (by omega), Nat.div_eq_of_lt hi, Nat.add_zero]
  unfold analyzePoint
  rw [List.getElem?_eq_getElem hlt]
  simp only
  by_cases hcond : points[st.it].isFinite = true ∧ st.maxDepth < points[st.it].z
  · rw [if_pos hcond]
    refine ⟨_, rfl, by simp only; omega, ?_, ?_⟩
    · intro k hk p hp hfin
      simp only at hk ⊢
      by_cases hks : k < st.it
      · exact le_trans (hub k hks p hp hfin) (le_of_lt hcond.2)
      · have hke : k = st.it := by omega
        subst hke
        rw [List.getElem?_eq_getElem hlt] at hp
        rw [← Option.some.inj hp]
    · right
      refine ⟨st.it, points[st.it], by simp, List.getElem?_eq_getElem hlt, hcond.1, rfl, ?_, ?_⟩
      · simp only
        rcases hrec with h0 | ⟨k, p, hk, hp, hfin, hz, hpos, -⟩
        · rw [← h0.1]; exact hcond.2
        · exact lt_trans hpos hcond.2
      · simp only [scanFocal, hmod, hdiv]
  · rw [if_neg hcond]
    refine ⟨_, rfl, by simp only; omega, ?_, ?_⟩
    · intro k hk p hp hfin
      simp only at hk ⊢
      by_cases hks : k < st.it
      · exact hub k hks p hp hfin
      · have hke : k = st.it := by omega
        subst hke
        rw [List.getElem?_eq_getElem hlt] at hp
        have hp' := Option.some.inj hp
        subst hp'
        exact not_lt.mp (fun h => hcond ⟨hfin, h⟩)
    · rcases hrec with h0 | ⟨k, p, hk, hp, hfin, hz, hpos, hf⟩
      · left; exact h0
      · right
        exact ⟨k, p, by simp only; omega, hp, hfin, hz, hpos, hf⟩

theorem analyzeRow_inv (points : List Point) (centerX centerY : Nat) (hc : 0 < centerX)
    (j : Nat) (st : AnalyzeState) (hit : st.it = j * (2 * centerX))
    (hlt : (j + 1) * (2 * centerX) ≤ points.length)
    (hinv : ScanInv points centerX centerY st) :
    ∃ st', analyzeRow points centerX st (-(centerY : Int) + (j : Int)) = some st' ∧
      st'.it = (j + 1) * (2 * centerX) ∧ ScanInv points centerX centerY st' := by
  unfold analyzeRow
  rw [intRange_foldlM]
  have e : (j + 1) * (2 * centerX) = j * (2 * centerX) + 2 * centerX := Nat.succ_mul _ _
  obtain ⟨st', hs, hi, hI⟩ := range_loop_inv
    (fun st (i : Nat) => analyzePoint points (-(centerY : Int) + (j : Int))
      (-(centerX : Int) + (i : Int)) st)
    (fun i st => st.it = j * (2 * centerX) + i ∧ ScanInv points centerX centerY st)
    (2 * centerX) st ⟨by simpa using hit, hinv⟩
    (by
      intro i hi st1 hP
      exact analyzePoint_inv points centerX centerY hc j i hi st1 hP.1 (by omega) hP.2)
  exact ⟨st', hs, by omega, hI⟩

theorem analyze_scan (cloud_arg : PointCloud)
    (hw : cloud_arg.width > 1) (hh : cloud_arg.height > 1)
    (hsize : cloud_arg.width * cloud_arg.height = cloud_arg.points.length) :
    ∃ st, analyzeOrganizedCloud cloud_arg = some (st.maxDepth, st.focalLength) ∧
      st.it = 2 * (cloud_arg.height / 2) * (2 * (cloud_arg.width / 2)) ∧
      ScanInv cloud_arg.points (cloud_arg.width / 2) (cloud_arg.height / 2) st := by
  have hle := half_mul_half_le cloud_arg.width cloud_arg.height
  have hcx : 0 < cloud_arg.width / 2 := by omega
  obtain ⟨st, hs, hi, hI⟩ := range_loop_inv
    (fun st (j : Nat) => analyzeRow cloud_arg.points ((cloud_arg.width / 2 : Nat) : Int) st
      (-((cloud_arg.height / 2 : Nat) : Int) + (j : Int)))
    (fun j st => st.it = j * (2 * (cloud_arg.width / 2)) ∧
      ScanInv cloud_arg.points (cloud_arg.width / 2) (cloud_arg.height / 2) st)
    (2 * (cloud_arg.height / 2)) { maxDepth := 0, focalLength := 0, it := 0 }
    ⟨by simp, by
      refine ⟨?_, Or.inl ⟨rfl, rfl⟩⟩
      intro k hk
      exact absurd hk (Nat.not_lt_zero _)⟩
    (by
      intro j hj st1 hP
      refine analyzeRow_inv cloud_arg.points _ _ hcx j st1 hP.1 ?_ hP.2
      calc (j + 1) * (2 * (cloud_arg.width / 2))
          ≤ 2 * (cloud_arg.height / 2) * (2 * (cloud_arg.width / 2)) :=
            Nat.mul_le_mul_right _ (by omega)
        _ ≤ cloud_arg.points.length := by omega)
  refine ⟨st, ?_, hi, hI⟩
  unfold analyzeOrganizedCloud
  simp only [hw, hh, and_self, not_true_eq_false, if_false, hsize, ne_eq]
  rw [intRange_foldlM, hs]


theorem even_scan_all (w h : Nat) (hwe : w % 2 = 0) (hhe : h % 2 = 0) :
    2 * (h / 2) * (2 * (w / 2)) = w * h := by
  have h1 : 2 * (h / 2) = h := by omega
  have h2 : 2 * (w / 2) = w := by omega
  rw [h1, h2, Nat.mul_comm]

/-- On a grid of even width and even height the claim of C8 holds: the returned
`maxDepth` bounds the depth of every finite point, and it is the depth of a
finite point with positive depth, or 0 when there is none. -/
theorem max_depth_even_grid (cloud_arg : PointCloud)
    (hw : cloud_arg.width > 1) (hh : cloud_arg.height > 1)
    (hsize : cloud_arg.width * cloud_arg.height = cloud_arg.points.length)
    (hwe : cloud_arg.width % 2 = 0) (hhe : cloud_arg.height % 2 = 0) :
    ∃ maxDepth focalLength,
      analyzeOrganizedCloud cloud_arg = some (maxDepth, focalLength) ∧
      (∀ p ∈ cloud_arg.points, p.isFinite = true → p.z ≤ maxDepth) ∧
      ((∃ p ∈ cloud_arg.points, p.isFinite = true ∧ p.z = maxDepth ∧ 0 < maxDepth) ∨
        (maxDepth = 0 ∧ ∀ p ∈ cloud_arg.points, p.isFinite = true → p.z ≤ 0)) := by
  obtain ⟨st, hs, hit, hub, hrec⟩ := analyze_scan cloud_arg hw hh hsize
  rw [even_scan_all _ _ hwe hhe, hsize] at hit
  have hall : ∀ p ∈ cloud_arg.points, p.isFinite = true → p.z ≤ st.maxDepth := by
    intro p hp hfin
    obtain ⟨k, hk, hkp⟩ := List.getElem_of_mem hp
    exact hub k (by omega) p (by rw [List.getElem?_eq_getElem hk, hkp]) hfin
  refine ⟨st.maxDepth, st.focalLength, hs, hall, ?_⟩
  rcases hrec with h0 | ⟨k, p, hk, hp, hfin, hz, hpos, -⟩
  · right
    refine ⟨h0.1, ?_⟩
    intro p hp hfin
    rw [← h0.1]
    exact hall p hp hfin
  · left
    exact ⟨p, List.getElem?_mem hp, hfin, hz, hpos⟩

/-- On a grid of even width and even height the claim of C9 holds where its
formula divides by no zero: when one finite point, at row `r` and column `c`
off the centre row and the centre column, has a positive depth strictly larger
than that of every other finite point, and the sum of the two quotients is not
0, the returned focal length is the specification's value at that point.  In
the centre row and the centre column the code divides by zero
(`focal_centre_column`, `analyze_centreCloud`). -/
theorem focal_length_even_grid (cloud_arg : PointCloud)
    (hw : cloud_arg.width > 1) (hh : cloud_arg.height > 1)
    (hsize : cloud_arg.width * cloud_arg.height = cloud_arg.points.length)
    (hwe : cloud_arg.width % 2 = 0) (hhe : cloud_arg.height % 2 = 0)
    (r c : Nat) (hc : c < cloud_arg.width) (p : Point)
    (hp : cloud_arg.points[r * cloud_arg.width + c]? = some p)
    (hfin : p.isFinite = true) (hpos : 0 < p.z)
    (hmax : ∀ k q, k ≠ r * cloud_arg.width + c → cloud_arg.points[k]? = some q →
      q.isFinite = true → q.z < p.z)
    (hcx : c ≠ cloud_arg.width / 2) (hry : r ≠ cloud_arg.height / 2)
    (hsum : p.x / ((((c : Int) - ((cloud_arg.width / 2 : Nat) : Int) : Int) : ℚ) * p.z)
      + p.y / ((((r : Int) - ((cloud_arg.height / 2 : Nat) : Int) : Int) : ℚ) * p.z) ≠ 0) :
    analyzeOrganizedCloud cloud_arg
      = some (p.z,
          CFloat.finite (focalLengthAt cloud_arg.width cloud_arg.height r c p)) := by
  obtain ⟨st, hs, hit, hub, hrec⟩ := analyze_scan cloud_arg hw hh hsize
  rw [even_scan_all _ _ hwe hhe, hsize] at hit
  have hklt : r * cloud_arg.width + c < cloud_arg.points.length := by
    by_contra hge
    rw [List.getElem?_eq_none (by omega)] at hp
    cases hp
  have hge : p.z ≤ st.maxDepth := hub _ (by omega) p hp hfin
  rcases hrec with h0 | ⟨k, q, hk, hq, hqfin, hz, -, hf⟩
  · rw [h0.1] at hge
    exact absurd hpos (not_lt.mpr hge)
  · have hkeq : k = r * cloud_arg.width + c := by
      by_contra hne
      have := hmax k q hne hq hqfin
      rw [hz] at this
      exact absurd this (not_lt.mpr hge)
    subst hkeq
    rw [hp] at hq
    have hqp : p = q := Option.some.inj hq
    subst hqp
    rw [hs, ← hz, hf]
    have h2 : 2 * (cloud_arg.width / 2) = cloud_arg.width := by omega
    have hmod : (r * cloud_arg.width + c) % cloud_arg.width = c := by
      rw [Nat.mul_comm, Nat.mul_add_mod, Nat.mod_eq_of_lt hc]
    have hdiv : (r * cloud_arg.width + c) / cloud_arg.width = r := by
      rw [Nat.mul_comm, Nat.mul_add_div (by omega), Nat.div_eq_of_lt hc, Nat.add_zero]
    have ex : (-((cloud_arg.width / 2 : Nat) : Int) + (c : Int))
        = (c : Int) - ((cloud_arg.width / 2 : Nat) : Int) := by omega
    have ey : (-((cloud_arg.height / 2 : Nat) : Int) + (r : Int))
        = (r : Int) - ((cloud_arg.height / 2 : Nat) : Int) := by omega
    simp only [scanFocal, focalLengthAt, h2, hmod, hdiv, ex, ey]
    rw [focal_off_centre p.x p.y p.z _ _ (by omega) (by omega) (ne_of_gt hpos) hsum]

/-- The even-grid statement on the sample cloud: its deepest point is at row 0
and column 0, off the centre, and the focal length returned is the formula's
value -3. -/
theorem focal_length_even_grid_sample :
    analyzeOrganizedCloud sampleCloud
      = some (3, CFloat.finite
          (focalLengthAt 2 2 0 0 { x := 1, y := 1, z := 3, isFinite := true })) ∧
    focalLengthAt 2 2 0 0 { x := 1, y := 1, z := 3, isFinite := true } = -3 := by
  refine ⟨?_, by norm_num [focalLengthAt]⟩
  refine focal_length_even_grid sampleCloud (by decide) (by decide) (by decide) (by decide)
    (by decide) 0 0 (by decide) { x := 1, y := 1, z := 3, isFinite := true } (by rfl) rfl
    (by norm_num) ?_ (by decide) (by decide) (by norm_num [sampleCloud])
  intro k q hk hq hfin
  match k, hk, hq with
  | 0, hk, _ => exact absurd rfl hk
  | 1, _, hq =>
    have := Option.some.inj hq
    subst this
    norm_num [sampleCloud]
  | 2, _, hq =>
    have := Option.some.inj hq
    subst this
    exact absurd hfin (by decide)
  | 3, _, hq =>
    have := Option.some.inj hq
    subst this
    norm_num [sampleCloud]
  | k + 4, _, hq => simp [sampleCloud] at hq

theorem encodePointCloud_complete (env : Collaborators) (cloud_arg : PointCloud)
    (doColorEncoding stats : Bool) (pngLevel_arg : Int)
    (hw : cloud_arg.width > 1) (hh : cloud_arg.height > 1)
    (hsize : cloud_arg.width * cloud_arg.height = cloud_arg.points.length) :
    ∃ e, encodePointCloud env cloud_arg doColorEncoding stats pngLevel_arg = some e := by
  obtain ⟨st, hs, -, -⟩ := analyze_scan cloud_arg hw hh hsize
  unfold encodePointCloud
  simp only [hs]
  exact ⟨_, rfl⟩

/-- C8 on a grid of odd width: the 3 x 2 cloud has six finite points, the last
of depth 5, and `analyzeOrganizedCloud` returns the maximum depth 1: its loops
visit the first four points only. -/
theorem max_depth_odd_width :
    oddDepthCloud.width > 1 ∧ oddDepthCloud.height > 1 ∧
    oddDepthCloud.width * oddDepthCloud.height = oddDepthCloud.points.length ∧
    oddDepthCloud.points[5]? = some { x := 1, y := 1, z := 5, isFinite := true } ∧
    analyzeOrganizedCloud oddDepthCloud = some (1, -1) := by
  refine ⟨by decide, by decide, by decide, by decide, ?_⟩
  simp only [CFloat.neg_one_eq]
  norm_num [analyzeOrganizedCloud, oddDepthCloud, intRange, analyzeRow, analyzePoint,
    List.range, List.range.loop]
  simp only [CFloat.ofNat_eq, CFloat.ofInt, CFloat.div_def, CFloat.mul_def, CFloat.add_def,
    CFloat.div, CFloat.mul, CFloat.add, CFloat.isNaN, CFloat.isInf, CFloat.isZero,
    CFloat.signBit, CFloat.toRat, CFloat.ofRat, CFloat.zero, CFloat.infinity]
  norm_num

/-- C9 on a grid of odd width: in the 3 x 4 cloud the only deepest point is at
row 0 and column 2, where the specification's focal length is 8, and
`analyzeOrganizedCloud` returns the focal length -2: it takes the third point
for the pixel `(x, y) = (-1, -1)`. -/
theorem focal_length_odd_width :
    oddFocalCloud.width > 1 ∧ oddFocalCloud.height > 1 ∧
    oddFocalCloud.width * oddFocalCloud.height = oddFocalCloud.points.length ∧
    oddFocalCloud.points[0 * 3 + 2]? = some { x := 1, y := 1, z := 2, isFinite := true } ∧
    focalLengthAt 3 4 0 2 { x := 1, y := 1, z := 2, isFinite := true } = 8 ∧
    analyzeOrganizedCloud oddFocalCloud = some (2, -2) := by
  refine ⟨by decide, by decide, by decide, by decide, ?_, ?_⟩
  · norm_num [focalLengthAt]
  · simp only [CFloat.neg_ofNat_eq]
    norm_num [analyzeOrganizedCloud, oddFocalCloud, intRange, analyzeRow, analyzePoint,
      List.range, List.range.loop]
    simp only [CFloat.ofNat_eq, CFloat.ofInt, CFloat.div_def, CFloat.mul_def, CFloat.add_def,
      CFloat.div, CFloat.mul, CFloat.add, CFloat.isNaN, CFloat.isInf, CFloat.isZero,
      CFloat.signBit, CFloat.toRat, CFloat.ofRat, CFloat.zero, CFloat.infinity]
    norm_num

/-- C10, no finite point: for every organized grid meeting the precondition
(width > 1, height > 1, `width*height` points) in which no point is finite,
`analyzeOrganizedCloud` returns `maxDepth = 0` and `focalLength = 0`. -/
theorem no_finite_point (cloud_arg : PointCloud)
    (hw : cloud_arg.width > 1) (hh : cloud_arg.height > 1)
    (hsize : cloud_arg.width * cloud_arg.height = cloud_arg.points.length)
    (hnf : ∀ p ∈ cloud_arg.points, p.isFinite = false) :
    analyzeOrganizedCloud cloud_arg = some (0, 0) :=
  analyze_no_finite cloud_arg hw hh hsize hnf

theorem no_finite_point_witness :
    blindCloud.width > 1 ∧ blindCloud.height > 1 ∧
    blindCloud.width * blindCloud.height = blindCloud.points.length ∧
    (∀ p ∈ blindCloud.points, p.isFinite = false) ∧
    analyzeOrganizedCloud blindCloud = some (0, 0) :=
  ⟨by decide, by decide, by decide, by decide,
    no_finite_point blindCloud (by decide) (by decide) (by decide) (by decide)⟩

/-! ## Header fields, colour path and collaborator calls -/

theorem encodePointCloud_calls (env : Collaborators) (cloud_arg : PointCloud)
    (doColorEncoding stats : Bool) (pngLevel_arg : Int) (e : Encoded)
    (h : encodePointCloud env cloud_arg doColorEncoding stats pngLevel_arg = some e) :
    ∃ maxDepth focalLength,
      analyzeOrganizedCloud cloud_arg = some (maxDepth, focalLength) ∧
      e.calls
        = [Call.convert focalLength 0 1,
            Call.encodeMono (env.convert cloud_arg focalLength 0 1).1
              cloud_arg.width cloud_arg.height pngLevel_arg]
          ++ (if (env.hasColor && doColorEncoding) = true then
                [Call.encodeRGB (env.convert cloud_arg focalLength 0 1).2
                  cloud_arg.width cloud_arg.height 1]
              else []) := by
  unfold encodePointCloud at h
  cases ha : analyzeOrganizedCloud cloud_arg with
  | none => simp [ha] at h
  | some p =>
    obtain ⟨maxDepth, focalLength⟩ := p
    simp only [ha, Option.some.injEq] at h
    subst h
    refine ⟨maxDepth, focalLength, rfl, ?_⟩
    cases hcol : (env.hasColor && doColorEncoding) <;> simp [hcol]

theorem encodeRaw_calls (env : Collaborators)
    (disparityMap_arg colorImage_arg : List Nat) (width_arg height_arg : Nat)
    (doColorEncoding stats : Bool) (pngLevel_arg : Int)
    (focalLength_arg disparityShift_arg disparityScale_arg : CFloat) (e : RawEncoded)
    (h : encodeRawDisparityMapWithColorImage env disparityMap_arg colorImage_arg
          width_arg height_arg doColorEncoding stats pngLevel_arg
          focalLength_arg disparityShift_arg disparityScale_arg = some e) :
    e.calls
      = [Call.encodeMono e.buffers.disparityMap width_arg height_arg pngLevel_arg]
        ++ (if (decide (e.buffers.colorImage.length ≠ 0) && doColorEncoding) = true then
              [Call.encodeRGB e.buffers.colorImage width_arg height_arg 1]
            else []) := by
  unfold encodeRawDisparityMapWithColorImage at h
  simp only at h
  split at h
  · exact absurd h (by simp)
  · split at h
    · exact absurd h (by simp)
    · cases hs : sanitizeLoop (toUInt32 (width_arg * height_arg))
          { disparityMap := disparityMap_arg, colorImage := colorImage_arg } with
      | none => simp [hs] at h
      | some buffers =>
        simp only [hs, Option.some.injEq] at h
        subst h
        cases hcol : (decide (buffers.colorImage.length ≠ 0) && doColorEncoding) <;>
          simp [hcol]

theorem sanitizeFrom_frame :
    ∀ (n i : Nat) (b b' : Buffers), sanitizeFrom n i b = some b' →
      b'.disparityMap = b.disparityMap ∧ b'.colorImage.length = b.colorImage.length := by
  intro n
  induction n with
  | zero =>
    intro i b b' h
    simp only [sanitizeFrom, Option.some.injEq] at h
    subst h
    exact ⟨rfl, rfl⟩
  | succ n ih =>
    intro i b b' h
    unfold sanitizeFrom at h
    split at h
    · exact absurd h (by simp)
    · split at h
      · split at h
        · exact absurd h (by simp)
        · rename_i c hm
          obtain ⟨h1, h2⟩ := ih _ _ _ h
          refine ⟨h1, ?_⟩
          rw [h2]
          unfold memset3 at hm
          split at hm
          · simp only [Option.some.injEq] at hm
            subst hm
            simp
          · exact absurd hm (by simp)
      · exact ih _ _ _ h


theorem frameLayout_fields (marker : List Byte)
    (width height maxDepth focalLength disparityScale disparityShift : Nat)
    (ds : Nat) (d : List Byte) (cs : Nat) (c : List Byte) :
    ((frameLayout marker width height maxDepth focalLength disparityScale disparityShift
        ds d cs c).drop (marker.length + 8)).take 4 = le32 maxDepth ∧
    ((frameLayout marker width height maxDepth focalLength disparityScale disparityShift
        ds d cs c).drop (marker.length + 12)).take 4 = le32 focalLength ∧
    ((frameLayout marker width height maxDepth focalLength disparityScale disparityShift
        ds d cs c).drop (marker.length + 16)).take 4 = le32 disparityScale ∧
    ((frameLayout marker width height maxDepth focalLength disparityScale disparityShift
        ds d cs c).drop (marker.length + 20)).take 4 = le32 disparityShift := by
  simp [frameLayout, le32, List.drop_append]

theorem frameLayout_empty_color (marker : List Byte)
    (width height maxDepth focalLength disparityScale disparityShift : Nat)
    (ds : Nat) (d : List Byte) :
    ∃ front : List Byte,
      frameLayout marker width height maxDepth focalLength disparityScale disparityShift
        ds d 0 [] = front ++ [0, 0, 0, 0] ∧
      front.length = marker.length + 28 + d.length :=
  ⟨marker ++ (le32 width ++ (le32 height ++ (le32 maxDepth ++ (le32 focalLength ++
    (le32 disparityScale ++ (le32 disparityShift ++ (le32 ds ++ d))))))),
    by simp [frameLayout, le32], by simp [le32]; omega⟩


/-- The part of C11 that the code meets: when colour encoding is disabled, and
likewise when the point type has no colour or the raw colour buffer is empty,
an encode call that completes writes the colour size field 0 as the last four
bytes of the frame, the compressed colour payload is empty and the colour
compressor is not called.  `encodePointCloud` completes on every organized
cloud (`encodePointCloud_complete`); the raw entry point with an empty colour
buffer completes exactly when no depth sample is invalid
(`encodeRaw_empty_color_isSome`). -/
theorem empty_color_path (env : Collaborators) :
    (∀ (cloud_arg : PointCloud) (doColorEncoding stats : Bool) (pngLevel_arg : Int)
        (e : Encoded),
      encodePointCloud env cloud_arg doColorEncoding stats pngLevel_arg = some e →
      (doColorEncoding = false ∨ env.hasColor = false) →
      e.compressedRGB = [] ∧
      (∃ front : List Byte, e.out = front ++ [0, 0, 0, 0] ∧
        front.length = env.frameHeaderIdentifier_.length + 28
          + e.compressedDisparity.length) ∧
      (∃ maxDepth focalLength,
        analyzeOrganizedCloud cloud_arg = some (maxDepth, focalLength) ∧
        e.out
          = frameLayout env.frameHeaderIdentifier_ cloud_arg.width cloud_arg.height
              (env.float.bits maxDepth) (env.float.bits focalLength)
              (env.float.bits 1) (env.float.bits 0)
              (toUInt32 e.compressedDisparity.length) e.compressedDisparity 0 []) ∧
      (∀ c ∈ e.calls, c.notRGB)) ∧
    (∀ (disparityMap_arg colorImage_arg : List Nat) (width_arg height_arg : Nat)
        (doColorEncoding stats : Bool) (pngLevel_arg : Int)
        (focalLength_arg disparityShift_arg disparityScale_arg : CFloat) (e : RawEncoded),
      encodeRawDisparityMapWithColorImage env disparityMap_arg colorImage_arg
          width_arg height_arg doColorEncoding stats pngLevel_arg
          focalLength_arg disparityShift_arg disparityScale_arg = some e →
      (doColorEncoding = false ∨ colorImage_arg = []) →
      e.compressedRGB = [] ∧
      (∃ front : List Byte, e.out = front ++ [0, 0, 0, 0] ∧
        front.length = env.frameHeaderIdentifier_.length + 28
          + e.compressedDisparity.length) ∧
      e.out
        = frameLayout env.frameHeaderIdentifier_ width_arg height_arg
            (env.float.bits (-1)) (env.float.bits focalLength_arg)
            (env.float.bits disparityScale_arg) (env.float.bits disparityShift_arg)
            (toUInt32 e.compressedDisparity.length) e.compressedDisparity 0 [] ∧
      (∀ c ∈ e.calls, c.notRGB)) := by
  constructor
  · intro cloud_arg doColorEncoding stats pngLevel_arg e he hoff
    have hcol : (env.hasColor && doColorEncoding) = false := by
      rcases hoff with h | h <;> simp [h]
    obtain ⟨maxDepth, focalLength, ha, -, hc, hout⟩ :=
      encodePointCloud_some env cloud_arg doColorEncoding stats pngLevel_arg e he
    obtain ⟨maxDepth', focalLength', ha', hcalls⟩ :=
      encodePointCloud_calls env cloud_arg doColorEncoding stats pngLevel_arg e he
    rw [hcol] at hc hcalls
    have hc0 : e.compressedRGB = [] := by simpa using hc
    rw [hc0] at hout
    have hout' : e.out
        = frameLayout env.frameHeaderIdentifier_ cloud_arg.width cloud_arg.height
            (env.float.bits maxDepth) (env.float.bits focalLength)
            (env.float.bits 1) (env.float.bits 0)
            (toUInt32 e.compressedDisparity.length) e.compressedDisparity 0 [] := hout
    refine ⟨hc0, ?_, ⟨maxDepth, focalLength, ha, hout'⟩, ?_⟩
    · rw [hout']
      exact frameLayout_empty_color _ _ _ _ _ _ _ _ _
    · intro c hcm
      rw [hcalls] at hcm
      simp only [Bool.false_eq_true, if_false, List.append_nil, List.mem_cons,
        List.mem_singleton, List.not_mem_nil, or_false] at hcm
      rcases hcm with h | h <;> rw [h] <;> exact trivial
  · intro disparityMap_arg colorImage_arg width_arg height_arg doColorEncoding stats
      pngLevel_arg focalLength_arg disparityShift_arg disparityScale_arg e he hoff
    obtain ⟨-, -, hs, -, hc, hout⟩ :=
      encodeRaw_some env disparityMap_arg colorImage_arg width_arg height_arg
        doColorEncoding stats pngLevel_arg focalLength_arg disparityShift_arg
        disparityScale_arg e he
    have hcalls := encodeRaw_calls env disparityMap_arg colorImage_arg width_arg height_arg
      doColorEncoding stats pngLevel_arg focalLength_arg disparityShift_arg
      disparityScale_arg e he
    have hlen := (sanitizeFrom_frame _ _ _ _ hs).2
    have hcol : (decide (e.buffers.colorImage.length ≠ 0) && doColorEncoding) = false := by
      rcases hoff with h | h
      · simp [h]
      · rw [hlen, h]
        simp
    rw [hcol] at hc hcalls
    have hc0 : e.compressedRGB = [] := by simpa using hc
    rw [hc0] at hout
    have hout' : e.out
        = frameLayout env.frameHeaderIdentifier_ width_arg height_arg
            (env.float.bits (-1)) (env.float.bits focalLength_arg)
            (env.float.bits disparityScale_arg) (env.float.bits disparityShift_arg)
            (toUInt32 e.compressedDisparity.length) e.compressedDisparity 0 [] := hout
    refine ⟨hc0, ?_, hout', ?_⟩
    · rw [hout']
      exact frameLayout_empty_color _ _ _ _ _ _ _ _ _
    · intro c hcm
      rw [hcalls] at hcm
      simp only [Bool.false_eq_true, if_false, List.append_nil, List.mem_singleton] at hcm
      rw [hcm]
      exact trivial


theorem empty_color_path_witness :
    (∃ e, encodePointCloud sampleEnv sampleCloud false true 6 = some e ∧
      (false = false ∨ sampleEnv.hasColor = false) ∧
      e.compressedRGB = [] ∧
      (∃ front : List Byte, e.out = front ++ [0, 0, 0, 0] ∧
        front.length = sampleEnv.frameHeaderIdentifier_.length + 28
          + e.compressedDisparity.length) ∧
      (∀ c ∈ e.calls, c.notRGB)) ∧
    (∃ e, encodeRawDisparityMapWithColorImage sampleEnv [1, 5, 20, 7] [] 2 2
        true false 6 100 2 3 = some e ∧
      (true = false ∨ ([] : List Nat) = []) ∧
      e.compressedRGB = [] ∧
      (∃ front : List Byte, e.out = front ++ [0, 0, 0, 0] ∧
        front.length = sampleEnv.frameHeaderIdentifier_.length + 28
          + e.compressedDisparity.length) ∧
      (∀ c ∈ e.calls, c.notRGB)) := by
  have h1 := (empty_color_path sampleEnv).1 sampleCloud false true 6 _
    encode_sampleCloud_plain (Or.inl rfl)
  have h2 := (empty_color_path sampleEnv).2 [1, 5, 20, 7] [] 2 2 true false 6 100 2 3 _
    encodeRaw_sample_plain (Or.inr rfl)
  exact ⟨⟨_, encode_sampleCloud_plain, Or.inl rfl, h1.1, h1.2.1, h1.2.2.2⟩,
    ⟨_, encodeRaw_sample_plain, Or.inr rfl, h2.1, h2.2.1, h2.2.2.2⟩⟩

/-- C12: the frame written by `encodePointCloud` carries the disparity scale 1
and the disparity shift 0 in its header (bytes 16..19 and 20..23 behind the
marker), and the conversion of the cloud is called once, with the shift 0 and
the scale 1. -/
theorem point_cloud_scale_shift (env : Collaborators) (cloud_arg : PointCloud)
    (doColorEncoding stats : Bool) (pngLevel_arg : Int) (e : Encoded)
    (he : encodePointCloud env cloud_arg doColorEncoding stats pngLevel_arg = some e) :
    ∃ maxDepth focalLength,
      analyzeOrganizedCloud cloud_arg = some (maxDepth, focalLength) ∧
      e.out
        = frameLayout env.frameHeaderIdentifier_ cloud_arg.width cloud_arg.height
            (env.float.bits maxDepth) (env.float.bits focalLength)
            (env.float.bits 1) (env.float.bits 0)
            (toUInt32 e.compressedDisparity.length) e.compressedDisparity
            (toUInt32 e.compressedRGB.length) e.compressedRGB ∧
      (e.out.drop (env.frameHeaderIdentifier_.length + 16)).take 4
        = le32 (env.float.bits 1) ∧
      (e.out.drop (env.frameHeaderIdentifier_.length + 20)).take 4
        = le32 (env.float.bits 0) ∧
      e.calls.head? = some (Call.convert focalLength 0 1) ∧
      (∀ f shift scale, Call.convert f shift scale ∈ e.calls →
        f = focalLength ∧ shift = 0 ∧ scale = 1) := by
  obtain ⟨maxDepth, focalLength, ha, -, -, hout⟩ :=
    encodePointCloud_some env cloud_arg doColorEncoding stats pngLevel_arg e he
  obtain ⟨maxDepth', focalLength', ha', hcalls⟩ :=
    encodePointCloud_calls env cloud_arg doColorEncoding stats pngLevel_arg e he
  rw [ha] at ha'
  obtain ⟨-, hf⟩ := Prod.mk.inj (Option.some.inj ha')
  subst hf
  have hfields := frameLayout_fields env.frameHeaderIdentifier_ cloud_arg.width
    cloud_arg.height (env.float.bits maxDepth) (env.float.bits focalLength)
    (env.float.bits 1) (env.float.bits 0) (toUInt32 e.compressedDisparity.length)
    e.compressedDisparity (toUInt32 e.compressedRGB.length) e.compressedRGB
  rw [← hout] at hfields
  refine ⟨maxDepth, focalLength, ha, hout, hfields.2.2.1, hfields.2.2.2, ?_, ?_⟩
  · rw [hcalls]
    rfl
  · intro f shift scale hmem
    rw [hcalls] at hmem
    cases hcol : (env.hasColor && doColorEncoding) <;>
      simp [hcol] at hmem <;> exact hmem

theorem point_cloud_scale_shift_witness :
    ∃ e, encodePointCloud sampleEnv sampleCloud true false 6 = some e ∧
      ∃ maxDepth focalLength,
        analyzeOrganizedCloud sampleCloud = some (maxDepth, focalLength) ∧
        e.out
          = frameLayout sampleEnv.frameHeaderIdentifier_ sampleCloud.width sampleCloud.height
              (sampleEnv.float.bits maxDepth) (sampleEnv.float.bits focalLength)
              (sampleEnv.float.bits 1) (sampleEnv.float.bits 0)
              (toUInt32 e.compressedDisparity.length) e.compressedDisparity
              (toUInt32 e.compressedRGB.length) e.compressedRGB ∧
        (e.out.drop (sampleEnv.frameHeaderIdentifier_.length + 16)).take 4
          = le32 (sampleEnv.float.bits 1) ∧
        (e.out.drop (sampleEnv.frameHeaderIdentifier_.length + 20)).take 4
          = le32 (sampleEnv.float.bits 0) ∧
        e.calls.head? = some (Call.convert focalLength 0 1) ∧
        (∀ f shift scale, Call.convert f shift scale ∈ e.calls →
          f = focalLength ∧ shift = 0 ∧ scale = 1) :=
  ⟨_, encode_sampleCloud,
    point_cloud_scale_shift sampleEnv sampleCloud true false 6 _ encode_sampleCloud⟩

/-- C13: the frame written by `encodeRawDisparityMapWithColorImage` carries the
float -1 in its maxDepth field and the caller's `focalLength_arg`,
`disparityScale_arg` and `disparityShift_arg` in the focalLength,
disparityScale and disparityShift fields (bytes 8..11, 12..15, 16..19 and
20..23 behind the marker). -/
theorem raw_header_fields (env : Collaborators)
    (disparityMap_arg colorImage_arg : List Nat) (width_arg height_arg : Nat)
    (doColorEncoding stats : Bool) (pngLevel_arg : Int)
    (focalLength_arg disparityShift_arg disparityScale_arg : CFloat) (e : RawEncoded)
    (he : encodeRawDisparityMapWithColorImage env disparityMap_arg colorImage_arg
          width_arg height_arg doColorEncoding stats pngLevel_arg
          focalLength_arg disparityShift_arg disparityScale_arg = some e) :
    e.out
      = frameLayout env.frameHeaderIdentifier_ width_arg height_arg
          (env.float.bits (-1)) (env.float.bits focalLength_arg)
          (env.float.bits disparityScale_arg) (env.float.bits disparityShift_arg)
          (toUInt32 e.compressedDisparity.length) e.compressedDisparity
          (toUInt32 e.compressedRGB.length) e.compressedRGB ∧
    (e.out.drop (env.frameHeaderIdentifier_.length + 8)).take 4
      = le32 (env.float.bits (-1)) ∧
    (e.out.drop (env.frameHeaderIdentifier_.length + 12)).take 4
      = le32 (env.float.bits focalLength_arg) ∧
    (e.out.drop (env.frameHeaderIdentifier_.length + 16)).take 4
      = le32 (env.float.bits disparityScale_arg) ∧
    (e.out.drop (env.frameHeaderIdentifier_.length + 20)).take 4
      = le32 (env.float.bits disparityShift_arg) := by
  obtain ⟨-, -, -, -, -, hout⟩ :=
    encodeRaw_some env disparityMap_arg colorImage_arg width_arg height_arg
      doColorEncoding stats pngLevel_arg focalLength_arg disparityShift_arg
      disparityScale_arg e he
  have hfields := frameLayout_fields env.frameHeaderIdentifier_ width_arg height_arg
    (env.float.bits (-1)) (env.float.bits focalLength_arg)
    (env.float.bits disparityScale_arg) (env.float.bits disparityShift_arg)
    (toUInt32 e.compressedDisparity.length) e.compressedDisparity
    (toUInt32 e.compressedRGB.length) e.compressedRGB
  rw [← hout] at hfields
  exact ⟨hout, hfields⟩

theorem raw_header_fields_witness :
    ∃ e, encodeRawDisparityMapWithColorImage sampleEnv [0, 5, 2047, 7]
        [1, 2, 3, 4, 5, 6, 7, 8, 9, 10, 11, 12] 2 2 true false 6 100 2 3 = some e ∧
      (e.out.drop (sampleEnv.frameHeaderIdentifier_.length + 8)).take 4
        = le32 (sampleEnv.float.bits (-1)) ∧
      (e.out.drop (sampleEnv.frameHeaderIdentifier_.length + 12)).take 4
        = le32 (sampleEnv.float.bits 100) ∧
      (e.out.drop (sampleEnv.frameHeaderIdentifier_.length + 16)).take 4
        = le32 (sampleEnv.float.bits 3) ∧
      (e.out.drop (sampleEnv.frameHeaderIdentifier_.length + 20)).take 4
        = le32 (sampleEnv.float.bits 2) :=
  ⟨_, encodeRaw_sample,
    (raw_header_fields sampleEnv [0, 5, 2047, 7] [1, 2, 3, 4, 5, 6, 7, 8, 9, 10, 11, 12]
      2 2 true false 6 100 2 3 _ encodeRaw_sample).2⟩

/-! ## One frame per call -/

theorem le32_mod (v : Nat) : le32 (v % 2 ^ 32) = le32 v := by
  have h0 : v % 2 ^ 32 % 256 = v % 256 := by omega
  have h1 : v % 2 ^ 32 / 256 % 256 = v / 256 % 256 := by omega
  have h2 : v % 2 ^ 32 / 65536 % 256 = v / 65536 % 256 := by omega
  have h3 : v % 2 ^ 32 / 16777216 % 256 = v / 16777216 % 256 := by omega
  simp only [le32, h0, h1, h2, h3]

theorem frameLayout_mod (marker : List Byte)
    (width height maxDepth focalLength disparityScale disparityShift : Nat)
    (ds : Nat) (d : List Byte) (cs : Nat) (c : List Byte) :
    frameLayout marker width height maxDepth focalLength disparityScale disparityShift
        ds d cs c
      = frameLayout marker (width % 2 ^ 32) (height % 2 ^ 32) (maxDepth % 2 ^ 32)
          (focalLength % 2 ^ 32) (disparityScale % 2 ^ 32) (disparityShift % 2 ^ 32)
          ds d cs c := by
  simp only [frameLayout, le32_mod]

theorem takesOneFrame_layout (marker : List Byte)
    (width height maxDepth focalLength disparityScale disparityShift : Nat)
    (d c : List Byte) (hd : d.length < 2 ^ 32) (hc : c.length < 2 ^ 32) :
    TakesOneFrame marker
      (frameLayout marker width height maxDepth focalLength disparityScale disparityShift
        (toUInt32 d.length) d (toUInt32 c.length) c) := by
  intro rest stats
  have hp : (0 : Nat) < 2 ^ 32 := by norm_num
  have h1 := decode_frameLayout marker (width % 2 ^ 32) (height % 2 ^ 32)
    (maxDepth % 2 ^ 32) (focalLength % 2 ^ 32) (disparityScale % 2 ^ 32)
    (disparityShift % 2 ^ 32) d c rest stats (Nat.mod_lt _ hp) (Nat.mod_lt _ hp)
    (Nat.mod_lt _ hp) (Nat.mod_lt _ hp) (Nat.mod_lt _ hp) (Nat.mod_lt _ hp) hd hc
  have h2 := decode_frameLayout marker (width % 2 ^ 32) (height % 2 ^ 32)
    (maxDepth % 2 ^ 32) (focalLength % 2 ^ 32) (disparityScale % 2 ^ 32)
    (disparityShift % 2 ^ 32) d c [] stats (Nat.mod_lt _ hp) (Nat.mod_lt _ hp)
    (Nat.mod_lt _ hp) (Nat.mod_lt _ hp) (Nat.mod_lt _ hp) (Nat.mod_lt _ hp) hd hc
  rw [List.append_nil] at h2
  rw [frameLayout_mod, h1, h2]
  exact ⟨rfl, rfl, rfl⟩

theorem hugePayload_split :
    hugePayload = le32 0 ++ List.replicate 4294967292 0 :=
  List.replicate_add 4 4294967292 0

theorem huge_frame_split (marker : List Byte)
    (width height maxDepth focalLength disparityScale disparityShift : Nat)
    (rest : List Byte) :
    frameLayout marker width height maxDepth focalLength disparityScale disparityShift
        0 hugePayload 0 [] ++ rest
      = frameLayout marker width height maxDepth focalLength disparityScale disparityShift
          (toUInt32 ([] : List Byte).length) [] (toUInt32 ([] : List Byte).length) []
        ++ (List.replicate 4294967292 0 ++ (le32 0 ++ rest)) := by
  rw [hugePayload_split]
  simp only [frameLayout, List.append_assoc, List.length_nil, List.nil_append,
    List.append_nil]
  rfl


/-- C14, one frame per call, as the code has it: for every frame written by an
encode entry point whose compressed payloads are shorter than `2^32` bytes, and
every byte sequence `rest`, decoding `frame ++ rest` reports success with the
variables of the frame, consumes exactly the bytes of the frame and leaves the
stream good at the first byte of `rest`; hence after decoding `frame ++ next`
a second decode call sees exactly `next`. -/
theorem one_frame_per_call (env : Collaborators) :
    (∀ (cloud_arg : PointCloud) (doColorEncoding stats : Bool) (pngLevel_arg : Int)
        (e : Encoded),
      encodePointCloud env cloud_arg doColorEncoding stats pngLevel_arg = some e →
      e.compressedDisparity.length < 2 ^ 32 → e.compressedRGB.length < 2 ^ 32 →
      TakesOneFrame env.frameHeaderIdentifier_ e.out) ∧
    (∀ (disparityMap_arg colorImage_arg : List Nat) (width_arg height_arg : Nat)
        (doColorEncoding stats : Bool) (pngLevel_arg : Int)
        (focalLength_arg disparityShift_arg disparityScale_arg : CFloat) (e : RawEncoded),
      encodeRawDisparityMapWithColorImage env disparityMap_arg colorImage_arg
          width_arg height_arg doColorEncoding stats pngLevel_arg
          focalLength_arg disparityShift_arg disparityScale_arg = some e →
      e.compressedDisparity.length < 2 ^ 32 → e.compressedRGB.length < 2 ^ 32 →
      TakesOneFrame env.frameHeaderIdentifier_ e.out) ∧
    (∀ (frame next : List Byte) (stats₁ stats₂ : Bool),
      TakesOneFrame env.frameHeaderIdentifier_ frame →
      decodePointCloud env.frameHeaderIdentifier_
          (decodePointCloud env.frameHeaderIdentifier_ (frame ++ next) stats₁).stream.rest
          stats₂
        = decodePointCloud env.frameHeaderIdentifier_ next stats₂) := by
  refine ⟨?_, ?_, ?_⟩
  · intro cloud_arg doColorEncoding stats pngLevel_arg e he hd hc
    obtain ⟨maxDepth, focalLength, -, -, -, hout⟩ :=
      encodePointCloud_some env cloud_arg doColorEncoding stats pngLevel_arg e he
    rw [hout]
    exact takesOneFrame_layout _ _ _ _ _ _ _ _ _ hd hc
  · intro disparityMap_arg colorImage_arg width_arg height_arg doColorEncoding stats
      pngLevel_arg focalLength_arg disparityShift_arg disparityScale_arg e he hd hc
    obtain ⟨-, -, -, -, -, hout⟩ :=
      encodeRaw_some env disparityMap_arg colorImage_arg width_arg height_arg
        doColorEncoding stats pngLevel_arg focalLength_arg disparityShift_arg
        disparityScale_arg e he
    rw [hout]
    exact takesOneFrame_layout _ _ _ _ _ _ _ _ _ hd hc
  · intro frame next stats₁ stats₂ h
    rw [(h next stats₁).2.1]

theorem one_frame_per_call_witness :
    TakesOneFrame sampleEnv.frameHeaderIdentifier_
      [60, 80, 62, 2, 0, 0, 0, 2, 0, 0, 0, 3, 0, 0, 0, 3, 0, 0, 128,
       1, 0, 0, 0, 0, 0, 0, 0, 5, 0, 0, 0, 1, 3, 9, 2, 6, 13, 0, 0, 0,
       1, 2, 3, 1, 2, 3, 1, 2, 3, 1, 2, 3, 1] ∧
    TakesOneFrame sampleEnv.frameHeaderIdentifier_
      [60, 80, 62, 2, 0, 0, 0, 2, 0, 0, 0, 1, 0, 0, 128, 100, 0, 0, 0,
       3, 0, 0, 0, 2, 0, 0, 0, 5, 0, 0, 0, 0, 5, 2047, 7, 6, 13, 0, 0, 0,
       0, 0, 0, 4, 5, 6, 0, 0, 0, 10, 11, 12, 1] ∧
    decodePointCloud sampleEnv.frameHeaderIdentifier_
        (decodePointCloud sampleEnv.frameHeaderIdentifier_
          ([60, 80, 62, 2, 0, 0, 0, 2, 0, 0, 0, 3, 0, 0, 0, 3, 0, 0, 128,
       1, 0, 0, 0, 0, 0, 0, 0, 5, 0, 0, 0, 1, 3, 9, 2, 6, 13, 0, 0, 0,
       1, 2, 3, 1, 2, 3, 1, 2, 3, 1, 2, 3, 1]
            ++ [60, 80, 62, 2, 0, 0, 0, 2, 0, 0, 0, 1, 0, 0, 128, 100, 0, 0, 0,
       3, 0, 0, 0, 2, 0, 0, 0, 5, 0, 0, 0, 0, 5, 2047, 7, 6, 13, 0, 0, 0,
       0, 0, 0, 4, 5, 6, 0, 0, 0, 10, 11, 12, 1]) false).stream.rest true
      = decodePointCloud sampleEnv.frameHeaderIdentifier_
          [60, 80, 62, 2, 0, 0, 0, 2, 0, 0, 0, 1, 0, 0, 128, 100, 0, 0, 0,
       3, 0, 0, 0, 2, 0, 0, 0, 5, 0, 0, 0, 0, 5, 2047, 7, 6, 13, 0, 0, 0,
       0, 0, 0, 4, 5, 6, 0, 0, 0, 10, 11, 12, 1] true := by
  have h1 := (one_frame_per_call sampleEnv).1 sampleCloud true false 6 _ encode_sampleCloud
    (by decide) (by decide)
  have h2 := (one_frame_per_call sampleEnv).2.1 [0, 5, 2047, 7]
    [1, 2, 3, 4, 5, 6, 7, 8, 9, 10, 11, 12] 2 2 true false 6 100 2 3 _ encodeRaw_sample
    (by decide) (by decide)
  exact ⟨h1, h2, (one_frame_per_call sampleEnv).2.2 _ _ false true h1⟩

/-- C14 as stated fails: the frame the raw entry point writes with a depth
compressor that returns `2^32` bytes has the depth size field 0; decoding that
frame followed by the byte 9 reports success and leaves `2^32 + 1` bytes in the
stream instead of the one byte that follows the frame. -/
theorem one_frame_per_call_counterexample :
    ∃ e : RawEncoded,
      encodeRawDisparityMapWithColorImage hugeEnv [1] [7, 8, 9] 1 1 false false 0 0 0 0
        = some e ∧
      (decodePointCloud [60, 80, 62] (e.out ++ [9]) false).valid_stream = true ∧
      (decodePointCloud [60, 80, 62] (e.out ++ [9]) false).stream.rest.length
        = 4294967297 := by
  obtain ⟨e, he⟩ :=
    encodeRaw_complete hugeEnv [1] [7, 8, 9] 1 1 false false 0 0 0 0 (by decide) (by decide)
  obtain ⟨-, -, -, hd, hc, hout⟩ :=
    encodeRaw_some hugeEnv [1] [7, 8, 9] 1 1 false false 0 0 0 0 e he
  have hd2 : e.compressedDisparity = hugePayload := hd
  have hc2 : e.compressedRGB = [] := by
    rw [hc, Bool.and_false]
    rfl
  have hout2 : e.out
      = frameLayout [60, 80, 62] 1 1 (sampleFloat.bits (-1)) (sampleFloat.bits 0)
          (sampleFloat.bits 0) (sampleFloat.bits 0) 0 hugePayload 0 [] := by
    rw [hout, hd2, hc2, hugePayload_length]
    rfl
  have hdec := takesOneFrame_layout [60, 80, 62] 1 1 (sampleFloat.bits (-1))
    (sampleFloat.bits 0) (sampleFloat.bits 0) (sampleFloat.bits 0) [] []
    (by decide) (by decide) (List.replicate 4294967292 0 ++ (le32 0 ++ [9])) false
  rw [← huge_frame_split] at hdec
  refine ⟨e, he, ?_, ?_⟩
  · rw [hout2]
    exact hdec.1
  · rw [hout2, hdec.2.1]
    simp only [List.length_append, List.length_replicate, le32_length, List.length_cons,
      List.length_nil]

/-! ## The restart rule -/

/-- C15, limitation of the restart rule: the marker `aab` has its first byte
again at position 1, the stream `aaab` contains it as a contiguous run, and
the resynchronization loop exhausts that stream and reports failure. -/
theorem restart_rule_limitation :
    ∃ marker stream : List Byte,
      marker.getD 0 0 ∈ marker.tail ∧
      marker <:+: stream ∧
      (syncLoop marker 0 stream).valid_stream = false ∧
      (syncLoop marker 0 stream).stream.rest = [] ∧
      (decodePointCloud marker stream false).valid_stream = false :=
  ⟨[97, 97, 98], [97, 97, 97, 98], by decide, by decide, by decide, by decide, by decide⟩

/-! ## Quality parameters and statistics -/

theorem frameLayout_color_tail (marker : List Byte)
    (width height maxDepth focalLength disparityScale disparityShift : Nat)
    (ds : Nat) (d : List Byte) (cs : Nat) (c : List Byte) :
    (frameLayout marker width height maxDepth focalLength disparityScale disparityShift
        ds d cs c).drop (marker.length + 28 + d.length) = le32 cs ++ c := by
  have h : frameLayout marker width height maxDepth focalLength disparityScale
      disparityShift ds d cs c
      = (marker ++ (le32 width ++ (le32 height ++ (le32 maxDepth ++ (le32 focalLength ++
          (le32 disparityScale ++ (le32 disparityShift ++ (le32 ds ++ d))))))))
        ++ (le32 cs ++ c) := by
    simp [frameLayout]
  rw [h]
  apply List.drop_left'
  simp [le32]
  omega

theorem encodePointCloud_level (env : Collaborators) (cloud_arg : PointCloud)
    (doColorEncoding stats : Bool) (level₁ level₂ : Int) :
    (encodePointCloud env cloud_arg doColorEncoding stats level₁).isSome
      = (encodePointCloud env cloud_arg doColorEncoding stats level₂).isSome := by
  unfold encodePointCloud
  cases analyzeOrganizedCloud cloud_arg with
  | none => rfl
  | some p => rfl

theorem encodeRaw_level (env : Collaborators)
    (disparityMap_arg colorImage_arg : List Nat) (width_arg height_arg : Nat)
    (doColorEncoding stats : Bool) (level₁ level₂ : Int)
    (focalLength_arg disparityShift_arg disparityScale_arg : CFloat) :
    (encodeRawDisparityMapWithColorImage env disparityMap_arg colorImage_arg
          width_arg height_arg doColorEncoding stats level₁
          focalLength_arg disparityShift_arg disparityScale_arg).isSome
      = (encodeRawDisparityMapWithColorImage env disparityMap_arg colorImage_arg
          width_arg height_arg doColorEncoding stats level₂
          focalLength_arg disparityShift_arg disparityScale_arg).isSome := by
  unfold encodeRawDisparityMapWithColorImage
  simp only
  split
  · rfl
  · split
    · rfl
    · cases sanitizeLoop (toUInt32 (width_arg * height_arg))
          { disparityMap := disparityMap_arg, colorImage := colorImage_arg } with
      | none => rfl
      | some b => rfl

/-- C16, quality parameters: for every input and every two values of
`pngLevel_arg`, an encode call completes for the one value exactly when it
completes for the other (and it completes on every input that meets the
documented sizes); the colour compressor is then called with the same image and
the level 1, once when colour is encoded and not at all otherwise, so the
compressed colour payload and its size field are the same, and they are the
bytes each frame ends with, behind the depth payload; the depth compressor is
called with `pngLevel_arg` itself and its result is the depth payload of the
frame. -/
theorem quality_parameters (env : Collaborators) :
    (∀ (cloud_arg : PointCloud) (doColorEncoding stats : Bool)
        (level₁ level₂ : Int) (e₁ e₂ : Encoded),
      encodePointCloud env cloud_arg doColorEncoding stats level₁ = some e₁ →
      encodePointCloud env cloud_arg doColorEncoding stats level₂ = some e₂ →
      e₁.compressedRGB = e₂.compressedRGB ∧
      toUInt32 e₁.compressedRGB.length = toUInt32 e₂.compressedRGB.length ∧
      (∀ image w h level, Call.encodeRGB image w h level ∈ e₁.calls →
        level = 1 ∧ Call.encodeRGB image w h level ∈ e₂.calls) ∧
      (∃ image w h, Call.encodeMono image w h level₁ ∈ e₁.calls) ∧
      (∀ image w h level, Call.encodeMono image w h level ∈ e₁.calls → level = level₁) ∧
      (∃ maxDepth focalLength,
        analyzeOrganizedCloud cloud_arg = some (maxDepth, focalLength) ∧
        e₁.calls
          = [Call.convert focalLength 0 1,
              Call.encodeMono (env.convert cloud_arg focalLength 0 1).1
                cloud_arg.width cloud_arg.height level₁]
            ++ (if (env.hasColor && doColorEncoding) = true then
                  [Call.encodeRGB (env.convert cloud_arg focalLength 0 1).2
                    cloud_arg.width cloud_arg.height 1]
                else []) ∧
        e₂.calls
          = [Call.convert focalLength 0 1,
              Call.encodeMono (env.convert cloud_arg focalLength 0 1).1
                cloud_arg.width cloud_arg.height level₂]
            ++ (if (env.hasColor && doColorEncoding) = true then
                  [Call.encodeRGB (env.convert cloud_arg focalLength 0 1).2
                    cloud_arg.width cloud_arg.height 1]
                else []) ∧
        e₁.compressedDisparity
          = env.encodeMonoImageToPNG (env.convert cloud_arg focalLength 0 1).1
              cloud_arg.width cloud_arg.height level₁ ∧
        e₂.compressedDisparity
          = env.encodeMonoImageToPNG (env.convert cloud_arg focalLength 0 1).1
              cloud_arg.width cloud_arg.height level₂ ∧
        e₁.compressedRGB
          = (if (env.hasColor && doColorEncoding) = true then
              env.encodeRGBImageToPNG (env.convert cloud_arg focalLength 0 1).2
                cloud_arg.width cloud_arg.height 1
            else []) ∧
        e₁.out
          = frameLayout env.frameHeaderIdentifier_ cloud_arg.width cloud_arg.height
              (env.float.bits maxDepth) (env.float.bits focalLength)
              (env.float.bits 1) (env.float.bits 0)
              (toUInt32 e₁.compressedDisparity.length) e₁.compressedDisparity
              (toUInt32 e₁.compressedRGB.length) e₁.compressedRGB ∧
        e₂.out
          = frameLayout env.frameHeaderIdentifier_ cloud_arg.width cloud_arg.height
              (env.float.bits maxDepth) (env.float.bits focalLength)
              (env.float.bits 1) (env.float.bits 0)
              (toUInt32 e₂.compressedDisparity.length) e₂.compressedDisparity
              (toUInt32 e₁.compressedRGB.length) e₁.compressedRGB) ∧
      e₁.out.drop (env.frameHeaderIdentifier_.length + 28 + e₁.compressedDisparity.length)
        = le32 (toUInt32 e₁.compressedRGB.length) ++ e₁.compressedRGB ∧
      e₂.out.drop (env.frameHeaderIdentifier_.length + 28 + e₂.compressedDisparity.length)
        = le32 (toUInt32 e₁.compressedRGB.length) ++ e₁.compressedRGB ∧
      ((env.hasColor && doColorEncoding) = true →
        ∃ image, Call.encodeRGB image cloud_arg.width cloud_arg.height 1 ∈ e₁.calls ∧
          Call.encodeRGB image cloud_arg.width cloud_arg.height 1 ∈ e₂.calls ∧
          e₁.compressedRGB
            = env.encodeRGBImageToPNG image cloud_arg.width cloud_arg.height 1)) ∧
    (∀ (disparityMap_arg colorImage_arg : List Nat) (width_arg height_arg : Nat)
        (doColorEncoding stats : Bool) (level₁ level₂ : Int)
        (focalLength_arg disparityShift_arg disparityScale_arg : CFloat)
        (e₁ e₂ : RawEncoded),
      encodeRawDisparityMapWithColorImage env disparityMap_arg colorImage_arg
          width_arg height_arg doColorEncoding stats level₁
          focalLength_arg disparityShift_arg disparityScale_arg = some e₁ →
      encodeRawDisparityMapWithColorImage env disparityMap_arg colorImage_arg
          width_arg height_arg doColorEncoding stats level₂
          focalLength_arg disparityShift_arg disparityScale_arg = some e₂ →
      e₁.compressedRGB = e₂.compressedRGB ∧
      toUInt32 e₁.compressedRGB.length = toUInt32 e₂.compressedRGB.length ∧
      (∀ image w h level, Call.encodeRGB image w h level ∈ e₁.calls →
        level = 1 ∧ Call.encodeRGB image w h level ∈ e₂.calls) ∧
      (∃ image w h, Call.encodeMono image w h level₁ ∈ e₁.calls) ∧
      (∀ image w h level, Call.encodeMono image w h level ∈ e₁.calls → level = level₁) ∧
      e₁.buffers = e₂.buffers ∧
      e₁.calls
        = [Call.encodeMono e₁.buffers.disparityMap width_arg height_arg level₁]
          ++ (if (decide (e₁.buffers.colorImage.length ≠ 0) && doColorEncoding) = true then
                [Call.encodeRGB e₁.buffers.colorImage width_arg height_arg 1]
              else []) ∧
      e₂.calls
        = [Call.encodeMono e₁.buffers.disparityMap width_arg height_arg level₂]
          ++ (if (decide (e₁.buffers.colorImage.length ≠ 0) && doColorEncoding) = true then
                [Call.encodeRGB e₁.buffers.colorImage width_arg height_arg 1]
              else []) ∧
      e₁.compressedDisparity
        = env.encodeMonoImageToPNG e₁.buffers.disparityMap width_arg height_arg level₁ ∧
      e₂.compressedDisparity
        = env.encodeMonoImageToPNG e₁.buffers.disparityMap width_arg height_arg level₂ ∧
      e₁.compressedRGB
        = (if (decide (e₁.buffers.colorImage.length ≠ 0) && doColorEncoding) = true then
            env.encodeRGBImageToPNG e₁.buffers.colorImage width_arg height_arg 1
          else []) ∧
      e₁.out
        = frameLayout env.frameHeaderIdentifier_ width_arg height_arg
            (env.float.bits (-1)) (env.float.bits focalLength_arg)
            (env.float.bits disparityScale_arg) (env.float.bits disparityShift_arg)
            (toUInt32 e₁.compressedDisparity.length) e₁.compressedDisparity
            (toUInt32 e₁.compressedRGB.length) e₁.compressedRGB ∧
      e₂.out
        = frameLayout env.frameHeaderIdentifier_ width_arg height_arg
            (env.float.bits (-1)) (env.float.bits focalLength_arg)
            (env.float.bits disparityScale_arg) (env.float.bits disparityShift_arg)
            (toUInt32 e₂.compressedDisparity.length) e₂.compressedDisparity
            (toUInt32 e₁.compressedRGB.length) e₁.compressedRGB ∧
      e₁.out.drop (env.frameHeaderIdentifier_.length + 28 + e₁.compressedDisparity.length)
        = le32 (toUInt32 e₁.compressedRGB.length) ++ e₁.compressedRGB ∧
      e₂.out.drop (env.frameHeaderIdentifier_.length + 28 + e₂.compressedDisparity.length)
        = le32 (toUInt32 e₁.compressedRGB.length) ++ e₁.compressedRGB ∧
      ((decide (e₁.buffers.colorImage.length ≠ 0) && doColorEncoding) = true →
        Call.encodeRGB e₁.buffers.colorImage width_arg height_arg 1 ∈ e₁.calls ∧
        Call.encodeRGB e₁.buffers.colorImage width_arg height_arg 1 ∈ e₂.calls ∧
        e₁.compressedRGB
          = env.encodeRGBImageToPNG e₁.buffers.colorImage width_arg height_arg 1)) ∧
    (∀ (cloud_arg : PointCloud) (doColorEncoding stats : Bool) (level₁ level₂ : Int),
      (encodePointCloud env cloud_arg doColorEncoding stats level₁).isSome
        = (encodePointCloud env cloud_arg doColorEncoding stats level₂).isSome) ∧
    (∀ (disparityMap_arg colorImage_arg : List Nat) (width_arg height_arg : Nat)
        (doColorEncoding stats : Bool) (level₁ level₂ : Int)
        (focalLength_arg disparityShift_arg disparityScale_arg : CFloat),
      (encodeRawDisparityMapWithColorImage env disparityMap_arg colorImage_arg
            width_arg height_arg doColorEncoding stats level₁
            focalLength_arg disparityShift_arg disparityScale_arg).isSome
        = (encodeRawDisparityMapWithColorImage env disparityMap_arg colorImage_arg
            width_arg height_arg doColorEncoding stats level₂
            focalLength_arg disparityShift_arg disparityScale_arg).isSome) ∧
    (∀ (cloud_arg : PointCloud) (doColorEncoding stats : Bool) (pngLevel_arg : Int),
      cloud_arg.width > 1 → cloud_arg.height > 1 →
      cloud_arg.width * cloud_arg.height = cloud_arg.points.length →
      ∃ e, encodePointCloud env cloud_arg doColorEncoding stats pngLevel_arg = some e) ∧
    (∀ (disparityMap_arg colorImage_arg : List Nat) (width_arg height_arg : Nat)
        (doColorEncoding stats : Bool) (pngLevel_arg : Int)
        (focalLength_arg disparityShift_arg disparityScale_arg : CFloat),
      disparityMap_arg.length = toUInt32 (width_arg * height_arg) →
      colorImage_arg.length = 3 * disparityMap_arg.length →
      ∃ e, encodeRawDisparityMapWithColorImage env disparityMap_arg colorImage_arg
            width_arg height_arg doColorEncoding stats pngLevel_arg
            focalLength_arg disparityShift_arg disparityScale_arg = some e) := by
  refine ⟨?_, ?_, encodePointCloud_level env, encodeRaw_level env,
    encodePointCloud_complete env, encodeRaw_complete env⟩
  · intro cloud_arg doColorEncoding stats level₁ level₂ e₁ e₂ h₁ h₂
    obtain ⟨m₁, f₁, ha₁, hd₁, hc₁, ho₁⟩ :=
      encodePointCloud_some env cloud_arg doColorEncoding stats level₁ e₁ h₁
    obtain ⟨m₂, f₂, ha₂, hd₂, hc₂, ho₂⟩ :=
      encodePointCloud_some env cloud_arg doColorEncoding stats level₂ e₂ h₂
    obtain ⟨m₃, f₃, ha₃, hk₁⟩ :=
      encodePointCloud_calls env cloud_arg doColorEncoding stats level₁ e₁ h₁
    obtain ⟨m₄, f₄, ha₄, hk₂⟩ :=
      encodePointCloud_calls env cloud_arg doColorEncoding stats level₂ e₂ h₂
    rw [ha₁] at ha₂ ha₃ ha₄
    obtain ⟨hm₂, hf₂⟩ := Prod.mk.inj (Option.some.inj ha₂)
    obtain ⟨-, hf₃⟩ := Prod.mk.inj (Option.some.inj ha₃)
    obtain ⟨-, hf₄⟩ := Prod.mk.inj (Option.some.inj ha₄)
    subst hm₂ hf₂ hf₃ hf₄
    have hrgb : e₁.compressedRGB = e₂.compressedRGB := by rw [hc₁, hc₂]
    have ho₂' := ho₂
    rw [← hrgb] at ho₂'
    refine ⟨hrgb, by rw [hrgb], ?_, ?_, ?_, ⟨m₁, f₁, ha₁, hk₁, hk₂, hd₁, hd₂, hc₁, ho₁, ho₂'⟩,
      ?_, ?_, ?_⟩
    · intro image w h level hmem
      cases hcol : (env.hasColor && doColorEncoding)
      · rw [hk₁, hcol] at hmem
        simp at hmem
      · rw [hk₁, hcol] at hmem
        rw [hk₂, hcol]
        simp only [if_true, List.mem_append, List.mem_cons, List.mem_singleton,
          List.not_mem_nil, or_false, reduceCtorEq, false_or, Call.encodeRGB.injEq] at hmem
        obtain ⟨h1, h2, h3, h4⟩ := hmem
        subst h1 h2 h3 h4
        exact ⟨rfl, by simp⟩
    · exact ⟨(env.convert cloud_arg f₁ 0 1).1, cloud_arg.width, cloud_arg.height,
        by rw [hk₁]; simp⟩
    · intro image w h level hmem
      rw [hk₁] at hmem
      cases hcol : (env.hasColor && doColorEncoding) <;> rw [hcol] at hmem <;>
        simp at hmem <;> exact hmem.2.2.2
    · rw [ho₁]
      exact frameLayout_color_tail _ _ _ _ _ _ _ _ _ _ _
    · rw [ho₂']
      exact frameLayout_color_tail _ _ _ _ _ _ _ _ _ _ _
    · intro hcol
      refine ⟨(env.convert cloud_arg f₁ 0 1).2, ?_, ?_, ?_⟩
      · rw [hk₁, hcol]; simp
      · rw [hk₂, hcol]; simp
      · rw [hc₁, hcol]; simp
  · intro disparityMap_arg colorImage_arg width_arg height_arg doColorEncoding stats
      level₁ level₂ focalLength_arg disparityShift_arg disparityScale_arg e₁ e₂ h₁ h₂
    obtain ⟨-, -, hs₁, hd₁, hc₁, ho₁⟩ :=
      encodeRaw_some env disparityMap_arg colorImage_arg width_arg height_arg
        doColorEncoding stats level₁ focalLength_arg disparityShift_arg
        disparityScale_arg e₁ h₁
    obtain ⟨-, -, hs₂, hd₂, hc₂, ho₂⟩ :=
      encodeRaw_some env disparityMap_arg colorImage_arg width_arg height_arg
        doColorEncoding stats level₂ focalLength_arg disparityShift_arg
        disparityScale_arg e₂ h₂
    have hk₁ := encodeRaw_calls env disparityMap_arg colorImage_arg width_arg height_arg
      doColorEncoding stats level₁ focalLength_arg disparityShift_arg
      disparityScale_arg e₁ h₁
    have hk₂ := encodeRaw_calls env disparityMap_arg colorImage_arg width_arg height_arg
      doColorEncoding stats level₂ focalLength_arg disparityShift_arg
      disparityScale_arg e₂ h₂
    have hb : e₁.buffers = e₂.buffers := Option.some.inj (hs₁.symm.trans hs₂)
    rw [← hb] at hc₂ hk₂ hd₂
    have hrgb : e₁.compressedRGB = e₂.compressedRGB := by rw [hc₁, hc₂]
    have ho₂' := ho₂
    rw [← hrgb] at ho₂'
    refine ⟨hrgb, by rw [hrgb], ?_, ?_, ?_, hb, hk₁, hk₂, hd₁, hd₂, hc₁, ho₁, ho₂',
      ?_, ?_, ?_⟩
    · intro image w h level hmem
      cases hcol : (decide (e₁.buffers.colorImage.length ≠ 0) && doColorEncoding)
      · rw [hk₁, hcol] at hmem
        simp at hmem
      · rw [hk₁, hcol] at hmem
        rw [hk₂, hcol]
        simp only [if_true, List.mem_append, List.mem_cons, List.mem_singleton,
          List.not_mem_nil, or_false, reduceCtorEq, false_or, Call.encodeRGB.injEq] at hmem
        obtain ⟨h1, h2, h3, h4⟩ := hmem
        subst h1 h2 h3 h4
        exact ⟨rfl, by simp⟩
    · exact ⟨e₁.buffers.disparityMap, width_arg, height_arg, by rw [hk₁]; simp⟩
    · intro image w h level hmem
      rw [hk₁] at hmem
      cases hcol : (decide (e₁.buffers.colorImage.length ≠ 0) && doColorEncoding) <;>
        rw [hcol] at hmem <;> simp at hmem <;> exact hmem.2.2.2
    · rw [ho₁]
      exact frameLayout_color_tail _ _ _ _ _ _ _ _ _ _ _
    · rw [ho₂']
      exact frameLayout_color_tail _ _ _ _ _ _ _ _ _ _ _
    · intro hcol
      refine ⟨?_, ?_, ?_⟩
      · rw [hk₁, hcol]; simp
      · rw [hk₂, hcol]; simp
      · rw [hc₁, hcol]; simp

theorem quality_parameters_witness :
    (∃ e₁ e₂, encodePointCloud sampleEnv sampleCloud true false 6 = some e₁ ∧
      encodePointCloud sampleEnv sampleCloud true false 9 = some e₂ ∧
      e₁.compressedRGB = e₂.compressedRGB ∧
      toUInt32 e₁.compressedRGB.length = toUInt32 e₂.compressedRGB.length ∧
      (∀ image w h level, Call.encodeRGB image w h level ∈ e₁.calls →
        level = 1 ∧ Call.encodeRGB image w h level ∈ e₂.calls) ∧
      (∃ image w h, Call.encodeMono image w h 6 ∈ e₁.calls) ∧
      (∀ image w h level, Call.encodeMono image w h level ∈ e₁.calls → level = 6) ∧
      (∃ maxDepth focalLength,
        analyzeOrganizedCloud sampleCloud = some (maxDepth, focalLength) ∧
        e₁.calls
          = [Call.convert focalLength 0 1,
              Call.encodeMono (sampleEnv.convert sampleCloud focalLength 0 1).1
                sampleCloud.width sampleCloud.height 6]
            ++ (if (sampleEnv.hasColor && true) = true then
                  [Call.encodeRGB (sampleEnv.convert sampleCloud focalLength 0 1).2
                    sampleCloud.width sampleCloud.height 1]
                else []) ∧
        e₂.calls
          = [Call.convert focalLength 0 1,
              Call.encodeMono (sampleEnv.convert sampleCloud focalLength 0 1).1
                sampleCloud.width sampleCloud.height 9]
            ++ (if (sampleEnv.hasColor && true) = true then
                  [Call.encodeRGB (sampleEnv.convert sampleCloud focalLength 0 1).2
                    sampleCloud.width sampleCloud.height 1]
                else []) ∧
        e₁.compressedDisparity
          = sampleEnv.encodeMonoImageToPNG (sampleEnv.convert sampleCloud focalLength 0 1).1
              sampleCloud.width sampleCloud.height 6 ∧
        e₂.compressedDisparity
          = sampleEnv.encodeMonoImageToPNG (sampleEnv.convert sampleCloud focalLength 0 1).1
              sampleCloud.width sampleCloud.height 9 ∧
        e₁.compressedRGB
          = (if (sampleEnv.hasColor && true) = true then
              sampleEnv.encodeRGBImageToPNG (sampleEnv.convert sampleCloud focalLength 0 1).2
                sampleCloud.width sampleCloud.height 1
            else []) ∧
        e₁.out
          = frameLayout sampleEnv.frameHeaderIdentifier_ sampleCloud.width sampleCloud.height
              (sampleEnv.float.bits maxDepth) (sampleEnv.float.bits focalLength)
              (sampleEnv.float.bits 1) (sampleEnv.float.bits 0)
              (toUInt32 e₁.compressedDisparity.length) e₁.compressedDisparity
              (toUInt32 e₁.compressedRGB.length) e₁.compressedRGB ∧
        e₂.out
          = frameLayout sampleEnv.frameHeaderIdentifier_ sampleCloud.width sampleCloud.height
              (sampleEnv.float.bits maxDepth) (sampleEnv.float.bits focalLength)
              (sampleEnv.float.bits 1) (sampleEnv.float.bits 0)
              (toUInt32 e₂.compressedDisparity.length) e₂.compressedDisparity
              (toUInt32 e₁.compressedRGB.length) e₁.compressedRGB) ∧
      e₁.out.drop
          (sampleEnv.frameHeaderIdentifier_.length + 28 + e₁.compressedDisparity.length)
        = le32 (toUInt32 e₁.compressedRGB.length) ++ e₁.compressedRGB ∧
      e₂.out.drop
          (sampleEnv.frameHeaderIdentifier_.length + 28 + e₂.compressedDisparity.length)
        = le32 (toUInt32 e₁.compressedRGB.length) ++ e₁.compressedRGB ∧
      ((sampleEnv.hasColor && true) = true →
        ∃ image, Call.encodeRGB image sampleCloud.width sampleCloud.height 1 ∈ e₁.calls ∧
          Call.encodeRGB image sampleCloud.width sampleCloud.height 1 ∈ e₂.calls ∧
          e₁.compressedRGB
            = sampleEnv.encodeRGBImageToPNG image sampleCloud.width sampleCloud.height 1)) ∧
    (∃ e₁ e₂, encodeRawDisparityMapWithColorImage sampleEnv [0, 5, 2047, 7]
        [1, 2, 3, 4, 5, 6, 7, 8, 9, 10, 11, 12] 2 2 true false 6 100 2 3 = some e₁ ∧
      encodeRawDisparityMapWithColorImage sampleEnv [0, 5, 2047, 7]
        [1, 2, 3, 4, 5, 6, 7, 8, 9, 10, 11, 12] 2 2 true false 9 100 2 3 = some e₂ ∧
      e₁.compressedRGB = e₂.compressedRGB ∧
      toUInt32 e₁.compressedRGB.length = toUInt32 e₂.compressedRGB.length ∧
      (∀ image w h level, Call.encodeRGB image w h level ∈ e₁.calls →
        level = 1 ∧ Call.encodeRGB image w h level ∈ e₂.calls) ∧
      (∃ image w h, Call.encodeMono image w h 6 ∈ e₁.calls) ∧
      (∀ image w h level, Call.encodeMono image w h level ∈ e₁.calls → level = 6) ∧
      e₁.buffers = e₂.buffers ∧
      e₁.calls
        = [Call.encodeMono e₁.buffers.disparityMap 2 2 6]
          ++ (if (decide (e₁.buffers.colorImage.length ≠ 0) && true) = true then
                [Call.encodeRGB e₁.buffers.colorImage 2 2 1]
              else []) ∧
      e₂.calls
        = [Call.encodeMono e₁.buffers.disparityMap 2 2 9]
          ++ (if (decide (e₁.buffers.colorImage.length ≠ 0) && true) = true then
                [Call.encodeRGB e₁.buffers.colorImage 2 2 1]
              else []) ∧
      e₁.compressedDisparity
        = sampleEnv.encodeMonoImageToPNG e₁.buffers.disparityMap 2 2 6 ∧
      e₂.compressedDisparity
        = sampleEnv.encodeMonoImageToPNG e₁.buffers.disparityMap 2 2 9 ∧
      e₁.compressedRGB
        = (if (decide (e₁.buffers.colorImage.length ≠ 0) && true) = true then
            sampleEnv.encodeRGBImageToPNG e₁.buffers.colorImage 2 2 1
          else []) ∧
      e₁.out
        = frameLayout sampleEnv.frameHeaderIdentifier_ 2 2
            (sampleEnv.float.bits (-1)) (sampleEnv.float.bits 100)
            (sampleEnv.float.bits 3) (sampleEnv.float.bits 2)
            (toUInt32 e₁.compressedDisparity.length) e₁.compressedDisparity
            (toUInt32 e₁.compressedRGB.length) e₁.compressedRGB ∧
      e₂.out
        = frameLayout sampleEnv.frameHeaderIdentifier_ 2 2
            (sampleEnv.float.bits (-1)) (sampleEnv.float.bits 100)
            (sampleEnv.float.bits 3) (sampleEnv.float.bits 2)
            (toUInt32 e₂.compressedDisparity.length) e₂.compressedDisparity
            (toUInt32 e₁.compressedRGB.length) e₁.compressedRGB ∧
      e₁.out.drop
          (sampleEnv.frameHeaderIdentifier_.length + 28 + e₁.compressedDisparity.length)
        = le32 (toUInt32 e₁.compressedRGB.length) ++ e₁.compressedRGB ∧
      e₂.out.drop
          (sampleEnv.frameHeaderIdentifier_.length + 28 + e₂.compressedDisparity.length)
        = le32 (toUInt32 e₁.compressedRGB.length) ++ e₁.compressedRGB ∧
      ((decide (e₁.buffers.colorImage.length ≠ 0) && true) = true →
        Call.encodeRGB e₁.buffers.colorImage 2 2 1 ∈ e₁.calls ∧
        Call.encodeRGB e₁.buffers.colorImage 2 2 1 ∈ e₂.calls ∧
        e₁.compressedRGB
          = sampleEnv.encodeRGBImageToPNG e₁.buffers.colorImage 2 2 1)) ∧
    (sampleCloud.width > 1 ∧ sampleCloud.height > 1 ∧
      sampleCloud.width * sampleCloud.height = sampleCloud.points.length ∧
      ∃ e, encodePointCloud sampleEnv sampleCloud true false 6 = some e) ∧
    (([0, 5, 2047, 7] : List Nat).length = toUInt32 (2 * 2) ∧
      ([1, 2, 3, 4, 5, 6, 7, 8, 9, 10, 11, 12] : List Nat).length
        = 3 * ([0, 5, 2047, 7] : List Nat).length ∧
      ∃ e, encodeRawDisparityMapWithColorImage sampleEnv [0, 5, 2047, 7]
        [1, 2, 3, 4, 5, 6, 7, 8, 9, 10, 11, 12] 2 2 true false 6 100 2 3 = some e) := by
  have h1 := (quality_parameters sampleEnv).1 sampleCloud true false 6 9 _ _
    encode_sampleCloud encode_sampleCloud_level9
  have h2 := (quality_parameters sampleEnv).2.1 [0, 5, 2047, 7]
    [1, 2, 3, 4, 5, 6, 7, 8, 9, 10, 11, 12] 2 2 true false 6 9 100 2 3 _ _
    encodeRaw_sample encodeRaw_sample_level9
  have h3 := (quality_parameters sampleEnv).2.2.2.2.1 sampleCloud true false 6
    (by decide) (by decide) (by decide)
  have h4 := (quality_parameters sampleEnv).2.2.2.2.2 [0, 5, 2047, 7]
    [1, 2, 3, 4, 5, 6, 7, 8, 9, 10, 11, 12] 2 2 true false 6 100 2 3
    (by decide) (by decide)
  exact ⟨⟨_, _, encode_sampleCloud, encode_sampleCloud_level9, h1⟩,
    ⟨_, _, encodeRaw_sample, encodeRaw_sample_level9, h2⟩,
    ⟨by decide, by decide, by decide, h3⟩, ⟨by decide, by decide, h4⟩⟩

theorem encodePointCloud_stats (env : Collaborators) (cloud_arg : PointCloud)
    (doColorEncoding : Bool) (pngLevel_arg : Int) :
    (encodePointCloud env cloud_arg doColorEncoding true pngLevel_arg).map
        (fun e => (e.out, e.compressedDisparity, e.compressedRGB, e.calls))
      = (encodePointCloud env cloud_arg doColorEncoding false pngLevel_arg).map
        (fun e => (e.out, e.compressedDisparity, e.compressedRGB, e.calls)) := by
  unfold encodePointCloud
  cases analyzeOrganizedCloud cloud_arg with
  | none => rfl
  | some p => rfl

theorem encodeRaw_stats (env : Collaborators)
    (disparityMap_arg colorImage_arg : List Nat) (width_arg height_arg : Nat)
    (doColorEncoding : Bool) (pngLevel_arg : Int)
    (focalLength_arg disparityShift_arg disparityScale_arg : CFloat) :
    (encodeRawDisparityMapWithColorImage env disparityMap_arg colorImage_arg
          width_arg height_arg doColorEncoding true pngLevel_arg
          focalLength_arg disparityShift_arg disparityScale_arg).map
        (fun e => (e.out, e.compressedDisparity, e.compressedRGB, e.calls, e.buffers))
      = (encodeRawDisparityMapWithColorImage env disparityMap_arg colorImage_arg
          width_arg height_arg doColorEncoding false pngLevel_arg
          focalLength_arg disparityShift_arg disparityScale_arg).map
        (fun e => (e.out, e.compressedDisparity, e.compressedRGB, e.calls, e.buffers)) := by
  unfold encodeRawDisparityMapWithColorImage
  simp only
  split
  · rfl
  · split
    · rfl
    · cases sanitizeLoop (toUInt32 (width_arg * height_arg))
          { disparityMap := disparityMap_arg, colorImage := colorImage_arg } with
      | none => rfl
      | some b => rfl

theorem decode_stats (marker stream : List Byte) :
    (decodePointCloud marker stream true).withoutInfo
      = (decodePointCloud marker stream false).withoutInfo := by
  unfold decodePointCloud
  by_cases h : (syncLoop marker 0 stream).valid_stream = true
  · simp only [h, if_true]
    rfl
  · rw [Bool.not_eq_true] at h
    simp only [h, Bool.false_eq_true, if_false]
    rfl

/-- C17, statistics do not interfere: for every input, the bytes written by
each encode entry point (with the payloads, the calls of the collaborators and
the buffers left to the caller), and the success flag and all variables parsed
by `decodePointCloud`, are the same with `bShowStatistics_arg = true` as with
`bShowStatistics_arg = false`; an encode call completes with the one setting
exactly when it completes with the other. -/
theorem statistics_do_not_interfere (env : Collaborators) :
    (∀ (cloud_arg : PointCloud) (doColorEncoding : Bool) (pngLevel_arg : Int),
      (encodePointCloud env cloud_arg doColorEncoding true pngLevel_arg).map
          (fun e => (e.out, e.compressedDisparity, e.compressedRGB, e.calls))
        = (encodePointCloud env cloud_arg doColorEncoding false pngLevel_arg).map
          (fun e => (e.out, e.compressedDisparity, e.compressedRGB, e.calls))) ∧
    (∀ (disparityMap_arg colorImage_arg : List Nat) (width_arg height_arg : Nat)
        (doColorEncoding : Bool) (pngLevel_arg : Int)
        (focalLength_arg disparityShift_arg disparityScale_arg : CFloat),
      (encodeRawDisparityMapWithColorImage env disparityMap_arg colorImage_arg
            width_arg height_arg doColorEncoding true pngLevel_arg
            focalLength_arg disparityShift_arg disparityScale_arg).map
          (fun e => (e.out, e.compressedDisparity, e.compressedRGB, e.calls, e.buffers))
        = (encodeRawDisparityMapWithColorImage env disparityMap_arg colorImage_arg
            width_arg height_arg doColorEncoding false pngLevel_arg
            focalLength_arg disparityShift_arg disparityScale_arg).map
          (fun e => (e.out, e.compressedDisparity, e.compressedRGB, e.calls, e.buffers))) ∧
    (∀ (stream : List Byte),
      (decodePointCloud env.frameHeaderIdentifier_ stream true).withoutInfo
        = (decodePointCloud env.frameHeaderIdentifier_ stream false).withoutInfo) :=
  ⟨encodePointCloud_stats env, encodeRaw_stats env, decode_stats env.frameHeaderIdentifier_⟩

/-! ## Bounds of the sanitizing loop and the size checks -/

theorem mem_sanitizeWrites (cloud_size : Nat) (disparityMap : List Nat) (j : Nat) :
    j ∈ sanitizeWrites cloud_size disparityMap ↔
      ∃ i, i < cloud_size ∧ (disparityMap.getD i 0 = 0 ∨ disparityMap.getD i 0 = 0x7FF) ∧
        (j = 3 * i ∨ j = 3 * i + 1 ∨ j = 3 * i + 2) := by
  unfold sanitizeWrites
  rw [List.mem_flatMap]
  constructor
  · rintro ⟨i, hi, hj⟩
    rw [List.mem_range] at hi
    by_cases hinv : disparityMap.getD i 0 = 0 ∨ disparityMap.getD i 0 = 0x7FF
    · rw [if_pos hinv] at hj
      exact ⟨i, hi, hinv, by simpa using hj⟩
    · rw [if_neg hinv] at hj
      exact absurd hj (List.not_mem_nil _)
  · rintro ⟨i, hi, hinv, hj⟩
    refine ⟨i, List.mem_range.mpr hi, ?_⟩
    rw [if_pos hinv]
    simpa using hj

theorem sanitizeFrom_isSome_iff (depth : List Nat) :
    ∀ (n i : Nat) (color : List Nat), i + n ≤ depth.length →
      ((sanitizeFrom n i { disparityMap := depth, colorImage := color }).isSome = true ↔
        ∀ k, i ≤ k → k < i + n →
          (depth.getD k 0 = 0 ∨ depth.getD k 0 = 0x7FF) → 3 * k + 3 ≤ color.length) := by
  intro n
  induction n with
  | zero =>
    intro i color _
    simp only [sanitizeFrom, Option.isSome_some, true_iff]
    intro k h1 h2
    omega
  | succ n ih =>
    intro i color hi
    have hlt : i < depth.length := by omega
    have hget : depth[i]? = some (depth.getD i 0) := by
      simp [List.getElem?_eq_getElem hlt]
    unfold sanitizeFrom
    simp only [hget]
    by_cases hinv : depth.getD i 0 = 0 ∨ depth.getD i 0 = 0x7FF
    · rw [if_pos hinv]
      by_cases hb : 3 * i + 3 ≤ color.length
      · obtain ⟨c1, hm, hl1, -⟩ := memset3_spec color (3 * i) hb
        rw [hm]
        simp only
        rw [ih (i + 1) c1 (by omega), hl1]
        constructor
        · intro h k h1 h2 hk
          by_cases hki : k = i
          · subst hki; exact hb
          · exact h k (by omega) (by omega) hk
        · intro h k h1 h2 hk
          exact h k (by omega) (by omega) hk
      · have hm : memset3 color (3 * i) = none := by
          unfold memset3
          rw [if_neg hb]
        rw [hm]
        simp only [Option.isSome_none, Bool.false_eq_true, false_iff]
        intro h
        exact hb (h i (Nat.le_refl _) (by omega) hinv)
    · rw [if_neg hinv, ih (i + 1) color (by omega)]
      constructor
      · intro h k h1 h2 hk
        by_cases hki : k = i
        · subst hki; exact absurd hk hinv
        · exact h k (by omega) (by omega) hk
      · intro h k h1 h2 hk
        exact h k (by omega) (by omega) hk

theorem sanitizeLoop_isSome_iff (cloud_size : Nat) (depth color : List Nat)
    (hn : cloud_size ≤ depth.length) :
    (sanitizeLoop cloud_size { disparityMap := depth, colorImage := color }).isSome = true ↔
      ∀ j ∈ sanitizeWrites cloud_size depth, j < color.length := by
  unfold sanitizeLoop
  rw [sanitizeFrom_isSome_iff depth cloud_size 0 color (by omega)]
  constructor
  · intro h j hj
    obtain ⟨i, hi, hinv, hji⟩ := (mem_sanitizeWrites _ _ _).mp hj
    have := h i (Nat.zero_le _) (by omega) hinv
    omega
  · intro h k _ hk hinv
    have := h (3 * k + 2) ((mem_sanitizeWrites _ _ _).mpr ⟨k, by omega, hinv, Or.inr (Or.inr rfl)⟩)
    omega

/-- With a colour buffer of three bytes per depth sample every write of the
sanitizing loop is inside the colour buffer. -/
theorem sanitizeWrites_in_bounds (depth color : List Nat)
    (hc : color.length = 3 * depth.length) :
    ∀ j ∈ sanitizeWrites depth.length depth, j < color.length := by
  intro j hj
  obtain ⟨i, hi, -, hji⟩ := (mem_sanitizeWrites _ _ _).mp hj
  omega

/-- C18 on an empty colour buffer: the input meets the documented
preconditions (one depth sample for `width*height = 1`, colour buffer empty),
the depth sample is invalid, and the sanitizing loop writes the colour indices
0, 1 and 2, none of which is inside the empty buffer; the call has no defined
result. -/
theorem sanitizer_leaves_empty_buffer :
    [0].length = 1 * 1 ∧ ([] : List Nat).length = 0 ∧
    sanitizeWrites (toUInt32 (1 * 1)) [0] = [0, 1, 2] ∧
    (∀ j ∈ sanitizeWrites (toUInt32 (1 * 1)) [0], ¬ j < ([] : List Nat).length) ∧
    sanitizeLoop (toUInt32 (1 * 1)) { disparityMap := [0], colorImage := [] } = none ∧
    encodeRawDisparityMapWithColorImage sampleEnv [0] [] 1 1 true false 6 0 0 0 = none := by
  refine ⟨by decide, by decide, by decide, by decide, by decide, ?_⟩
  simp [encodeRawDisparityMapWithColorImage, sanitizeLoop, sanitizeFrom, memset3, toUInt32]

theorem sanitizeWrites_eq_nil_iff (depth : List Nat) :
    sanitizeWrites depth.length depth = [] ↔ ∀ d ∈ depth, ¬ (d = 0 ∨ d = 0x7FF) := by
  constructor
  · intro h d hd hinv
    obtain ⟨i, hi, hid⟩ := List.getElem_of_mem hd
    have hm : 3 * i ∈ sanitizeWrites depth.length depth :=
      (mem_sanitizeWrites _ _ _).mpr
        ⟨i, hi, by rw [List.getD_eq_getElem _ _ hi, hid]; exact hinv, Or.inl rfl⟩
    rw [h] at hm
    exact absurd hm (List.not_mem_nil _)
  · intro h
    apply List.eq_nil_iff_forall_not_mem.mpr
    intro j hj
    obtain ⟨i, hi, hinv, -⟩ := (mem_sanitizeWrites _ _ _).mp hj
    rw [List.getD_eq_getElem _ _ hi] at hinv
    exact h _ (List.getElem_mem hi) hinv

/-- With an empty colour buffer the raw entry point has a defined result
exactly when no depth sample is invalid. -/
theorem encodeRaw_empty_color_isSome (env : Collaborators)
    (disparityMap_arg : List Nat) (width_arg height_arg : Nat)
    (doColorEncoding stats : Bool) (pngLevel_arg : Int)
    (focalLength_arg disparityShift_arg disparityScale_arg : CFloat)
    (hd : disparityMap_arg.length = toUInt32 (width_arg * height_arg)) :
    (encodeRawDisparityMapWithColorImage env disparityMap_arg [] width_arg height_arg
        doColorEncoding stats pngLevel_arg
        focalLength_arg disparityShift_arg disparityScale_arg).isSome = true ↔
      ∀ d ∈ disparityMap_arg, ¬ (d = 0 ∨ d = 0x7FF) := by
  have hiff := sanitizeLoop_isSome_iff disparityMap_arg.length disparityMap_arg []
    (Nat.le_refl _)
  rw [← sanitizeWrites_eq_nil_iff]
  have hw : (∀ j ∈ sanitizeWrites disparityMap_arg.length disparityMap_arg,
      j < ([] : List Nat).length) ↔ sanitizeWrites disparityMap_arg.length disparityMap_arg = [] := by
    constructor
    · intro h
      apply List.eq_nil_iff_forall_not_mem.mpr
      intro j hj
      exact absurd (h j hj) (Nat.not_lt_zero _)
    · intro h j hj
      rw [h] at hj
      exact absurd hj (List.not_mem_nil _)
  rw [← hw, ← hiff]
  unfold encodeRawDisparityMapWithColorImage
  simp only [← hd, ne_eq, not_true_eq_false, if_false, List.length_nil, false_and]
  cases sanitizeLoop disparityMap_arg.length
      { disparityMap := disparityMap_arg, colorImage := [] } with
  | none => simp
  | some b => simp

/-- C11 on an empty raw colour buffer: the input meets the documented
preconditions (four depth samples for `width*height = 4`, colour buffer empty)
and its first depth sample is invalid, so the sanitizing loop writes the colour
indices 0, 1 and 2 behind the empty buffer, before a payload or a size field is
written: with colour encoding enabled or disabled the call has no defined
result, and no frame with the colour size field 0 is written. -/
theorem empty_color_buffer_unguarded :
    ([0, 5, 20, 7] : List Nat).length = 2 * 2 ∧ ([] : List Nat).length = 0 ∧
    sanitizeWrites (toUInt32 (2 * 2)) [0, 5, 20, 7] = [0, 1, 2] ∧
    memset3 [] (3 * 0) = none ∧
    (∀ (doColorEncoding stats : Bool) (pngLevel_arg : Int)
        (focalLength_arg disparityShift_arg disparityScale_arg : CFloat),
      encodeRawDisparityMapWithColorImage sampleEnv [0, 5, 20, 7] [] 2 2
        doColorEncoding stats pngLevel_arg
        focalLength_arg disparityShift_arg disparityScale_arg = none) := by
  refine ⟨by decide, by decide, by decide, by decide, ?_⟩
  intro doColorEncoding stats pngLevel_arg focalLength_arg disparityShift_arg
    disparityScale_arg
  simp [encodeRawDisparityMapWithColorImage, sanitizeLoop, sanitizeFrom, memset3, toUInt32]

/-- Without wrap-around the size checks are the documented ones: when
`width*height` fits 32 bits and the call completes, the depth buffer has
`width*height` samples and a non-empty colour buffer has three bytes each. -/
theorem size_checks_no_wrap (env : Collaborators)
    (disparityMap_arg colorImage_arg : List Nat) (width_arg height_arg : Nat)
    (doColorEncoding stats : Bool) (pngLevel_arg : Int)
    (focalLength_arg disparityShift_arg disparityScale_arg : CFloat) (e : RawEncoded)
    (hfit : width_arg * height_arg < 2 ^ 32)
    (he : encodeRawDisparityMapWithColorImage env disparityMap_arg colorImage_arg
          width_arg height_arg doColorEncoding stats pngLevel_arg
          focalLength_arg disparityShift_arg disparityScale_arg = some e) :
    disparityMap_arg.length = width_arg * height_arg ∧
    (colorImage_arg.length ≠ 0 → colorImage_arg.length = 3 * width_arg * height_arg) := by
  obtain ⟨h1, h2, -, -, -, -⟩ :=
    encodeRaw_some env disparityMap_arg colorImage_arg width_arg height_arg
      doColorEncoding stats pngLevel_arg focalLength_arg disparityShift_arg
      disparityScale_arg e he
  rw [toUInt32_of_lt hfit] at h1 h2
  refine ⟨h1, ?_⟩
  intro hne
  rcases h2 with h | h
  · exact absurd h hne
  · rw [h]
    ring

/-- C19 on a product that wraps: width and height 65536 are 32-bit values whose
product is `2^32`; the size checks pass for an empty depth buffer and the call
completes, although the depth buffer does not have `width*height` samples. -/
theorem size_check_wraps :
    (65536 : Nat) < 2 ^ 32 ∧
    ([] : List Nat).length ≠ 65536 * 65536 ∧
    toUInt32 (65536 * 65536) = 0 ∧
    (encodeRawDisparityMapWithColorImage sampleEnv [] [] 65536 65536 true false 6 0 0 0).isSome
      = true := by
  refine ⟨by decide, by decide, by decide, ?_⟩
  simp [encodeRawDisparityMapWithColorImage, sanitizeLoop, sanitizeFrom, toUInt32]

/-! ## Exact resynchronization -/

theorem syncLoop_fails_without_marker (marker : List Byte) :
    ∀ (stream : List Byte) (pos : Nat), pos < marker.length →
      ¬ marker <:+: marker.take pos ++ stream →
      (syncLoop marker pos stream).valid_stream = false ∧
      (syncLoop marker pos stream).stream.rest = [] := by
  intro stream
  induction stream with
  | nil =>
    intro pos hpos _
    unfold syncLoop
    rw [if_pos hpos]
    exact ⟨rfl, rfl⟩
  | cons c n ih =>
    intro pos hpos hno
    rw [syncLoop, if_pos hpos]
    by_cases hc : c = marker.getD pos 0
    · have hnext : nextHeaderIdPos marker pos c = pos + 1 := by
        rw [hc]; exact nextHeaderIdPos_match marker pos
      have htake : marker.take (pos + 1) ++ n = marker.take pos ++ c :: n := by
        rw [take_succ_getD marker pos hpos, hc]; simp
      rw [hnext]
      apply ih
      · by_contra hge
        have hlen : pos + 1 = marker.length := by omega
        apply hno
        rw [← htake, hlen, List.take_length]
        exact List.prefix_append _ _ |>.isInfix
      · rw [htake]; exact hno
    · by_cases h0 : marker.getD 0 0 = c
      · have hnext : nextHeaderIdPos marker pos c = 1 :=
          nextHeaderIdPos_restart marker pos c hc h0
        have hpos0 : pos ≠ 0 := by
          intro h; subst h; exact hc h0.symm
        rw [hnext]
        apply ih
        · omega
        · intro hin
          apply hno
          have h1 : marker.take 1 = [c] := by
            cases hmk : marker with
            | nil => simp [hmk] at hpos
            | cons a t => simp [hmk] at h0 ⊢; exact h0
          rw [h1] at hin
          exact hin.trans (List.suffix_append _ _).isInfix
      · have hnext : nextHeaderIdPos marker pos c = 0 :=
          nextHeaderIdPos_reset marker pos c hc h0
        rw [hnext]
        apply ih
        · omega
        · intro hin
          apply hno
          rw [List.take_zero, List.nil_append] at hin
          exact hin.trans ((List.suffix_cons c n).isInfix.trans (List.suffix_append _ _).isInfix)

theorem exists_firstOccurrence (marker stream : List Byte) (h : marker <:+: stream) :
    ∃ pre post, FirstOccurrence marker stream pre post := by
  classical
  have hex : ∃ k, ∃ pre post : List Byte, stream = pre ++ (marker ++ post) ∧ pre.length = k := by
    obtain ⟨s, t, hst⟩ := h
    exact ⟨s.length, s, t, by rw [← hst, List.append_assoc], rfl⟩
  obtain ⟨pre, post, hsplit, hlen⟩ := Nat.find_spec hex
  refine ⟨pre, post, hsplit, ?_⟩
  intro pre' post' h'
  rw [hlen]
  exact Nat.find_min' hex ⟨pre', post', h', rfl⟩

theorem syncLoop_firstOccurrence (marker stream pre post : List Byte)
    (hm : FirstByteOnce marker) (h : FirstOccurrence marker stream pre post) :
    syncLoop marker 0 stream
      = { valid_stream := true, headerIdPos := marker.length,
          stream := { rest := post, good := true } } := by
  obtain ⟨hsplit, hmin⟩ := h
  cases hmk : marker with
  | nil =>
    have h0 := hmin [] stream (by rw [hmk]; rfl)
    have hpre : pre = [] := List.eq_nil_of_length_eq_zero (by simpa using h0)
    rw [hsplit, hpre, hmk]
    exact syncLoop_done [] 0 (Nat.le_refl _) _
  | cons a t =>
    rw [← hmk, hsplit]
    apply syncLoop_after_noise marker pre post hm
    rintro ⟨s, u, hsu⟩
    have h1 := hmin s (u ++ (marker ++ post)) (by
      rw [hsplit, ← hsu]; simp only [List.append_assoc])
    have h2 : pre.length = s.length + marker.length + u.length := by
      rw [← hsu]; simp only [List.length_append]
    have h3 : 0 < marker.length := by rw [hmk]; simp
    omega


/-- C20, exact resynchronization: for every marker whose first byte occurs at
no later position of the marker, and every stream, the resynchronization loop
(and with it `decodePointCloud`) reports success if and only if the stream
contains the marker as a contiguous run; on success the loop has consumed
exactly the bytes up to and including the end of the first occurrence of the
marker, and in a stream that contains the marker there is a first occurrence. -/
theorem resync_exact (marker stream : List Byte) (hm : FirstByteOnce marker) :
    ((syncLoop marker 0 stream).valid_stream = true ↔ marker <:+: stream) ∧
    (∀ stats : Bool,
      (decodePointCloud marker stream stats).valid_stream = true ↔ marker <:+: stream) ∧
    (∀ pre post : List Byte, FirstOccurrence marker stream pre post →
      syncLoop marker 0 stream
        = { valid_stream := true, headerIdPos := marker.length,
            stream := { rest := post, good := true } } ∧
      stream.length - post.length = pre.length + marker.length) ∧
    (marker <:+: stream → ∃ pre post : List Byte, FirstOccurrence marker stream pre post) := by
  have hiff : (syncLoop marker 0 stream).valid_stream = true ↔ marker <:+: stream := by
    constructor
    · intro hv
      by_contra hno
      cases hmk : marker with
      | nil => exact hno (by rw [hmk]; exact List.nil_infix)
      | cons a t =>
        have hf := (syncLoop_fails_without_marker marker stream 0
          (by rw [hmk]; simp) (by simpa using hno)).1
        rw [hv] at hf
        cases hf
    · intro hin
      obtain ⟨pre, post, hfo⟩ := exists_firstOccurrence marker stream hin
      rw [syncLoop_firstOccurrence marker stream pre post hm hfo]
  refine ⟨hiff, ?_, ?_, exists_firstOccurrence marker stream⟩
  · intro stats
    rw [decode_valid_eq_sync]
    exact hiff
  · intro pre post hfo
    refine ⟨syncLoop_firstOccurrence marker stream pre post hm hfo, ?_⟩
    rw [hfo.1]
    simp only [List.length_append]
    omega

theorem resync_exact_witness :
    FirstByteOnce [60, 80, 62] ∧
    [60, 80, 62] <:+: [1, 60, 60, 80, 62, 7, 60, 80, 62] ∧
    (syncLoop [60, 80, 62] 0 [1, 60, 60, 80, 62, 7, 60, 80, 62]).valid_stream = true ∧
    syncLoop [60, 80, 62] 0 [1, 60, 60, 80, 62, 7, 60, 80, 62]
      = { valid_stream := true, headerIdPos := [60, 80, 62].length,
          stream := { rest := [7, 60, 80, 62], good := true } } ∧
    ¬ [60, 80, 62] <:+: [60, 80, 60, 62] ∧
    (syncLoop [60, 80, 62] 0 [60, 80, 60, 62]).valid_stream ≠ true := by
  have hm : FirstByteOnce [60, 80, 62] := by decide
  have hin : [60, 80, 62] <:+: [1, 60, 60, 80, 62, 7, 60, 80, 62] := by decide
  have hno : ¬ [60, 80, 62] <:+: [60, 80, 60, 62] := by decide
  have hfo : FirstOccurrence [60, 80, 62] [1, 60, 60, 80, 62, 7, 60, 80, 62]
      [1, 60] [7, 60, 80, 62] := by
    refine ⟨rfl, ?_⟩
    intro pre' post' h
    match pre', h with
    | [], h => simp at h
    | [_], h => simp at h
    | _ :: _ :: _, _ => simp
  exact ⟨hm, hin, (resync_exact _ _ hm).1.mpr hin,
    ((resync_exact _ _ hm).2.2.1 _ _ hfo).1, hno,
    fun h => hno ((resync_exact _ _ hm).1.mp h)⟩

/-! ## Invariant of the resynchronization loop -/

theorem syncLoop_trace (marker : List Byte) :
    ∀ (stream : List Byte) (pos : Nat),
      ∃ consumed : List Byte,
        stream = consumed ++ (syncLoop marker pos stream).stream.rest ∧
        (∀ k, k < consumed.length →
          (consumed.take k).foldl (nextHeaderIdPos marker) pos < marker.length) ∧
        (syncLoop marker pos stream).headerIdPos
          = consumed.foldl (nextHeaderIdPos marker) pos ∧
        ((syncLoop marker pos stream).valid_stream = true →
          marker.length ≤ (syncLoop marker pos stream).headerIdPos) ∧
        ((syncLoop marker pos stream).valid_stream = false →
          (syncLoop marker pos stream).stream.rest = []) := by
  intro stream
  induction stream with
  | nil =>
    intro pos
    refine ⟨[], ?_, ?_, ?_, ?_, ?_⟩
    · unfold syncLoop
      split <;> rfl
    · intro k hk
      exact absurd hk (Nat.not_lt_zero _)
    · unfold syncLoop
      split <;> rfl
    · unfold syncLoop
      split
      · intro h; cases h
      · rename_i hge
        intro _
        exact Nat.le_of_not_lt hge
    · unfold syncLoop
      split
      · intro _; rfl
      · intro h; cases h
  | cons c rest ih =>
    intro pos
    by_cases hlt : pos < marker.length
    · obtain ⟨consumed, h1, h2, h3, h4, h5⟩ := ih (nextHeaderIdPos marker pos c)
      have hs : syncLoop marker pos (c :: rest)
          = syncLoop marker (nextHeaderIdPos marker pos c) rest := by
        rw [syncLoop, if_pos hlt]
      rw [hs]
      refine ⟨c :: consumed, ?_, ?_, ?_, h4, h5⟩
      · rw [List.cons_append, ← h1]
      · intro k hk
        cases k with
        | zero => simpa using hlt
        | succ j =>
          rw [List.take_succ_cons, List.foldl_cons]
          exact h2 j (by simpa using hk)
      · rw [List.foldl_cons]
        exact h3
    · have hs : syncLoop marker pos (c :: rest)
          = { valid_stream := true, headerIdPos := pos,
              stream := { rest := c :: rest, good := true } } := by
        rw [syncLoop, if_neg hlt]
      rw [hs]
      refine ⟨[], rfl, ?_, rfl, ?_, ?_⟩
      · intro k hk
        exact absurd hk (Nat.not_lt_zero _)
      · intro _
        exact Nat.le_of_not_lt hlt
      · intro h; cases h

theorem nextHeaderIdPos_invariant (marker l : List Byte) (p : Nat) (c : Byte)
    (hp : p < marker.length) (hs : marker.take p <:+ l) :
    nextHeaderIdPos marker p c ≤ marker.length ∧
    marker.take (nextHeaderIdPos marker p c) <:+ l ++ [c] := by
  by_cases hc : c = marker.getD p 0
  · have hnext : nextHeaderIdPos marker p c = p + 1 := by
      rw [hc]; exact nextHeaderIdPos_match marker p
    rw [hnext, take_succ_getD marker p hp, ← hc]
    refine ⟨hp, ?_⟩
    obtain ⟨t, ht⟩ := hs
    exact ⟨t, by rw [← List.append_assoc, ht]⟩
  · by_cases h0 : marker.getD 0 0 = c
    · rw [nextHeaderIdPos_restart marker p c hc h0]
      have h1 : marker.take 1 = [c] := by
        cases hmk : marker with
        | nil => simp [hmk] at hp
        | cons a t => simp [hmk] at h0 ⊢; exact h0
      rw [h1]
      exact ⟨by omega, List.suffix_append _ _⟩
    · rw [nextHeaderIdPos_reset marker p c hc h0, List.take_zero]
      exact ⟨Nat.zero_le _, List.nil_suffix⟩

theorem headerIdPosAfter_invariant (marker : List Byte) :
    ∀ consumed : List Byte,
      (∀ k, k < consumed.length →
        headerIdPosAfter marker (consumed.take k) < marker.length) →
      headerIdPosAfter marker consumed ≤ marker.length ∧
      marker.take (headerIdPosAfter marker consumed) <:+ consumed := by
  intro consumed
  induction consumed using List.reverseRecOn with
  | nil =>
    intro _
    exact ⟨Nat.zero_le _, by simp [headerIdPosAfter]⟩
  | append_singleton l c ih =>
    intro h
    have hp : headerIdPosAfter marker l < marker.length := by
      have := h l.length (by simp)
      simpa using this
    have hl := ih (by
      intro k hk
      have := h k (by simp; omega)
      rwa [List.take_append_of_le_length (by omega)] at this)
    have hfold : headerIdPosAfter marker (l ++ [c])
        = nextHeaderIdPos marker (headerIdPosAfter marker l) c := by
      simp [headerIdPosAfter]
    rw [hfold]
    exact nextHeaderIdPos_invariant marker l _ c hp hl.2


theorem syncConsumed_eq (marker stream consumed : List Byte)
    (h : stream = consumed ++ (syncLoop marker 0 stream).stream.rest) :
    syncConsumed marker stream = consumed := by
  unfold syncConsumed
  have hlen : stream.length - (syncLoop marker 0 stream).stream.rest.length
      = consumed.length := by
    have := congrArg List.length h
    rw [List.length_append] at this
    omega
  rw [hlen]
  conv_lhs => rw [h]
  exact List.take_left' rfl

/-- C21, resynchronization invariant and soundness: for every marker and every
stream, the stream is the bytes consumed by the resynchronization loop followed
by what the loop leaves; after each consumed byte the match counter is at most
the marker length and the last `p` consumed bytes are the first `p` bytes of
the marker, `p` being the counter; when the loop (and with it
`decodePointCloud`) reports success the counter is the marker length and the
consumed bytes end with the full marker; when it reports failure it has
consumed the whole stream. -/
theorem resync_invariant (marker stream : List Byte) :
    stream = syncConsumed marker stream ++ (syncLoop marker 0 stream).stream.rest ∧
    (∀ k, k ≤ (syncConsumed marker stream).length →
      headerIdPosAfter marker ((syncConsumed marker stream).take k) ≤ marker.length ∧
      marker.take (headerIdPosAfter marker ((syncConsumed marker stream).take k))
        <:+ (syncConsumed marker stream).take k) ∧
    ((syncLoop marker 0 stream).valid_stream = true →
      (syncLoop marker 0 stream).headerIdPos = marker.length ∧
      marker <:+ syncConsumed marker stream) ∧
    ((syncLoop marker 0 stream).valid_stream = false →
      syncConsumed marker stream = stream ∧
      (syncLoop marker 0 stream).stream.rest = []) ∧
    (∀ stats : Bool,
      ((decodePointCloud marker stream stats).valid_stream = true →
        marker <:+ syncConsumed marker stream) ∧
      ((decodePointCloud marker stream stats).valid_stream = false →
        syncConsumed marker stream = stream)) := by
  obtain ⟨consumed, h1, h2, h3, h4, h5⟩ := syncLoop_trace marker stream 0
  have hc := syncConsumed_eq marker stream consumed h1
  rw [hc]
  have hinv : ∀ k, k ≤ consumed.length →
      headerIdPosAfter marker (consumed.take k) ≤ marker.length ∧
      marker.take (headerIdPosAfter marker (consumed.take k)) <:+ consumed.take k := by
    intro k hk
    apply headerIdPosAfter_invariant
    intro j hj
    have hjk : j < k := by
      rw [List.length_take] at hj
      omega
    rw [List.take_take, Nat.min_eq_left (Nat.le_of_lt hjk)]
    exact h2 j (by omega)
  have hsucc : (syncLoop marker 0 stream).valid_stream = true →
      (syncLoop marker 0 stream).headerIdPos = marker.length ∧ marker <:+ consumed := by
    intro hv
    have hge := h4 hv
    have hk := hinv consumed.length (Nat.le_refl _)
    rw [List.take_length] at hk
    have hfold : headerIdPosAfter marker consumed = (syncLoop marker 0 stream).headerIdPos :=
      h3.symm
    rw [hfold] at hk
    have heq : (syncLoop marker 0 stream).headerIdPos = marker.length :=
      Nat.le_antisymm hk.1 hge
    rw [heq, List.take_length] at hk
    exact ⟨heq, hk.2⟩
  have hfail : (syncLoop marker 0 stream).valid_stream = false →
      consumed = stream ∧ (syncLoop marker 0 stream).stream.rest = [] := by
    intro hv
    have hr := h5 hv
    refine ⟨?_, hr⟩
    conv_rhs => rw [h1, hr, List.append_nil]
  refine ⟨h1, hinv, hsucc, hfail, ?_⟩
  intro stats
  rw [decode_valid_eq_sync]
  exact ⟨fun hv => (hsucc hv).2, fun hv => (hfail hv).1⟩

theorem resync_invariant_witness :
    (syncLoop [97, 97, 98] 0 [97, 97, 97, 98, 97, 97, 98, 5]).valid_stream = true ∧
    ((syncLoop [97, 97, 98] 0 [97, 97, 97, 98, 97, 97, 98, 5]).headerIdPos
        = [97, 97, 98].length ∧
      [97, 97, 98] <:+ syncConsumed [97, 97, 98] [97, 97, 97, 98, 97, 97, 98, 5]) ∧
    (syncLoop [97, 97, 98] 0 [97, 97, 97, 98]).valid_stream = false ∧
    (syncConsumed [97, 97, 98] [97, 97, 97, 98] = [97, 97, 97, 98] ∧
      (syncLoop [97, 97, 98] 0 [97, 97, 97, 98]).stream.rest = []) :=
  ⟨by decide,
    (resync_invariant [97, 97, 98] [97, 97, 97, 98, 97, 97, 98, 5]).2.2.1 (by decide),
    by decide,
    (resync_invariant [97, 97, 98] [97, 97, 97, 98]).2.2.2.1 (by decide)⟩

end OrganizedCompression
